import Mathlib

/-!
IEEE 1588 timestamp correlation and clock arithmetic (`drivers/net/imx_ptp.c`).

A shallow embedding of the timestamp ring buffers, the consumer lookup, the
flush request, the 64-bit time conversion helpers, the hardware clock, the
packet classifier and the timestamp capture of the i.MX PTP driver, followed by
theorems about them.

Conventions of the embedding.

* C `int` ring indices (`front`, `end`, `size`) are natural numbers: they are
  only ever assigned `0`, a buffer size, or the result of `% size` on
  non-negative operands.  `fec_ptp_nelems` is computed in `Int`, as the C
  expression `size - (front - end)` can be negative on an ill-formed buffer.
* `u32` / `u64` values are natural numbers reduced `% 2^32` / `% 2^64` wherever
  the C code truncates.
* Operations that can misbehave in C return `Except Fault _`: a remainder by
  zero, a slot access outside the allocated block, or a loop that does not
  finish.
* Out-parameters (`*ts`, `*quotient`) are passed in and returned.
* Constants that the code takes from headers outside the sources at hand are
  parameters (`MsgCodes`, `BufSizes`, `RtcConsts`, `CaptureConsts`).
-/

namespace ImxPtp

/-! ## Data model -/

/-- Ways in which the C code can leave defined behaviour. -/
inductive Fault where
  /-- Remainder by zero, `x % 0`. -/
  | div_by_zero
  /-- An access to a slot outside the block obtained from `vmalloc` -/
  | out_of_bounds
  /-- The scan loop did not reach `end`. -/
  | no_return
  deriving DecidableEq, Repr

/-- The C type `struct ptp_time`. -/
structure ptp_time where
  sec : Nat
  nsec : Nat
  deriving DecidableEq, Repr

/-- The C type `struct fec_ptp_ident`; `spid` is the byte array `u8 spid[10]`. -/
structure fec_ptp_ident where
  version : Nat
  message_type : Nat
  seq_id : Nat
  spid : List Nat
  deriving DecidableEq, Repr

/-- The C type `struct fec_ptp_ts_data`. -/
structure fec_ptp_ts_data where
  ident : fec_ptp_ident
  ts : ptp_time
  deriving DecidableEq, Repr

/-- The C type `struct fec_ptp_circular`.  `data_buf` is the block returned by `vmalloc`;
its length is the number of slots that were allocated.  The C field `end` is
named `end_` here. -/
structure fec_ptp_circular where
  front : Nat
  end_ : Nat
  size : Nat
  data_buf : List fec_ptp_ts_data
  deriving DecidableEq, Repr

/-- The eight timestamp stores of `struct fec_ptp_private`. -/
structure fec_ptp_private where
  rx_time_sync : fec_ptp_circular
  rx_time_del_req : fec_ptp_circular
  rx_time_pdel_req : fec_ptp_circular
  rx_time_pdel_resp : fec_ptp_circular
  tx_time_sync : fec_ptp_circular
  tx_time_del_req : fec_ptp_circular
  tx_time_pdel_req : fec_ptp_circular
  tx_time_pdel_resp : fec_ptp_circular
  deriving DecidableEq, Repr

/-- Message-type codes used as `case` labels by the lookup functions.  They are
defined in a header that is not part of the sources at hand, so they are a
parameter of the embedding. -/
structure MsgCodes where
  PTP_MSG_SYNC : Nat
  PTP_MSG_DEL_REQ : Nat
  PTP_MSG_P_DEL_REQ : Nat
  PTP_MSG_P_DEL_RESP : Nat
  deriving DecidableEq, Repr

/-- Case labels of one `switch` are pairwise different (a C compiler rejects a
duplicate label). -/
def MsgCodes.distinct (K : MsgCodes) : Prop :=
  [K.PTP_MSG_SYNC, K.PTP_MSG_DEL_REQ, K.PTP_MSG_P_DEL_REQ, K.PTP_MSG_P_DEL_RESP].Nodup

instance (K : MsgCodes) : Decidable K.distinct := by
  unfold MsgCodes.distinct; infer_instance

/-- Default buffer sizes `DEFAULT_PTP_RX_BUF_SZ` and `DEFAULT_PTP_TX_BUF_SZ`,
defined in a header that is not part of the sources at hand. -/
structure BufSizes where
  DEFAULT_PTP_RX_BUF_SZ : Nat
  DEFAULT_PTP_TX_BUF_SZ : Nat
  deriving DecidableEq, Repr

/-! ## Ring buffer (`imx_ptp.c`, lines 69-165) -/

/-- Function `fec_ptp_init_circ`: `vmalloc` is the outcome of the allocation, `none` for a
failed one; a successful one yields a block whose contents are arbitrary. -/
def fec_ptp_init_circ (buf : fec_ptp_circular) (size : Nat)
    (vmalloc : Option (List fec_ptp_ts_data)) : Int × fec_ptp_circular :=
  match vmalloc with
  | none => (1, { buf with data_buf := [] })
  | some block => (0, { front := 0, end_ := 0, size := size, data_buf := block })

/-- Function `fec_ptp_calc_index`: `(curr_index + offset) % size`. -/
def fec_ptp_calc_index (size curr_index offset : Nat) : Except Fault Nat :=
  if size = 0 then .error .div_by_zero else .ok ((curr_index + offset) % size)

/-- Function `fec_ptp_is_empty`. -/
def fec_ptp_is_empty (buf : fec_ptp_circular) : Bool :=
  buf.front == buf.end_

/-- Function `fec_ptp_nelems`. -/
def fec_ptp_nelems (buf : fec_ptp_circular) : Int :=
  if buf.end_ > buf.front then (buf.end_ : Int) - (buf.front : Int)
  else if buf.end_ < buf.front then (buf.size : Int) - ((buf.front : Int) - (buf.end_ : Int))
  else 0

/-- Function `fec_ptp_is_full`. -/
def fec_ptp_is_full (buf : fec_ptp_circular) : Bool :=
  fec_ptp_nelems buf == (buf.size : Int) - 1

/-- Function `fec_ptp_insert`: returns the C return value and the updated buffer. -/
def fec_ptp_insert (ptp_buf : fec_ptp_circular) (data : fec_ptp_ts_data) :
    Except Fault (Int × fec_ptp_circular) :=
  let moved : Except Fault fec_ptp_circular :=
    if fec_ptp_is_full ptp_buf then
      match fec_ptp_calc_index ptp_buf.size ptp_buf.end_ 1 with
      | .error e => .error e
      | .ok e => .ok { ptp_buf with end_ := e }
    else .ok ptp_buf
  match moved with
  | .error e => .error e
  | .ok b =>
    if b.end_ < b.data_buf.length then
      match fec_ptp_calc_index b.size b.end_ 1 with
      | .error e => .error e
      | .ok e => .ok (0, { b with data_buf := b.data_buf.set b.end_ data, end_ := e })
    else .error .out_of_bounds

/-- Library function `memcmp(a, b, n)` on byte arrays; a byte beyond the end of a list reads as 0.
The result is zero exactly when the first `n` bytes agree. -/
def memcmp : List Nat → List Nat → Nat → Int
  | _, _, 0 => 0
  | a, b, n + 1 =>
    if a.headD 0 = b.headD 0 then memcmp a.tail b.tail n
    else (a.headD 0 : Int) - (b.headD 0 : Int)

/-- The comparison in the scan loop of `fec_ptp_find_and_remove`:
`tmp_ident->seq_id == ident->seq_id && !memcmp(tmp_ident->spid, ident->spid, 10)`. -/
def ident_match (tmp_ident ident : fec_ptp_ident) : Bool :=
  tmp_ident.seq_id == ident.seq_id && memcmp tmp_ident.spid ident.spid 10 == 0

/-- The `while (i != end)` loop of `fec_ptp_find_and_remove`, with a bound on the
number of iterations; the result is the value of `i` when the loop is left. -/
def find_loop (data_buf : List fec_ptp_ts_data) (ident : fec_ptp_ident)
    (size end_ : Nat) : Nat → Nat → Except Fault Nat
  | 0, _ => .error .no_return
  | fuel + 1, i =>
    if i ≠ end_ then
      match data_buf[i]? with
      | none => .error .out_of_bounds
      | some d =>
        if ident_match d.ident ident then .ok i
        else
          match fec_ptp_calc_index size i 1 with
          | .error e => .error e
          | .ok j => find_loop data_buf ident size end_ fuel j
    else .ok i

/-- Function `fec_ptp_find_and_remove`: returns the C return value, the updated buffer
and the contents of `*ts`.  The loop is given `size + 1` iterations, which is
enough whenever `end < size` (otherwise `i` never meets `end`). -/
def fec_ptp_find_and_remove (ptp_buf : fec_ptp_circular) (ident : fec_ptp_ident)
    (ts : ptp_time) : Except Fault (Int × fec_ptp_circular × ptp_time) :=
  let size := ptp_buf.size
  let end_ := ptp_buf.end_
  if fec_ptp_is_empty ptp_buf then .ok (1, ptp_buf, ts)
  else
    match find_loop ptp_buf.data_buf ident size end_ (size + 1) ptp_buf.front with
    | .error e => .error e
    | .ok i =>
      if i = end_ then
        if fec_ptp_is_full ptp_buf then
          match fec_ptp_calc_index size ptp_buf.front 1 with
          | .error e => .error e
          | .ok f => .ok (1, { ptp_buf with front := f }, ts)
        else .ok (1, ptp_buf, ts)
      else
        match ptp_buf.data_buf[i]? with
        | none => .error .out_of_bounds
        | some d => .ok (0, ptp_buf, d.ts)

/-! ## Consumer lookup (`imx_ptp.c`, lines 992-1120) -/

/-- The `switch (mode)` of `fec_get_tx_timestamp`: the matching `case` calls
`fec_ptp_find_and_remove` on the transmit store of that message type and
assigns its result to `flag`; `dflt` is the value `flag` has when no `case`
matches. -/
def tx_switch (K : MsgCodes) (priv : fec_ptp_private) (mode : Nat)
    (ident : fec_ptp_ident) (tx_time : ptp_time) (dflt : Int) :
    Except Fault (Int × fec_ptp_private × ptp_time) :=
  if mode = K.PTP_MSG_SYNC then
    match fec_ptp_find_and_remove priv.tx_time_sync ident tx_time with
    | .error e => .error e
    | .ok (flag, b, t) => .ok (flag, { priv with tx_time_sync := b }, t)
  else if mode = K.PTP_MSG_DEL_REQ then
    match fec_ptp_find_and_remove priv.tx_time_del_req ident tx_time with
    | .error e => .error e
    | .ok (flag, b, t) => .ok (flag, { priv with tx_time_del_req := b }, t)
  else if mode = K.PTP_MSG_P_DEL_REQ then
    match fec_ptp_find_and_remove priv.tx_time_pdel_req ident tx_time with
    | .error e => .error e
    | .ok (flag, b, t) => .ok (flag, { priv with tx_time_pdel_req := b }, t)
  else if mode = K.PTP_MSG_P_DEL_RESP then
    match fec_ptp_find_and_remove priv.tx_time_pdel_resp ident tx_time with
    | .error e => .error e
    | .ok (flag, b, t) => .ok (flag, { priv with tx_time_pdel_resp := b }, t)
  else .ok (dflt, priv, tx_time)

/-- Function `fec_get_tx_timestamp`: the first `switch` has `default: flag = 1`, the
second one, run when `flag` is non-zero, has no `default`.  Returns
`flag ? -1 : 0`, the stores and the contents of `*tx_time`. -/
def fec_get_tx_timestamp (K : MsgCodes) (priv : fec_ptp_private)
    (pts : fec_ptp_ts_data) (tx_time : ptp_time) :
    Except Fault (Int × fec_ptp_private × ptp_time) :=
  let mode := pts.ident.message_type
  match tx_switch K priv mode pts.ident tx_time 1 with
  | .error e => .error e
  | .ok (flag, priv1, t1) =>
    let retried : Except Fault (Int × fec_ptp_private × ptp_time) :=
      if flag ≠ 0 then tx_switch K priv1 mode pts.ident t1 flag
      else .ok (flag, priv1, t1)
    match retried with
    | .error e => .error e
    | .ok (flag2, priv2, t2) => .ok (if flag2 ≠ 0 then -1 else 0, priv2, t2)

/-- The `switch (mode)` of `fec_get_rx_timestamp`, on the receive stores. -/
def rx_switch (K : MsgCodes) (priv : fec_ptp_private) (mode : Nat)
    (ident : fec_ptp_ident) (rx_time : ptp_time) (dflt : Int) :
    Except Fault (Int × fec_ptp_private × ptp_time) :=
  if mode = K.PTP_MSG_SYNC then
    match fec_ptp_find_and_remove priv.rx_time_sync ident rx_time with
    | .error e => .error e
    | .ok (flag, b, t) => .ok (flag, { priv with rx_time_sync := b }, t)
  else if mode = K.PTP_MSG_DEL_REQ then
    match fec_ptp_find_and_remove priv.rx_time_del_req ident rx_time with
    | .error e => .error e
    | .ok (flag, b, t) => .ok (flag, { priv with rx_time_del_req := b }, t)
  else if mode = K.PTP_MSG_P_DEL_REQ then
    match fec_ptp_find_and_remove priv.rx_time_pdel_req ident rx_time with
    | .error e => .error e
    | .ok (flag, b, t) => .ok (flag, { priv with rx_time_pdel_req := b }, t)
  else if mode = K.PTP_MSG_P_DEL_RESP then
    match fec_ptp_find_and_remove priv.rx_time_pdel_resp ident rx_time with
    | .error e => .error e
    | .ok (flag, b, t) => .ok (flag, { priv with rx_time_pdel_resp := b }, t)
  else .ok (dflt, priv, rx_time)

/-- Function `fec_get_rx_timestamp`: as the transmit variant, but the return type is
`uint8_t`, so `flag ? -1 : 0` is 255 on failure. -/
def fec_get_rx_timestamp (K : MsgCodes) (priv : fec_ptp_private)
    (pts : fec_ptp_ts_data) (rx_time : ptp_time) :
    Except Fault (Int × fec_ptp_private × ptp_time) :=
  let mode := pts.ident.message_type
  match rx_switch K priv mode pts.ident rx_time 1 with
  | .error e => .error e
  | .ok (flag, priv1, t1) =>
    let retried : Except Fault (Int × fec_ptp_private × ptp_time) :=
      if flag ≠ 0 then rx_switch K priv1 mode pts.ident t1 flag
      else .ok (flag, priv1, t1)
    match retried with
    | .error e => .error e
    | .ok (flag2, priv2, t2) => .ok (if flag2 ≠ 0 then 255 else 0, priv2, t2)

/-! ## Initialisation and flush (`imx_ptp.c`, lines 1204-1237 and 1338-1354) -/

/-- Function `fec_ptp_init`: eight calls of `fec_ptp_init_circ`, whose return values are
ignored; `vmalloc k` is the outcome of the allocation made by call number `k`. -/
def fec_ptp_init (Z : BufSizes) (priv : fec_ptp_private)
    (vmalloc : Nat → Option (List fec_ptp_ts_data)) : Int × fec_ptp_private :=
  (0,
   { rx_time_sync := (fec_ptp_init_circ priv.rx_time_sync Z.DEFAULT_PTP_RX_BUF_SZ (vmalloc 0)).2
     rx_time_del_req := (fec_ptp_init_circ priv.rx_time_del_req Z.DEFAULT_PTP_RX_BUF_SZ (vmalloc 1)).2
     rx_time_pdel_req := (fec_ptp_init_circ priv.rx_time_pdel_req Z.DEFAULT_PTP_RX_BUF_SZ (vmalloc 2)).2
     rx_time_pdel_resp := (fec_ptp_init_circ priv.rx_time_pdel_resp Z.DEFAULT_PTP_RX_BUF_SZ (vmalloc 3)).2
     tx_time_sync := (fec_ptp_init_circ priv.tx_time_sync Z.DEFAULT_PTP_TX_BUF_SZ (vmalloc 4)).2
     tx_time_del_req := (fec_ptp_init_circ priv.tx_time_del_req Z.DEFAULT_PTP_TX_BUF_SZ (vmalloc 5)).2
     tx_time_pdel_req := (fec_ptp_init_circ priv.tx_time_pdel_req Z.DEFAULT_PTP_TX_BUF_SZ (vmalloc 6)).2
     tx_time_pdel_resp := (fec_ptp_init_circ priv.tx_time_pdel_resp Z.DEFAULT_PTP_TX_BUF_SZ (vmalloc 7)).2 })

/-- The `case PTP_FLUSH_TIMESTAMP:` branch of `fec_ptp_ioctl`; the ioctl then
returns `retval = 0`. -/
def fec_ptp_ioctl_PTP_FLUSH_TIMESTAMP (Z : BufSizes) (priv : fec_ptp_private) :
    Int × fec_ptp_private :=
  (0,
   { rx_time_sync :=
       { priv.rx_time_sync with front := 0, end_ := 0, size := Z.DEFAULT_PTP_RX_BUF_SZ + 1 }
     rx_time_del_req :=
       { priv.rx_time_del_req with front := 0, end_ := 0, size := Z.DEFAULT_PTP_RX_BUF_SZ + 1 }
     rx_time_pdel_req :=
       { priv.rx_time_pdel_req with front := 0, end_ := 0, size := Z.DEFAULT_PTP_RX_BUF_SZ + 1 }
     rx_time_pdel_resp :=
       { priv.rx_time_pdel_resp with front := 0, end_ := 0, size := Z.DEFAULT_PTP_RX_BUF_SZ + 1 }
     tx_time_sync :=
       { priv.tx_time_sync with front := 0, end_ := 0, size := Z.DEFAULT_PTP_TX_BUF_SZ + 1 }
     tx_time_del_req :=
       { priv.tx_time_del_req with front := 0, end_ := 0, size := Z.DEFAULT_PTP_TX_BUF_SZ + 1 }
     tx_time_pdel_req :=
       { priv.tx_time_pdel_req with front := 0, end_ := 0, size := Z.DEFAULT_PTP_TX_BUF_SZ + 1 }
     tx_time_pdel_resp :=
       { priv.tx_time_pdel_resp with front := 0, end_ := 0, size := Z.DEFAULT_PTP_TX_BUF_SZ + 1 } })

/-! ## 64-bit arithmetic on 32-bit halves (`imx_ptp.c`, lines 241-329) -/

/-- Modelled from the spec: the macro `NANOSEC_IN_SEC` is defined in a header that
is not part of the sources at hand; the specification gives the divisor of the
time conversion as 1,000,000,000. -/
def NANOSEC_IN_SEC : Nat := 1000000000

/-- The body of the `for (i = 1; i <= 32; i++)` loop of `div64_oper`, run for the
`n` iterations that remain when the counter is `i`.  Returns `time_h` and
`*quotient`. -/
def div64_loop (divisor : Nat) : Nat → Nat → Nat → Nat → Nat → Nat × Nat
  | 0, _, time_h, _, quotient => (time_h, quotient)
  | n + 1, i, time_h, time_l, quotient =>
    let tmp_dividend := (time_h <<< 32) ||| time_l
    let tmp_dividend := (tmp_dividend <<< 1) % 2 ^ 64
    let time_h := (tmp_dividend >>> 32) % 2 ^ 32
    let time_l := tmp_dividend % 2 ^ 32
    let result := time_h / divisor
    let time_h := time_h % divisor
    let quotient := (quotient + (result <<< (32 - i)) % 2 ^ 32) % 2 ^ 32
    div64_loop divisor n (i + 1) time_h time_l quotient

/-- Function `div64_oper`: returns the function result (the remainder) and the final
contents of `*quotient`. -/
def div64_oper (dividend divisor quotient : Nat) : Except Fault (Nat × Nat) :=
  if divisor = 0 then .error .div_by_zero
  else
    let time_h := (dividend >>> 32) % 2 ^ 32
    let time_l := dividend % 2 ^ 32
    let time_h := time_h % divisor
    .ok (div64_loop divisor 32 1 time_h time_l quotient)

/-- Function `add64_oper`: `adds` adds the low halves and sets the carry flag, `adc` adds
the high halves and the carry. -/
def add64_oper (addend augend : Nat) : Nat :=
  let addendh := (addend >>> 32) % 2 ^ 32
  let addendl := addend % 2 ^ 32
  let augendh := (augend >>> 32) % 2 ^ 32
  let augendl := augend % 2 ^ 32
  let carry := (addendl + augendl) / 2 ^ 32
  let addendl := (addendl + augendl) % 2 ^ 32
  let addendh := (addendh + augendh + carry) % 2 ^ 32
  (addendh <<< 32) ||| addendl

/-- The body of the `for (i = 0; i < 32; i++)` loop of `multi64_oper`, run for the
`n` iterations that remain when the counter is `i`. -/
def multi64_loop (multiplier : Nat) : Nat → Nat → Nat → Nat → Nat
  | 0, _, _, result => result
  | n + 1, i, tmp_multi, result =>
    let result :=
      if tmp_multi &&& 1 ≠ 0 then add64_oper result ((multiplier <<< i) % 2 ^ 64)
      else result
    multi64_loop multiplier n (i + 1) (tmp_multi >>> 1) result

/-- Function `multi64_oper`. -/
def multi64_oper (multiplier multiplicand : Nat) : Nat :=
  multi64_loop multiplier 32 0 multiplicand 0

/-- Function `convert_rtc_time`: `*rtc_time` to `struct ptp_time`. -/
def convert_rtc_time (rtc_time : Nat) : Except Fault ptp_time :=
  match div64_oper rtc_time NANOSEC_IN_SEC 0 with
  | .error e => .error e
  | .ok (time_h, time_sec) => .ok { sec := time_sec, nsec := time_h }

/-- Function `convert_unsigned_time`. -/
def convert_unsigned_time (ptime : ptp_time) : Nat :=
  add64_oper (multi64_oper ptime.sec NANOSEC_IN_SEC) ptime.nsec

/-! ## Observations used to state the properties -/

/-- The four message classes that have a store. -/
inductive MsgClass where
  | sync
  | del_req
  | pdel_req
  | pdel_resp
  deriving DecidableEq, Repr

/-- The two directions. -/
inductive Direction where
  | tx
  | rx
  deriving DecidableEq, Repr

/-- The `case` label of a message class. -/
def MsgCodes.code (K : MsgCodes) : MsgClass → Nat
  | .sync => K.PTP_MSG_SYNC
  | .del_req => K.PTP_MSG_DEL_REQ
  | .pdel_req => K.PTP_MSG_P_DEL_REQ
  | .pdel_resp => K.PTP_MSG_P_DEL_RESP

/-- The store of a direction and message class. -/
def fec_ptp_private.store (priv : fec_ptp_private) : Direction → MsgClass → fec_ptp_circular
  | .tx, .sync => priv.tx_time_sync
  | .tx, .del_req => priv.tx_time_del_req
  | .tx, .pdel_req => priv.tx_time_pdel_req
  | .tx, .pdel_resp => priv.tx_time_pdel_resp
  | .rx, .sync => priv.rx_time_sync
  | .rx, .del_req => priv.rx_time_del_req
  | .rx, .pdel_req => priv.rx_time_pdel_req
  | .rx, .pdel_resp => priv.rx_time_pdel_resp

/-- Replace the store of a direction and message class. -/
def fec_ptp_private.setStore (priv : fec_ptp_private) (d : Direction) (c : MsgClass)
    (b : fec_ptp_circular) : fec_ptp_private :=
  match d, c with
  | .tx, .sync => { priv with tx_time_sync := b }
  | .tx, .del_req => { priv with tx_time_del_req := b }
  | .tx, .pdel_req => { priv with tx_time_pdel_req := b }
  | .tx, .pdel_resp => { priv with tx_time_pdel_resp := b }
  | .rx, .sync => { priv with rx_time_sync := b }
  | .rx, .del_req => { priv with rx_time_del_req := b }
  | .rx, .pdel_req => { priv with rx_time_pdel_req := b }
  | .rx, .pdel_resp => { priv with rx_time_pdel_resp := b }

/-- The consumer lookup of a direction. -/
def lookup (K : MsgCodes) (d : Direction) (priv : fec_ptp_private)
    (pts : fec_ptp_ts_data) (t : ptp_time) : Except Fault (Int × fec_ptp_private × ptp_time) :=
  match d with
  | .tx => fec_get_tx_timestamp K priv pts t
  | .rx => fec_get_rx_timestamp K priv pts t

/-- The failure value of the lookup of a direction: `-1` as `int`, 255 as
`uint8_t`. -/
def lookup_failure : Direction → Int
  | .tx => -1
  | .rx => 255

/-- The slot indices of the live records, oldest first: `front`, `front + 1`, ...
(mod `size`), `fec_ptp_nelems` of them. -/
def live_slots (buf : fec_ptp_circular) : List Nat :=
  (List.range (fec_ptp_nelems buf).toNat).map (fun k => (buf.front + k) % buf.size)

/-- The live records, oldest first. -/
def live_records (buf : fec_ptp_circular) : List fec_ptp_ts_data :=
  (live_slots buf).filterMap (fun i => buf.data_buf[i]?)

/-- A buffer as the code keeps it: at least one slot, `size` slots within the
allocation, both indices below `size`. -/
def well_formed (buf : fec_ptp_circular) : Prop :=
  0 < buf.size ∧ buf.size ≤ buf.data_buf.length ∧ buf.front < buf.size ∧ buf.end_ < buf.size

instance (buf : fec_ptp_circular) : Decidable (well_formed buf) := by
  unfold well_formed; infer_instance

/-- An operation on one store. -/
inductive RingOp where
  | insert (data : fec_ptp_ts_data)
  | find_and_remove (ident : fec_ptp_ident)
  deriving DecidableEq, Repr

/-- Run a sequence of operations on one store, stopping at the first fault. -/
def run_ops : List RingOp → fec_ptp_circular → Except Fault fec_ptp_circular
  | [], buf => .ok buf
  | .insert data :: ops, buf =>
    match fec_ptp_insert buf data with
    | .error e => .error e
    | .ok (_, b) => run_ops ops b
  | .find_and_remove ident :: ops, buf =>
    match fec_ptp_find_and_remove buf ident { sec := 0, nsec := 0 } with
    | .error e => .error e
    | .ok (_, b, _) => run_ops ops b

/-- Number of live records as a natural number. -/
def count (buf : fec_ptp_circular) : Nat :=
  if buf.front < buf.end_ then buf.end_ - buf.front
  else if buf.end_ < buf.front then buf.size - (buf.front - buf.end_)
  else 0

/-- The slots `i, i + 1, ...` (mod `N`), `m` of them. -/
def slots (N i m : Nat) : List Nat :=
  (List.range m).map (fun k => (i + k) % N)

/-- Whether the record in slot `s` matches `ident`. -/
def match_at (data_buf : List fec_ptp_ts_data) (ident : fec_ptp_ident) (s : Nat) : Bool :=
  match data_buf[s]? with
  | some d => ident_match d.ident ident
  | none => false

/-- The buffer a miss leaves behind: `front` moves on by one slot when the buffer
is full. -/
def after_miss (buf : fec_ptp_circular) : fec_ptp_circular :=
  if fec_ptp_is_full buf then { buf with front := (buf.front + 1) % buf.size } else buf

/-- The identity of a message: sequence id and source port id. -/
def identity (i : fec_ptp_ident) : Nat × List Nat := (i.seq_id, i.spid)

deriving instance DecidableEq for Except

/-! ## Sample values -/

/-- A 10-byte source port identity. -/
def sample_spid : List Nat := [0, 1, 2, 3, 4, 5, 6, 7, 8, 9]

/-- A record with sequence id `n`, captured at `n` s, `5 * n` ns. -/
def sample_record (n : Nat) : fec_ptp_ts_data :=
  { ident := { version := 2, message_type := 0, seq_id := n, spid := sample_spid },
    ts := { sec := n, nsec := 5 * n } }

/-- A full store of capacity 3: records 1 and 2 are live, slot 2 is free. -/
def sample_store : fec_ptp_circular :=
  { front := 0, end_ := 2, size := 3,
    data_buf := [sample_record 1, sample_record 2, sample_record 0] }

/-- A store of capacity 3 that holds record 1 only. -/
def sample_store_one : fec_ptp_circular :=
  { front := 0, end_ := 1, size := 3,
    data_buf := [sample_record 1, sample_record 0, sample_record 0] }

/-- Eight copies of `sample_store`. -/
def sample_priv : fec_ptp_private :=
  { rx_time_sync := sample_store, rx_time_del_req := sample_store,
    rx_time_pdel_req := sample_store, rx_time_pdel_resp := sample_store,
    tx_time_sync := sample_store, tx_time_del_req := sample_store,
    tx_time_pdel_req := sample_store, tx_time_pdel_resp := sample_store }

/-- Message-type codes 0, 1, 2, 3. -/
def sample_codes : MsgCodes :=
  { PTP_MSG_SYNC := 0, PTP_MSG_DEL_REQ := 1, PTP_MSG_P_DEL_REQ := 2, PTP_MSG_P_DEL_RESP := 3 }


/-! ## Hardware clock: registers and parameters (`imx_ptp.c`, lines 369-464 and 754-858) -/

/-- Register offsets, control bits, enumerators and array sizes that the clock
code takes from headers which are not part of the sources at hand; they are a
parameter of the embedding. -/
structure RtcConsts where
  PTP_TMR_CTRL : Nat
  PTP_TMR_TEVENT : Nat
  PTP_TMR_TEMASK : Nat
  PTP_TMR_ADD : Nat
  PTP_TMR_PRSC : Nat
  PTP_TMR_OFF_L : Nat
  PTP_TMR_OFF_H : Nat
  PTP_TMR_ALARM1_L : Nat
  PTP_TMR_ALARM1_H : Nat
  PTP_TMR_ALARM2_L : Nat
  PTP_TMR_ALARM2_H : Nat
  PTP_TMR_FIPER1 : Nat
  PTP_TMR_FIPER2 : Nat
  PTP_TMR_FIPER3 : Nat
  RTC_TMR_CTRL_BYP : Nat
  RTC_TMR_CTRL_TCLK_PERIOD_SHIFT : Nat
  RTC_TMR_CTRL_TCLK_PERIOD_MSK : Nat
  RTC_TMR_CTRL_CIPH : Nat
  RTC_TMR_CTRL_COPH : Nat
  RTC_TMR_CTRL_FS : Nat
  RTC_TMR_CTRL_ALMP1 : Nat
  RTC_TMR_CTRL_ETEP1 : Nat
  RTC_TMR_CTRL_CKSEL_EXT_CLK : Nat
  RTC_TMR_CTRL_TMSR : Nat
  RTC_EVENT_ALL : Nat
  NANOSEC_PER_ONE_HZ_TICK : Nat
  PTP_RTC_NUM_OF_TRIGGERS : Nat
  e_PTP_RTC_PULSE_START_ON_ALARM : Nat
  e_PTP_RTC_ALARM_POLARITY_ACTIVE_LOW : Nat
  e_PTP_RTC_TRIGGER_ON_FALLING_EDGE : Nat
  e_PTP_RTC_ALARM_1 : Nat
  deriving DecidableEq, Repr

/-- Modelled from the spec: the macro `PTP_RTC_NUM_OF_PULSES` is defined in a header
that is not part of the sources at hand; the specification has 3 periodic pulse
channels. -/
def PTP_RTC_NUM_OF_PULSES : Nat := 3

/-- Modelled from the spec: the macro `PTP_RTC_NUM_OF_ALARMS` is defined in a header
that is not part of the sources at hand; the specification has 2 alarm
channels. -/
def PTP_RTC_NUM_OF_ALARMS : Nat := 2

/-- The register block behind `mem_map`: the writes made so far, oldest first,
each an offset and a 32-bit value. -/
abbrev io_mem := List (Nat × Nat)

/-- Kernel accessor `writel(val, mem_map + off)`. -/
def writel (val off : Nat) (mem_map : io_mem) : io_mem :=
  mem_map ++ [(off, val)]

/-- Kernel accessor `readl(mem_map + off)`: the value last written to the register;
a register that was never written reads as 0. -/
def readl (mem_map : io_mem) (off : Nat) : Nat :=
  match mem_map.reverse.find? (fun w => w.1 == off) with
  | some w => w.2
  | none => 0

/-- The C type `struct ptp_rtc_driver_param`, the fields that the code at hand
uses. -/
structure ptp_rtc_driver_param where
  rtc_freq_hz : Nat
  src_clock_freq_hz : Nat
  invert_input_clk_phase : Bool
  invert_output_clk_phase : Bool
  pulse_start_mode : Nat
  events_mask : Nat
  alarm_polarity : List Nat
  trigger_polarity : List Nat
  deriving DecidableEq, Repr

/-- The C type `struct ptp_rtc`, the fields that the code at hand uses. -/
structure ptp_rtc where
  mem_map : io_mem
  driver_param : ptp_rtc_driver_param
  bypass_compensation : Bool
  start_pulse_on_alarm : Bool
  clock_period_nansec : Nat
  output_clock_divisor : Nat
  deriving DecidableEq, Repr

/-- The C type `struct ptp`, the fields that the code at hand uses. -/
structure ptp where
  rtc : ptp_rtc
  orig_freq_comp : Nat
  deriving DecidableEq, Repr

/-- Subtraction of `u32` values, `a - b` modulo `2^32`. -/
def sub32 (a b : Nat) : Nat := (a % 2 ^ 32 + 2 ^ 32 - b % 2 ^ 32) % 2 ^ 32

/-- Subtraction of `u64` values, `a - b` modulo `2^64`. -/
def sub64 (a b : Nat) : Nat := (a % 2 ^ 64 + 2 ^ 64 - b % 2 ^ 64) % 2 ^ 64

/-- Division of `u32` values; a zero divisor is a fault. -/
def div32 (a b : Nat) : Except Fault Nat :=
  if b = 0 then .error .div_by_zero else .ok (a / b)

/-- Function `ptp_rtc_init`: returns `ret` and the updated device. -/
def ptp_rtc_init (R : RtcConsts) (p_ptp : ptp) : Except Fault (Int × ptp) :=
  let rtc := p_ptp.rtc
  let rtc_drv_param := rtc.driver_param
  let tmr_ctrl : Nat := 0
  let period : Except Fault (Nat × Nat) :=
    if !rtc.bypass_compensation then
      match div32 R.NANOSEC_PER_ONE_HZ_TICK rtc_drv_param.rtc_freq_hz with
      | .error e => .error e
      | .ok c => .ok (c, tmr_ctrl)
    else
      match div32 R.NANOSEC_PER_ONE_HZ_TICK rtc_drv_param.src_clock_freq_hz with
      | .error e => .error e
      | .ok c => .ok (c, tmr_ctrl ||| R.RTC_TMR_CTRL_BYP)
  match period with
  | .error e => .error e
  | .ok (clock_period_nansec, tmr_ctrl) =>
    let tmr_ctrl := tmr_ctrl |||
      (((clock_period_nansec <<< R.RTC_TMR_CTRL_TCLK_PERIOD_SHIFT) % 2 ^ 32)
        &&& R.RTC_TMR_CTRL_TCLK_PERIOD_MSK)
    let tmr_ctrl :=
      if rtc_drv_param.invert_input_clk_phase then tmr_ctrl ||| R.RTC_TMR_CTRL_CIPH
      else tmr_ctrl
    let tmr_ctrl :=
      if rtc_drv_param.invert_output_clk_phase then tmr_ctrl ||| R.RTC_TMR_CTRL_COPH
      else tmr_ctrl
    let gated := rtc_drv_param.pulse_start_mode == R.e_PTP_RTC_PULSE_START_ON_ALARM
    let tmr_ctrl := if gated then tmr_ctrl ||| R.RTC_TMR_CTRL_FS else tmr_ctrl
    let start_pulse_on_alarm := if gated then true else rtc.start_pulse_on_alarm
    let tmr_ctrl := (List.range PTP_RTC_NUM_OF_ALARMS).foldl
      (fun t i =>
        if rtc_drv_param.alarm_polarity.getD i 0 == R.e_PTP_RTC_ALARM_POLARITY_ACTIVE_LOW
        then t ||| (R.RTC_TMR_CTRL_ALMP1 >>> i) else t) tmr_ctrl
    let m := writel 0xFFFFFFFF R.PTP_TMR_ALARM1_L rtc.mem_map
    let m := writel 0xFFFFFFFF R.PTP_TMR_ALARM1_H m
    let m := writel 0xFFFFFFFF R.PTP_TMR_ALARM2_L m
    let m := writel 0xFFFFFFFF R.PTP_TMR_ALARM2_H m
    let tmr_ctrl := (List.range R.PTP_RTC_NUM_OF_TRIGGERS).foldl
      (fun t i =>
        if rtc_drv_param.trigger_polarity.getD i 0 == R.e_PTP_RTC_TRIGGER_ON_FALLING_EDGE
        then t ||| ((R.RTC_TMR_CTRL_ETEP1 <<< i) % 2 ^ 32) else t) tmr_ctrl
    let m := writel 0xFFFFFFFF R.PTP_TMR_FIPER1 m
    let m := writel 0xFFFFFFFF R.PTP_TMR_FIPER2 m
    let m := writel 0xFFFFFFFF R.PTP_TMR_FIPER3 m
    let tmr_ctrl := tmr_ctrl ||| R.RTC_TMR_CTRL_CKSEL_EXT_CLK
    let m := writel (tmr_ctrl ||| R.RTC_TMR_CTRL_TMSR) R.PTP_TMR_CTRL m
    let m := writel tmr_ctrl R.PTP_TMR_CTRL m
    let m := writel R.RTC_EVENT_ALL R.PTP_TMR_TEVENT m
    let m := writel rtc_drv_param.events_mask R.PTP_TMR_TEMASK m
    match div64_oper ((rtc_drv_param.rtc_freq_hz <<< 32) % 2 ^ 64)
        rtc_drv_param.src_clock_freq_hz 0 with
    | .error e => .error e
    | .ok (_, freq_compensation) =>
      let m := writel freq_compensation R.PTP_TMR_ADD m
      let m := writel rtc.output_clock_divisor R.PTP_TMR_PRSC m
      let m := writel 0 R.PTP_TMR_OFF_L m
      let m := writel 0 R.PTP_TMR_OFF_H m
      .ok (0, { rtc := { rtc with mem_map := m, clock_period_nansec := clock_period_nansec,
                                  start_pulse_on_alarm := start_pulse_on_alarm },
                orig_freq_comp := freq_compensation })

/-- Function `rtc_set_periodic_pulse`: returns 0 and the updated clock. -/
def rtc_set_periodic_pulse (R : RtcConsts) (rtc : ptp_rtc) (pulse_ID pulse_periodic : Nat) :
    Except Fault (Nat × ptp_rtc) :=
  let rounded : Except Fault Nat :=
    if rtc.start_pulse_on_alarm then
      match div32 ((pulse_periodic + rtc.clock_period_nansec) % 2 ^ 32)
          ((rtc.clock_period_nansec * rtc.output_clock_divisor) % 2 ^ 32) with
      | .error e => .error e
      | .ok factor =>
        let product :=
          (((factor * rtc.clock_period_nansec) % 2 ^ 32) * rtc.output_clock_divisor) % 2 ^ 32
        if product < (pulse_periodic + rtc.clock_period_nansec) % 2 ^ 32 then
          .ok (sub32 product rtc.clock_period_nansec)
        else .ok pulse_periodic
    else .ok pulse_periodic
  match rounded with
  | .error e => .error e
  | .ok pulse_periodic =>
    let pulse_periodic := sub32 pulse_periodic rtc.clock_period_nansec
    .ok (0, { rtc with
      mem_map := writel pulse_periodic (R.PTP_TMR_FIPER1 + pulse_ID * 4) rtc.mem_map })

/-- Function `ptp_rtc_set_periodic_pulse`: the `u32` return value (`-1` is
`0xFFFFFFFF`) and the updated device. -/
def ptp_rtc_set_periodic_pulse (R : RtcConsts) (p_ptp : ptp) (pulse_ID : Nat)
    (ptime : ptp_time) : Except Fault (Nat × ptp) :=
  if pulse_ID ≥ PTP_RTC_NUM_OF_PULSES then .ok (0xFFFFFFFF, p_ptp)
  else if (ptime.nsec : Int) < 0 then .ok (0xFFFFFFFF, p_ptp)
  else
    let pulse_periodic := convert_unsigned_time ptime
    if pulse_periodic > 0xFFFFFFFF then .ok (0xFFFFFFFF, p_ptp)
    else
      match rtc_set_periodic_pulse R p_ptp.rtc pulse_ID (pulse_periodic % 2 ^ 32) with
      | .error e => .error e
      | .ok (ret, rtc) => .ok (ret, { p_ptp with rtc := rtc })

/-- Function `rtc_set_alarm`: returns 0 and the updated clock. -/
def rtc_set_alarm (R : RtcConsts) (rtc : ptp_rtc) (alarm_ID alarm_time : Nat) :
    Nat × ptp_rtc :=
  let alarm_time :=
    if alarm_ID = R.e_PTP_RTC_ALARM_1 ∧ rtc.start_pulse_on_alarm = true then
      sub64 alarm_time ((3 * rtc.clock_period_nansec) % 2 ^ 32)
    else alarm_time
  let m := writel (alarm_time % 2 ^ 32) (R.PTP_TMR_ALARM1_L + alarm_ID * 4) rtc.mem_map
  let m := writel ((alarm_time >>> 32) % 2 ^ 32) (R.PTP_TMR_ALARM1_H + alarm_ID * 4) m
  let m :=
    if alarm_ID = R.e_PTP_RTC_ALARM_1 ∧ rtc.start_pulse_on_alarm = true then
      (List.range PTP_RTC_NUM_OF_PULSES).foldl
        (fun m i =>
          let fiper := readl m (R.PTP_TMR_FIPER1 + i * 4)
          writel fiper (R.PTP_TMR_FIPER1 + i * 4) m) m
    else m
  (0, { rtc with mem_map := m })

/-- Function `ptp_rtc_set_alarm`: the `u32` return value (`-1` is `0xFFFFFFFF`) and
the updated device. -/
def ptp_rtc_set_alarm (R : RtcConsts) (p_ptp : ptp) (alarm_ID : Nat) (ptime : ptp_time) :
    Nat × ptp :=
  if alarm_ID ≥ PTP_RTC_NUM_OF_ALARMS then (0xFFFFFFFF, p_ptp)
  else if (ptime.nsec : Int) < 0 then (0xFFFFFFFF, p_ptp)
  else
    let alarm_time := convert_unsigned_time ptime
    let r := rtc_set_alarm R p_ptp.rtc alarm_ID alarm_time
    (r.1, { p_ptp with rtc := r.2 })

/-! ## Sample clock -/

/-- Register offsets and bits for the examples: consecutive 32-bit registers. -/
def sample_rtc_consts : RtcConsts :=
  { PTP_TMR_CTRL := 0x20, PTP_TMR_TEVENT := 0x24, PTP_TMR_TEMASK := 0x28,
    PTP_TMR_ADD := 0x38, PTP_TMR_PRSC := 0x40, PTP_TMR_OFF_L := 0x44, PTP_TMR_OFF_H := 0x48,
    PTP_TMR_ALARM1_L := 0x4c, PTP_TMR_ALARM1_H := 0x50, PTP_TMR_ALARM2_L := 0x54,
    PTP_TMR_ALARM2_H := 0x58, PTP_TMR_FIPER1 := 0x5c, PTP_TMR_FIPER2 := 0x60,
    PTP_TMR_FIPER3 := 0x64,
    RTC_TMR_CTRL_BYP := 0x8, RTC_TMR_CTRL_TCLK_PERIOD_SHIFT := 16,
    RTC_TMR_CTRL_TCLK_PERIOD_MSK := 0x3FF0000, RTC_TMR_CTRL_CIPH := 0x40,
    RTC_TMR_CTRL_COPH := 0x80, RTC_TMR_CTRL_FS := 0x10000000, RTC_TMR_CTRL_ALMP1 := 0x80000000,
    RTC_TMR_CTRL_ETEP1 := 0x100, RTC_TMR_CTRL_CKSEL_EXT_CLK := 0, RTC_TMR_CTRL_TMSR := 0x20,
    RTC_EVENT_ALL := 0xFFFFFFFF, NANOSEC_PER_ONE_HZ_TICK := 1000000000,
    PTP_RTC_NUM_OF_TRIGGERS := 2, e_PTP_RTC_PULSE_START_ON_ALARM := 1,
    e_PTP_RTC_ALARM_POLARITY_ACTIVE_LOW := 1, e_PTP_RTC_TRIGGER_ON_FALLING_EDGE := 1,
    e_PTP_RTC_ALARM_1 := 0 }

/-- A device for the examples: nominal frequency `nominal`, source frequency
`source`, tick period 8 ns, output divisor 1, pulses gated on alarms when
`gated`, no register written yet. -/
def sample_ptp (nominal source : Nat) (gated : Bool) : ptp :=
  { rtc :=
      { mem_map := [],
        driver_param :=
          { rtc_freq_hz := nominal, src_clock_freq_hz := source,
            invert_input_clk_phase := false, invert_output_clk_phase := false,
            pulse_start_mode := if gated then 1 else 0, events_mask := 0,
            alarm_polarity := [0, 0], trigger_polarity := [0, 0] },
        bypass_compensation := false, start_pulse_on_alarm := gated,
        clock_period_nansec := 8, output_clock_divisor := 1 },
    orig_freq_comp := 0 }

/-- The words of the pulse rounding claim: `m` is a multiple of `M` nearest to
`P`, that is, no multiple of `M` is closer to `P` than `m`. -/
def is_nearest_multiple (M P m : Nat) : Prop :=
  M ∣ m ∧ ∀ k, M ∣ k → Int.natAbs ((m : Int) - P) ≤ Int.natAbs ((k : Int) - P)

/-! ## Packet classifier (`imx_ptp.c`, lines 894-990) -/

/-- The C type `struct sk_buff`, the fields that the code at hand uses: `data` is
the readable memory that starts at `skb->data`, `len` the length of the frame,
which occupies the first `len` bytes of that memory. -/
structure sk_buff where
  data : List Nat
  len : Nat
  deriving DecidableEq, Repr

/-- Modelled from the spec: the macro `ETH_ALEN` (kernel header, not part of the
sources at hand), the length of one of "the two MAC addresses", 6 bytes. -/
def ETH_ALEN : Nat := 6

/-- Modelled from the spec: the macro `ETH_P_8021Q` (kernel header, not part of
the sources at hand), the EtherType that "indicates an 802.1Q tag", 0x8100. -/
def ETH_P_8021Q : Nat := 0x8100

/-- Modelled from the spec: the macro `ETH_P_1588` (kernel header, not part of the
sources at hand), the EtherType of PTP over Ethernet, `0x88F7`. -/
def ETH_P_1588 : Nat := 0x88F7

/-- Modelled from the spec: the macro `ETH_P_IP` (kernel header, not part of the
sources at hand), the EtherType that "indicates IPv4", 0x0800. -/
def ETH_P_IP : Nat := 0x0800

/-- Modelled from the spec: the macro `ETH_P_IPV6` (kernel header, not part of the
sources at hand), the EtherType that "indicates IPv6", 0x86DD. -/
def ETH_P_IPV6 : Nat := 0x86DD

/-- Modelled from the spec: the macro `FEC_VLAN_TAG_LEN` (header not part of the
sources at hand), the length of the 802.1Q tag that is skipped, 4 bytes. -/
def FEC_VLAN_TAG_LEN : Nat := 4

/-- Modelled from the spec: the macro `FEC_ETHTYPE_LEN` (header not part of the
sources at hand), the length of the EtherType field, 2 bytes. -/
def FEC_ETHTYPE_LEN : Nat := 2

/-- Modelled from the spec: the macro `FEC_PACKET_TYPE_UDP` (header not part of the
sources at hand), the protocol number that "selects UDP", 17. -/
def FEC_PACKET_TYPE_UDP : Nat := 0x11

/-- Modelled from the spec: the macro `PTP_EVENT_PORT` (header not part of the
sources at hand), "the well-known PTP event port (319)". -/
def PTP_EVENT_PORT : Nat := 0x013F

/-- Read of the byte `skb->data[off]`; outside the readable memory it is a fault. -/
def load_u8 (skb : sk_buff) (off : Nat) : Except Fault Nat :=
  match skb.data[off]? with
  | some b => .ok b
  | none => .error .out_of_bounds

/-- Read of the 16-bit word `*((u16 *)(skb->data + off))`: its two bytes in memory
order. -/
def load_u16 (skb : sk_buff) (off : Nat) : Except Fault (Nat × Nat) :=
  match load_u8 skb off with
  | .error e => .error e
  | .ok b0 =>
    match load_u8 skb (off + 1) with
    | .error e => .error e
    | .ok b1 => .ok (b0, b1)

/-- Kernel function `ntohs` on a 16-bit word given by its bytes in memory order:
the first byte is the high one. -/
def ntohs (w : Nat × Nat) : Nat := w.1 * 256 + w.2

/-- Function `fec_ptp_parse_packet`: returns the position of the PTP header as an
offset from `skb->data` (`none` for `NULL`) and the contents of `*eth_type`.
`PTP_HEADER_SZE` is defined in a header that is not part of the sources at
hand and is a parameter. -/
def fec_ptp_parse_packet (PTP_HEADER_SZE : Nat) (skb : sk_buff) :
    Except Fault (Option Nat × (Nat × Nat)) :=
  let position := ETH_ALEN + ETH_ALEN
  match load_u16 skb position with
  | .error e => .error e
  | .ok eth_type =>
    let tagged : Except Fault (Nat × (Nat × Nat)) :=
      if ntohs eth_type = ETH_P_8021Q then
        match load_u16 skb (position + FEC_VLAN_TAG_LEN) with
        | .error e => .error e
        | .ok t => .ok (position + FEC_VLAN_TAG_LEN, t)
      else .ok (position, eth_type)
    match tagged with
    | .error e => .error e
    | .ok (position, eth_type) =>
      let position := position + FEC_ETHTYPE_LEN
      if ETH_P_1588 = ntohs eth_type then
        let ptp_loc := position
        match load_u8 skb ptp_loc with
        | .error e => .error e
        | .ok b0 =>
          if b0 &&& 0xF ≤ 3 then
            if skb.len ≥ ptp_loc + PTP_HEADER_SZE then .ok (some ptp_loc, eth_type)
            else .ok (none, eth_type)
          else .ok (none, eth_type)
      else if ETH_P_IP = ntohs eth_type then
        let ip_header := position
        match load_u8 skb ip_header with
        | .error e => .error e
        | .ok v =>
          let ip_version := v >>> 4
          if 0x04 = ip_version then
            match load_u8 skb (ip_header + 9) with
            | .error e => .error e
            | .ok prot =>
              if FEC_PACKET_TYPE_UDP = prot then
                let ip_hlen := ((v &&& 0xf) * 4) % 256
                let udp_header := ip_header + ip_hlen
                match load_u16 skb (udp_header + 2) with
                | .error e => .error e
                | .ok udp_dstPort =>
                  if ntohs udp_dstPort = PTP_EVENT_PORT then
                    let ptp_loc := udp_header + 8
                    if skb.len ≥ ptp_loc + PTP_HEADER_SZE then .ok (some ptp_loc, eth_type)
                    else .ok (none, eth_type)
                  else .ok (none, eth_type)
              else .ok (none, eth_type)
          else .ok (none, eth_type)
      else if ETH_P_IPV6 = ntohs eth_type then
        let ip_header := position
        match load_u8 skb ip_header with
        | .error e => .error e
        | .ok v =>
          let ip_version := v >>> 4
          if 0x06 = ip_version then
            match load_u8 skb (ip_header + 6) with
            | .error e => .error e
            | .ok prot =>
              if FEC_PACKET_TYPE_UDP = prot then
                let udp_header := ip_header + 40
                match load_u16 skb (udp_header + 2) with
                | .error e => .error e
                | .ok udp_dstPort =>
                  if ntohs udp_dstPort = PTP_EVENT_PORT then
                    let ptp_loc := udp_header + 8
                    if skb.len ≥ ptp_loc + PTP_HEADER_SZE then .ok (some ptp_loc, eth_type)
                    else .ok (none, eth_type)
                  else .ok (none, eth_type)
              else .ok (none, eth_type)
          else .ok (none, eth_type)
      else .ok (none, eth_type)

/-- Function `fec_ptp_do_txstamp`. -/
def fec_ptp_do_txstamp (PTP_HEADER_SZE : Nat) (skb : sk_buff) : Except Fault Int :=
  match fec_ptp_parse_packet PTP_HEADER_SZE skb with
  | .error e => .error e
  | .ok (ptp_loc, _) => if ptp_loc ≠ none then .ok 1 else .ok 0

/-! ## Observations on frames -/

/-- Byte `i` of the memory behind a frame (0 outside it). -/
def byte_at (skb : sk_buff) (i : Nat) : Nat := skb.data.getD i 0

/-- The big-endian 16-bit value at offsets `i`, `i + 1`. -/
def be16 (skb : sk_buff) (i : Nat) : Nat := byte_at skb i * 256 + byte_at skb (i + 1)

/-- Offset of the byte after the EtherType that decides: 14, or 18 behind one
802.1Q tag. -/
def after_ethertype (skb : sk_buff) : Nat :=
  if be16 skb 12 = 0x8100 then 18 else 14

/-- The EtherType that decides: the one at offset 12, or the one at offset 16
behind one 802.1Q tag. -/
def ethertype (skb : sk_buff) : Nat := be16 skb (after_ethertype skb - 2)

/-- The header offset that the classifier computes for a frame: right after the
EtherType for PTP over Ethernet, behind the IP header (4 bytes times the length
nibble for IPv4, 40 bytes for IPv6) and the 8-byte UDP header otherwise. -/
def header_offset (skb : sk_buff) : Nat :=
  if ethertype skb = 0x88F7 then after_ethertype skb
  else if ethertype skb = 0x0800 then
    after_ethertype skb + (byte_at skb (after_ethertype skb) &&& 0xf) * 4 + 8
  else after_ethertype skb + 40 + 8

/-- The words of the claim on rejected frames: the IPv4 protocol field (or IPv6
next-header byte) is not UDP, or the UDP destination port is not 319, or the IP
version nibble does not match the EtherType, or the EtherType is none of
PTP, IPv4, IPv6, or the length is smaller than the computed header offset plus
`PTP_HEADER_SZE`. -/
def listed_not_ptp (PTP_HEADER_SZE : Nat) (skb : sk_buff) : Prop :=
  (ethertype skb = 0x0800 ∧ byte_at skb (after_ethertype skb + 9) ≠ 0x11)
  ∨ (ethertype skb = 0x86DD ∧ byte_at skb (after_ethertype skb + 6) ≠ 0x11)
  ∨ ((ethertype skb = 0x0800 ∨ ethertype skb = 0x86DD)
      ∧ be16 skb (header_offset skb - 8 + 2) ≠ 319)
  ∨ (ethertype skb = 0x0800 ∧ byte_at skb (after_ethertype skb) >>> 4 ≠ 4)
  ∨ (ethertype skb = 0x86DD ∧ byte_at skb (after_ethertype skb) >>> 4 ≠ 6)
  ∨ (ethertype skb ≠ 0x88F7 ∧ ethertype skb ≠ 0x0800 ∧ ethertype skb ≠ 0x86DD)
  ∨ skb.len < header_offset skb + PTP_HEADER_SZE

instance (P : Nat) (skb : sk_buff) : Decidable (listed_not_ptp P skb) := by
  unfold listed_not_ptp; infer_instance

/-- The case that the list leaves out: a PTP-over-Ethernet frame whose first
header byte has low 4 bits above 3. -/
def ptp_not_event (skb : sk_buff) : Prop :=
  ethertype skb = 0x88F7 ∧ 3 < byte_at skb (after_ethertype skb) &&& 0xF

instance (skb : sk_buff) : Decidable (ptp_not_event skb) := by
  unfold ptp_not_event; infer_instance

/-- A frame of `n` bytes in a buffer of exactly `n` bytes: `head` followed by
zeros. -/
def frame_of (head : List Nat) (n : Nat) : sk_buff :=
  { data := (head ++ List.replicate n 0).take n, len := n }

/-- A Follow_Up message (message type 8) carried directly over Ethernet, 64
bytes. -/
def sample_follow_up : sk_buff :=
  frame_of [0, 0, 0, 0, 0, 0, 0, 0, 0, 0, 0, 0, 0x88, 0xF7, 0x08] 64

/-- A 60-byte IPv4/UDP frame whose IP header length nibble is 15. -/
def sample_long_ip_header : sk_buff :=
  frame_of [0, 0, 0, 0, 0, 0, 0, 0, 0, 0, 0, 0, 0x08, 0x00, 0x4F, 0, 0, 0, 0, 0, 0, 0, 0, 0x11] 60

/-- The classification in closed form: the header offset when the frame passes
every test of its encapsulation, `none` otherwise. -/
def classify (PTP_HEADER_SZE : Nat) (skb : sk_buff) : Option Nat :=
  if ethertype skb = 0x88F7 then
    if byte_at skb (after_ethertype skb) &&& 0xF ≤ 3
        ∧ header_offset skb + PTP_HEADER_SZE ≤ skb.len then some (header_offset skb)
    else none
  else if ethertype skb = 0x0800 then
    if byte_at skb (after_ethertype skb) >>> 4 = 4
        ∧ byte_at skb (after_ethertype skb + 9) = 0x11
        ∧ be16 skb (header_offset skb - 8 + 2) = 319
        ∧ header_offset skb + PTP_HEADER_SZE ≤ skb.len then some (header_offset skb)
    else none
  else if ethertype skb = 0x86DD then
    if byte_at skb (after_ethertype skb) >>> 4 = 6
        ∧ byte_at skb (after_ethertype skb + 6) = 0x11
        ∧ be16 skb (header_offset skb - 8 + 2) = 319
        ∧ header_offset skb + PTP_HEADER_SZE ≤ skb.len then some (header_offset skb)
    else none
  else none

/-- An IPv4/UDP frame to port 319 with a 20-byte IP header, 100 bytes. -/
def sample_ipv4_event : sk_buff :=
  frame_of ([0, 0, 0, 0, 0, 0, 0, 0, 0, 0, 0, 0, 0x08, 0x00, 0x45, 0, 0, 0, 0, 0, 0, 0, 0, 0x11]
    ++ List.replicate 10 0 ++ [0, 0, 0x01, 0x3F]) 100

/-! ## Timestamp capture (`imx_ptp.c`, lines 516-634) -/

/-- Constants of the capture code that come from headers which are not part of
the sources at hand: the descriptor flags, the offsets of the timestamp
registers, the offsets of the identity fields from `skb->data` and the control
value `PTP_MSG_ALL_OTHER`; they are a parameter of the embedding. -/
structure CaptureConsts where
  BD_ENET_TX_PTP : Nat
  BD_ENET_RX_PTP : Nat
  PTP_TMR_TXTS_H : Nat
  PTP_TMR_TXTS_L : Nat
  PTP_TMR_RXTS_H : Nat
  PTP_TMR_RXTS_L : Nat
  FEC_PTP_SEQ_ID_OFFS : Nat
  FEC_PTP_CTRL_OFFS : Nat
  FEC_PTP_SPORT_ID_OFFS : Nat
  FEC_PTP_MSG_TYPE_OFFS : Nat
  PTP_MSG_ALL_OTHER : Nat
  deriving DecidableEq, Repr

/-- The C type `struct bufdesc`, the field that the code at hand uses. -/
structure bufdesc where
  cbd_sc : Nat
  deriving DecidableEq, Repr

/-- Read of `n` bytes at `skb->data + off`, as `memcpy` makes it; outside the
readable memory it is a fault. -/
def load_bytes (skb : sk_buff) (off n : Nat) : Except Fault (List Nat) :=
  if off + n ≤ skb.data.length then .ok ((skb.data.drop off).take n)
  else .error .out_of_bounds

/-- Function `fec_ptp_store_txstamp`: returns the stores.  `mem_map` is the register
block behind `ptp_dev->mem_map`, `tmp_tx_time` the contents of the local
variable of that name, which the function does not initialise. -/
def fec_ptp_store_txstamp (C : CaptureConsts) (K : MsgCodes) (mem_map : io_mem)
    (priv : fec_ptp_private) (skb : sk_buff) (bdp : bufdesc)
    (tmp_tx_time : fec_ptp_ts_data) : Except Fault fec_ptp_private :=
  if bdp.cbd_sc &&& C.BD_ENET_TX_PTP = 0 then .ok priv
  else
    let timestamp := ((readl mem_map C.PTP_TMR_TXTS_H % 2 ^ 32) <<< 32)
      ||| (readl mem_map C.PTP_TMR_TXTS_L % 2 ^ 32)
    match convert_rtc_time timestamp with
    | .error e => .error e
    | .ok ts =>
      match load_u16 skb C.FEC_PTP_SEQ_ID_OFFS with
      | .error e => .error e
      | .ok seq_id =>
        match load_u8 skb C.FEC_PTP_CTRL_OFFS with
        | .error e => .error e
        | .ok control =>
          match load_bytes skb C.FEC_PTP_SPORT_ID_OFFS 10 with
          | .error e => .error e
          | .ok sp_id =>
            let tmp_tx_time : fec_ptp_ts_data :=
              { ident := { tmp_tx_time.ident with seq_id := ntohs seq_id, spid := sp_id },
                ts := ts }
            if control = K.PTP_MSG_SYNC then
              match fec_ptp_insert priv.tx_time_sync tmp_tx_time with
              | .error e => .error e
              | .ok (_, b) => .ok { priv with tx_time_sync := b }
            else if control = K.PTP_MSG_DEL_REQ then
              match fec_ptp_insert priv.tx_time_del_req tmp_tx_time with
              | .error e => .error e
              | .ok (_, b) => .ok { priv with tx_time_del_req := b }
            else if control = C.PTP_MSG_ALL_OTHER then
              match load_u8 skb C.FEC_PTP_MSG_TYPE_OFFS with
              | .error e => .error e
              | .ok m =>
                let msg_type := m &&& 0x0F
                if msg_type = K.PTP_MSG_P_DEL_REQ then
                  match fec_ptp_insert priv.tx_time_pdel_req tmp_tx_time with
                  | .error e => .error e
                  | .ok (_, b) => .ok { priv with tx_time_pdel_req := b }
                else if msg_type = K.PTP_MSG_P_DEL_RESP then
                  match fec_ptp_insert priv.tx_time_pdel_resp tmp_tx_time with
                  | .error e => .error e
                  | .ok (_, b) => .ok { priv with tx_time_pdel_resp := b }
                else .ok priv
            else .ok priv

/-- Function `fec_ptp_store_rxstamp`: as the transmit variant, with the receive flag,
the receive timestamp registers and the receive stores. -/
def fec_ptp_store_rxstamp (C : CaptureConsts) (K : MsgCodes) (mem_map : io_mem)
    (priv : fec_ptp_private) (skb : sk_buff) (bdp : bufdesc)
    (tmp_rx_time : fec_ptp_ts_data) : Except Fault fec_ptp_private :=
  if bdp.cbd_sc &&& C.BD_ENET_RX_PTP = 0 then .ok priv
  else
    let timestamp := ((readl mem_map C.PTP_TMR_RXTS_H % 2 ^ 32) <<< 32)
      ||| (readl mem_map C.PTP_TMR_RXTS_L % 2 ^ 32)
    match convert_rtc_time timestamp with
    | .error e => .error e
    | .ok ts =>
      match load_u16 skb C.FEC_PTP_SEQ_ID_OFFS with
      | .error e => .error e
      | .ok seq_id =>
        match load_u8 skb C.FEC_PTP_CTRL_OFFS with
        | .error e => .error e
        | .ok control =>
          match load_bytes skb C.FEC_PTP_SPORT_ID_OFFS 10 with
          | .error e => .error e
          | .ok sp_id =>
            let tmp_rx_time : fec_ptp_ts_data :=
              { ident := { tmp_rx_time.ident with seq_id := ntohs seq_id, spid := sp_id },
                ts := ts }
            if control = K.PTP_MSG_SYNC then
              match fec_ptp_insert priv.rx_time_sync tmp_rx_time with
              | .error e => .error e
              | .ok (_, b) => .ok { priv with rx_time_sync := b }
            else if control = K.PTP_MSG_DEL_REQ then
              match fec_ptp_insert priv.rx_time_del_req tmp_rx_time with
              | .error e => .error e
              | .ok (_, b) => .ok { priv with rx_time_del_req := b }
            else if control = C.PTP_MSG_ALL_OTHER then
              match load_u8 skb C.FEC_PTP_MSG_TYPE_OFFS with
              | .error e => .error e
              | .ok m =>
                let msg_type := m &&& 0x0F
                if msg_type = K.PTP_MSG_P_DEL_REQ then
                  match fec_ptp_insert priv.rx_time_pdel_req tmp_rx_time with
                  | .error e => .error e
                  | .ok (_, b) => .ok { priv with rx_time_pdel_req := b }
                else if msg_type = K.PTP_MSG_P_DEL_RESP then
                  match fec_ptp_insert priv.rx_time_pdel_resp tmp_rx_time with
                  | .error e => .error e
                  | .ok (_, b) => .ok { priv with rx_time_pdel_resp := b }
                else .ok priv
            else .ok priv

/-! ## Observations on the capture, the division loop and the alarm registers -/

/-- The capture of a direction. -/
def capture (C : CaptureConsts) (K : MsgCodes) (d : Direction) (mem_map : io_mem)
    (priv : fec_ptp_private) (skb : sk_buff) (bdp : bufdesc) (tmp : fec_ptp_ts_data) :
    Except Fault fec_ptp_private :=
  match d with
  | .tx => fec_ptp_store_txstamp C K mem_map priv skb bdp tmp
  | .rx => fec_ptp_store_rxstamp C K mem_map priv skb bdp tmp

/-- Whether the descriptor carries the timestamp flag of a direction. -/
def flagged (C : CaptureConsts) (d : Direction) (bdp : bufdesc) : Prop :=
  match d with
  | .tx => bdp.cbd_sc &&& C.BD_ENET_TX_PTP ≠ 0
  | .rx => bdp.cbd_sc &&& C.BD_ENET_RX_PTP ≠ 0

instance (C : CaptureConsts) (d : Direction) (bdp : bufdesc) : Decidable (flagged C d bdp) := by
  unfold flagged; cases d <;> infer_instance

/-- The message class of a frame as the capture sees it: Sync or DelayRequest by
the control byte; for the control value `PTP_MSG_ALL_OTHER`, PeerDelayRequest or
PeerDelayResponse by the low 4 bits of the message-type byte; none otherwise.
The first label that applies decides. -/
def capture_class (C : CaptureConsts) (K : MsgCodes) (skb : sk_buff) : Option MsgClass :=
  if byte_at skb C.FEC_PTP_CTRL_OFFS = K.PTP_MSG_SYNC then some .sync
  else if byte_at skb C.FEC_PTP_CTRL_OFFS = K.PTP_MSG_DEL_REQ then some .del_req
  else if byte_at skb C.FEC_PTP_CTRL_OFFS = C.PTP_MSG_ALL_OTHER
      ∧ byte_at skb C.FEC_PTP_MSG_TYPE_OFFS &&& 0x0F = K.PTP_MSG_P_DEL_REQ then some .pdel_req
  else if byte_at skb C.FEC_PTP_CTRL_OFFS = C.PTP_MSG_ALL_OTHER
      ∧ byte_at skb C.FEC_PTP_MSG_TYPE_OFFS &&& 0x0F = K.PTP_MSG_P_DEL_RESP then some .pdel_resp
  else none

/-- The 64-bit value of the timestamp registers of a direction. -/
def captured_time (C : CaptureConsts) (d : Direction) (mem_map : io_mem) : Nat :=
  match d with
  | .tx => (readl mem_map C.PTP_TMR_TXTS_H % 2 ^ 32) * 2 ^ 32
      + readl mem_map C.PTP_TMR_TXTS_L % 2 ^ 32
  | .rx => (readl mem_map C.PTP_TMR_RXTS_H % 2 ^ 32) * 2 ^ 32
      + readl mem_map C.PTP_TMR_RXTS_L % 2 ^ 32

/-- The record that the capture makes of a frame: the big-endian 16-bit value at
the sequence id offset, the 10 bytes at the source port id offset, and the
timestamp registers in seconds and nanoseconds; the fields `version` and
`message_type` are whatever the local variable held. -/
def captured_record (C : CaptureConsts) (d : Direction) (mem_map : io_mem) (skb : sk_buff)
    (tmp : fec_ptp_ts_data) : fec_ptp_ts_data :=
  { ident :=
      { version := tmp.ident.version, message_type := tmp.ident.message_type,
        seq_id := be16 skb C.FEC_PTP_SEQ_ID_OFFS,
        spid := (skb.data.drop C.FEC_PTP_SPORT_ID_OFFS).take 10 },
    ts := { sec := captured_time C d mem_map / 1000000000 % 2 ^ 32,
            nsec := captured_time C d mem_map % 1000000000 } }

/-- The identity fields of a frame are within the readable memory. -/
def capture_readable (C : CaptureConsts) (skb : sk_buff) : Prop :=
  C.FEC_PTP_SEQ_ID_OFFS + 2 ≤ skb.data.length ∧ C.FEC_PTP_CTRL_OFFS < skb.data.length
    ∧ C.FEC_PTP_SPORT_ID_OFFS + 10 ≤ skb.data.length
    ∧ C.FEC_PTP_MSG_TYPE_OFFS < skb.data.length

instance (C : CaptureConsts) (skb : sk_buff) : Decidable (capture_readable C skb) := by
  unfold capture_readable; infer_instance

/-- The insertion that the capture makes for a class. -/
def capture_insert (d : Direction) (c : MsgClass) (priv : fec_ptp_private)
    (r : fec_ptp_ts_data) : Except Fault fec_ptp_private :=
  match fec_ptp_insert (priv.store d c) r with
  | .error e => .error e
  | .ok (_, b) => .ok (priv.setStore d c b)

/-- The loop of `div64_oper` once more, as a record of what each iteration
computes: the counter `i`, the value `((u64)time_h << 32) | time_l` before it is
shifted left by one, and `result`. -/
def div64_steps (divisor : Nat) : Nat → Nat → Nat → Nat → List (Nat × Nat × Nat)
  | 0, _, _, _ => []
  | n + 1, i, time_h, time_l =>
    let joined := (time_h <<< 32) ||| time_l
    let tmp_dividend := (joined <<< 1) % 2 ^ 64
    let time_h := (tmp_dividend >>> 32) % 2 ^ 32
    let time_l := tmp_dividend % 2 ^ 32
    let result := time_h / divisor
    (i, joined, result) :: div64_steps divisor n (i + 1) (time_h % divisor) time_l

/-- The iterations of `div64_oper` on a dividend and a non-zero divisor. -/
def div64_oper_steps (dividend divisor : Nat) : List (Nat × Nat × Nat) :=
  div64_steps divisor 32 1 (((dividend >>> 32) % 2 ^ 32) % divisor) (dividend % 2 ^ 32)

/-- The four alarm compare registers as `ptp_rtc_init` names them: low and high
half of channel 1, low and high half of channel 2. -/
def alarm_registers (R : RtcConsts) (m : io_mem) : (Nat × Nat) × (Nat × Nat) :=
  ((readl m R.PTP_TMR_ALARM1_L, readl m R.PTP_TMR_ALARM1_H),
   (readl m R.PTP_TMR_ALARM2_L, readl m R.PTP_TMR_ALARM2_H))

/-! ## Further sample values -/

/-- A store of capacity 4 whose two live records carry the same identity (that of
record 1) with different times, followed by record 2. -/
def sample_store_twins : fec_ptp_circular :=
  { front := 0, end_ := 3, size := 4,
    data_buf := [sample_record 1, { sample_record 1 with ts := { sec := 9, nsec := 9 } },
                 sample_record 2, sample_record 0] }

/-- The clock of `sample_ptp`, pulses gated on alarms, with output divisor 2. -/
def sample_rtc_divisor_2 : ptp_rtc :=
  { (sample_ptp 1 1 true).rtc with output_clock_divisor := 2 }

/-- The Sync transmit store after `fec_ptp_init` with default sizes 2 and blocks
of 2 slots, followed by the flush request. -/
def sample_flushed_store : fec_ptp_circular :=
  (fec_ptp_ioctl_PTP_FLUSH_TIMESTAMP { DEFAULT_PTP_RX_BUF_SZ := 2, DEFAULT_PTP_TX_BUF_SZ := 2 }
    (fec_ptp_init { DEFAULT_PTP_RX_BUF_SZ := 2, DEFAULT_PTP_TX_BUF_SZ := 2 } sample_priv
      (fun _ => some [sample_record 0, sample_record 0])).2).2.store .tx .sync

/-- Capture constants for the examples: the identity offsets are those of a PTP
header that starts at byte 42, behind an untagged Ethernet header, a 20-byte
IPv4 header and a UDP header (message type at 42, source port id at 42 + 20,
sequence id at 42 + 30, control at 42 + 32); `PTP_MSG_ALL_OTHER` is 5. -/
def sample_capture_consts : CaptureConsts :=
  { BD_ENET_TX_PTP := 0x0400, BD_ENET_RX_PTP := 0x0400,
    PTP_TMR_TXTS_H := 0xC0, PTP_TMR_TXTS_L := 0xC4,
    PTP_TMR_RXTS_H := 0xC8, PTP_TMR_RXTS_L := 0xCC,
    FEC_PTP_SEQ_ID_OFFS := 0x48, FEC_PTP_CTRL_OFFS := 0x4A,
    FEC_PTP_SPORT_ID_OFFS := 0x3E, FEC_PTP_MSG_TYPE_OFFS := 0x2A,
    PTP_MSG_ALL_OTHER := 5 }

/-- A 34-byte PTP header of a Delay_Req message: message type 1, version 2,
source port id `0xA0 .. 0xA9` at offset 20, sequence id `0x1234` at offset 30,
control 1 at offset 32. -/
def sample_ptp_header : List Nat :=
  [0x01, 0x02, 0, 44] ++ List.replicate 16 0
    ++ [0xA0, 0xA1, 0xA2, 0xA3, 0xA4, 0xA5, 0xA6, 0xA7, 0xA8, 0xA9]
    ++ [0x12, 0x34, 0x01, 0x7F]

/-- The header `sample_ptp_header` carried directly over Ethernet, 100 bytes. -/
def sample_ether_del_req : sk_buff :=
  frame_of ([0, 0, 0, 0, 0, 0, 0, 0, 0, 0, 0, 0, 0x88, 0xF7] ++ sample_ptp_header) 100

/-- The header `sample_ptp_header` carried over IPv4/UDP to port 319 with a
20-byte IP header, 100 bytes. -/
def sample_udp_del_req : sk_buff :=
  frame_of ([0, 0, 0, 0, 0, 0, 0, 0, 0, 0, 0, 0, 0x08, 0x00, 0x45, 0, 0, 0, 0, 0, 0, 0, 0, 0x11]
    ++ List.replicate 10 0 ++ [0, 0, 0x01, 0x3F, 0, 0, 0, 0] ++ sample_ptp_header) 100

/-- Eight empty stores of capacity 4. -/
def sample_empty_priv : fec_ptp_private :=
  (fec_ptp_init { DEFAULT_PTP_RX_BUF_SZ := 4, DEFAULT_PTP_TX_BUF_SZ := 4 } sample_priv
    (fun _ => some (List.replicate 4 (sample_record 0)))).2

/-- Timestamp registers that hold 5 s, 1007 ns for both directions. -/
def sample_tsu : io_mem := [(0xC0, 1), (0xC4, 705033711), (0xC8, 1), (0xCC, 705033711)]

/-! # Theorems -/

/-! ## Ring buffer: auxiliary facts -/

theorem nelems_eq_count (buf : fec_ptp_circular) (h : well_formed buf) :
    fec_ptp_nelems buf = (count buf : Int) := by
  obtain ⟨h0, _, hf, he⟩ := h
  unfold fec_ptp_nelems count
  split_ifs <;> omega

theorem nelems_toNat (buf : fec_ptp_circular) (h : well_formed buf) :
    (fec_ptp_nelems buf).toNat = count buf := by
  rw [nelems_eq_count buf h]; simp

theorem count_lt_size (buf : fec_ptp_circular) (h : well_formed buf) :
    count buf < buf.size := by
  obtain ⟨h0, _, hf, he⟩ := h
  unfold count
  split_ifs <;> omega

theorem front_add_count (buf : fec_ptp_circular) (h : well_formed buf) :
    (buf.front + count buf) % buf.size = buf.end_ := by
  obtain ⟨h0, _, hf, he⟩ := h
  unfold count
  split_ifs with h1 h2
  · rw [show buf.front + (buf.end_ - buf.front) = buf.end_ by omega]
    exact Nat.mod_eq_of_lt he
  · rw [show buf.front + (buf.size - (buf.front - buf.end_)) = buf.size + buf.end_ by omega,
      Nat.add_mod_left]
    exact Nat.mod_eq_of_lt he
  · rw [Nat.add_zero, Nat.mod_eq_of_lt hf]; omega

theorem count_eq_zero_iff (buf : fec_ptp_circular) (h : well_formed buf) :
    count buf = 0 ↔ buf.front = buf.end_ := by
  obtain ⟨h0, _, hf, he⟩ := h
  unfold count
  split_ifs <;> omega

theorem is_full_iff (buf : fec_ptp_circular) (h : well_formed buf) :
    fec_ptp_is_full buf = true ↔ count buf + 1 = buf.size := by
  unfold fec_ptp_is_full
  rw [nelems_eq_count buf h]
  simp only [beq_iff_eq]
  have := h.1
  omega

/-- Successor index modulo `size`. -/
theorem succ_mod_ne (N i : Nat) (hN : 1 < N) (hi : i < N) : (i + 1) % N ≠ i := by
  by_cases h : i + 1 < N
  · rw [Nat.mod_eq_of_lt h]; omega
  · have : i + 1 = N := by omega
    rw [this, Nat.mod_self]; omega

theorem add_mod_inj (N i a b : Nat) (ha : a < N) (hb : b < N)
    (h : (i + a) % N = (i + b) % N) : a = b := by
  have hN : 0 < N := by omega
  have h1 : (i + a) % N = (i % N + a) % N := (Nat.mod_add_mod i N a).symm
  have h2 : (i + b) % N = (i % N + b) % N := (Nat.mod_add_mod i N b).symm
  rw [h1, h2] at h
  have hi : i % N < N := Nat.mod_lt _ hN
  generalize i % N = j at h hi
  by_cases c1 : j + a < N <;> by_cases c2 : j + b < N
  · rw [Nat.mod_eq_of_lt c1, Nat.mod_eq_of_lt c2] at h; omega
  · rw [Nat.mod_eq_of_lt c1, Nat.mod_eq_sub_mod (by omega), Nat.mod_eq_of_lt (by omega)] at h; omega
  · rw [Nat.mod_eq_of_lt c2, Nat.mod_eq_sub_mod (by omega), Nat.mod_eq_of_lt (by omega)] at h; omega
  · rw [Nat.mod_eq_sub_mod (by omega), Nat.mod_eq_of_lt (by omega),
      Nat.mod_eq_sub_mod (a := j + b) (by omega), Nat.mod_eq_of_lt (by omega)] at h; omega

theorem slots_succ (N i m : Nat) (hi : i < N) :
    slots N i (m + 1) = i :: slots N ((i + 1) % N) m := by
  unfold slots
  rw [List.range_succ_eq_map, List.map_cons, List.map_map]
  congr 1
  · simp [Nat.mod_eq_of_lt hi]
  · apply List.map_congr_left
    intro k _
    simp only [Function.comp, Nat.succ_eq_add_one]
    rw [Nat.mod_add_mod]; congr 1; omega

theorem slots_concat (N i m : Nat) :
    slots N i (m + 1) = slots N i m ++ [(i + m) % N] := by
  unfold slots
  rw [List.range_succ, List.map_append]; rfl

theorem mem_slots (N i m s : Nat) : s ∈ slots N i m ↔ ∃ k < m, s = (i + k) % N := by
  unfold slots
  simp only [List.mem_map, List.mem_range]
  constructor
  · rintro ⟨k, hk, rfl⟩; exact ⟨k, hk, rfl⟩
  · rintro ⟨k, hk, rfl⟩; exact ⟨k, hk, rfl⟩

theorem slots_lt (N i m s : Nat) (hN : 0 < N) (h : s ∈ slots N i m) : s < N := by
  obtain ⟨k, _, rfl⟩ := (mem_slots N i m s).1 h
  exact Nat.mod_lt _ hN

theorem live_slots_eq (buf : fec_ptp_circular) (h : well_formed buf) :
    live_slots buf = slots buf.size buf.front (count buf) := by
  unfold live_slots slots
  rw [nelems_toNat buf h]

/-- The slot `end` is not a live slot. -/
theorem end_not_mem_slots (N i m : Nat) (hm : m < N) :
    (i + m) % N ∉ slots N i m := by
  intro hmem
  obtain ⟨k, hk, he⟩ := (mem_slots N i m _).1 hmem
  have := add_mod_inj N i m k hm (by omega) he
  omega

/-- The scan loop returns the first matching slot among the `m` slots that
separate `i` from `end`, or `end` when none matches. -/
theorem find_loop_eq (data_buf : List fec_ptp_ts_data) (ident : fec_ptp_ident)
    (N e : Nat) (hN : 0 < N) (hlen : N ≤ data_buf.length) :
    ∀ (m i fuel : Nat), i < N → m < N → (i + m) % N = e → m < fuel →
      find_loop data_buf ident N e fuel i
        = .ok (((slots N i m).find? (match_at data_buf ident)).getD e) := by
  intro m
  induction m with
  | zero =>
    intro i fuel hi _ he hfuel
    obtain ⟨fuel, rfl⟩ : ∃ f, fuel = f + 1 := ⟨fuel - 1, by omega⟩
    rw [Nat.add_zero, Nat.mod_eq_of_lt hi] at he
    simp [find_loop, he, slots]
  | succ m ih =>
    intro i fuel hi hm he hfuel
    obtain ⟨fuel, rfl⟩ : ∃ f, fuel = f + 1 := ⟨fuel - 1, by omega⟩
    have hne : i ≠ e := by
      intro hie
      have h1 : (i + (m + 1)) % N = (i + 0) % N := by
        rw [he, Nat.add_zero, Nat.mod_eq_of_lt hi, hie]
      have := add_mod_inj N i (m + 1) 0 hm hN h1
      omega
    have hil : i < data_buf.length := by omega
    rw [slots_succ N i m hi, List.find?_cons]
    unfold find_loop
    simp only [hne, ne_eq, not_false_eq_true, if_true, List.getElem?_eq_getElem hil]
    have hma : match_at data_buf ident i = ident_match data_buf[i].ident ident := by
      simp [match_at, List.getElem?_eq_getElem hil]
    rw [hma]
    cases hmt : ident_match data_buf[i].ident ident with
    | true => simp
    | false =>
      simp only [Bool.false_eq_true, if_false, fec_ptp_calc_index, Nat.pos_iff_ne_zero.1 hN]
      have hj : (i + 1) % N < N := Nat.mod_lt _ hN
      have hje : ((i + 1) % N + m) % N = e := by
        rw [Nat.mod_add_mod, ← he]; congr 1; omega
      exact ih ((i + 1) % N) fuel hj (by omega) hje (by omega)


theorem find_filterMap_slots (data_buf : List fec_ptp_ts_data) (ident : fec_ptp_ident) :
    ∀ (l : List Nat), (∀ s ∈ l, s < data_buf.length) →
      (l.filterMap (fun i => data_buf[i]?)).find? (fun r => ident_match r.ident ident)
        = (l.find? (match_at data_buf ident)).bind (fun s => data_buf[s]?) := by
  intro l
  induction l with
  | nil => intro _; rfl
  | cons s l ih =>
    intro hl
    have hs : s < data_buf.length := hl s (List.mem_cons_self _ _)
    have ih := ih (fun t ht => hl t (List.mem_cons_of_mem _ ht))
    rw [List.filterMap_cons, List.find?_cons]
    simp only [List.getElem?_eq_getElem hs, List.find?_cons]
    have hma : match_at data_buf ident s = ident_match data_buf[s].ident ident := by
      simp [match_at, List.getElem?_eq_getElem hs]
    rw [hma]
    cases hmt : ident_match data_buf[s].ident ident with
    | true => simp [List.getElem?_eq_getElem hs]
    | false => simpa using ih

theorem live_slots_lt_length (buf : fec_ptp_circular) (h : well_formed buf) :
    ∀ s ∈ live_slots buf, s < buf.data_buf.length := by
  intro s hs
  rw [live_slots_eq buf h] at hs
  have := slots_lt _ _ _ _ h.1 hs
  have := h.2.1
  omega

/-- Functional description of `fec_ptp_find_and_remove` on a well-formed buffer:
the oldest live record that matches decides the result. -/
theorem find_and_remove_eq (buf : fec_ptp_circular) (h : well_formed buf)
    (ident : fec_ptp_ident) (ts : ptp_time) :
    fec_ptp_find_and_remove buf ident ts =
      match (live_records buf).find? (fun r => ident_match r.ident ident) with
      | some r => .ok (0, buf, r.ts)
      | none => .ok (1, after_miss buf, ts) := by
  have hwf := h
  obtain ⟨h0, hlen, hf, he⟩ := h
  have hrec := find_filterMap_slots buf.data_buf ident (live_slots buf)
    (live_slots_lt_length buf hwf)
  unfold live_records
  rw [hrec, live_slots_eq buf hwf]
  unfold fec_ptp_find_and_remove
  by_cases hemp : buf.front = buf.end_
  · -- empty
    have hc : count buf = 0 := (count_eq_zero_iff buf hwf).2 hemp
    simp only [fec_ptp_is_empty, hemp, beq_self_eq_true, if_true, hc, slots, List.range_zero,
      List.map_nil, List.find?_nil, Option.bind]
    unfold after_miss
    split_ifs with hfull
    · have hs : buf.size = 1 := by
        have := (is_full_iff buf hwf).1 hfull
        omega
      have hf0 : buf.front = 0 := by omega
      have : (buf.front + 1) % buf.size = buf.front := by rw [hs, hf0]
      rw [this]
    · rfl
  · have hloop := find_loop_eq buf.data_buf ident buf.size buf.end_ h0 hlen (count buf)
      buf.front (buf.size + 1) hf (count_lt_size buf hwf) (front_add_count buf hwf)
      (by have := count_lt_size buf hwf; omega)
    simp only [fec_ptp_is_empty, beq_iff_eq, hemp, if_false, hloop, Bool.false_eq_true]
    cases hfind : (slots buf.size buf.front (count buf)).find? (match_at buf.data_buf ident) with
    | none =>
      simp only [Option.getD_none, if_true, Option.bind, after_miss, fec_ptp_calc_index,
        Nat.pos_iff_ne_zero.1 h0, if_false]
      split_ifs <;> rfl
    | some s =>
      have hmem : s ∈ slots buf.size buf.front (count buf) := List.mem_of_find?_eq_some hfind
      have hsN : s < buf.size := slots_lt _ _ _ _ h0 hmem
      have hsl : s < buf.data_buf.length := by omega
      have hse : s ≠ buf.end_ := by
        intro hse
        have := end_not_mem_slots buf.size buf.front (count buf) (count_lt_size buf hwf)
        rw [front_add_count buf hwf] at this
        exact this (hse ▸ hmem)
      simp only [Option.getD_some, hse, if_false, Option.bind, List.getElem?_eq_getElem hsl]

theorem insert_not_full (buf : fec_ptp_circular) (h : well_formed buf)
    (hnf : fec_ptp_is_full buf = false) (data : fec_ptp_ts_data) :
    fec_ptp_insert buf data
      = .ok (0, { buf with data_buf := buf.data_buf.set buf.end_ data,
                           end_ := (buf.end_ + 1) % buf.size }) := by
  obtain ⟨h0, hlen, hf, he⟩ := h
  have hel : buf.end_ < buf.data_buf.length := by omega
  simp [fec_ptp_insert, hnf, hel, fec_ptp_calc_index, Nat.pos_iff_ne_zero.1 h0]

theorem insert_full (buf : fec_ptp_circular) (h : well_formed buf)
    (hfull : fec_ptp_is_full buf = true) (data : fec_ptp_ts_data) :
    fec_ptp_insert buf data
      = .ok (0, { buf with data_buf := buf.data_buf.set ((buf.end_ + 1) % buf.size) data,
                           end_ := ((buf.end_ + 1) % buf.size + 1) % buf.size }) := by
  obtain ⟨h0, hlen, hf, he⟩ := h
  have hel : (buf.end_ + 1) % buf.size < buf.data_buf.length := by
    have := Nat.mod_lt (buf.end_ + 1) h0
    omega
  simp [fec_ptp_insert, hfull, hel, fec_ptp_calc_index, Nat.pos_iff_ne_zero.1 h0]

/-- In a full buffer the slot after `end` is `front`. -/
theorem full_end_succ (buf : fec_ptp_circular) (h : well_formed buf)
    (hfull : fec_ptp_is_full buf = true) : (buf.end_ + 1) % buf.size = buf.front := by
  have hc := (is_full_iff buf h).1 hfull
  have h1 := front_add_count buf h
  obtain ⟨h0, _, hf, he⟩ := h
  rw [← h1, Nat.mod_add_mod, show buf.front + count buf + 1 = buf.size + buf.front by omega,
    Nat.add_mod_left, Nat.mod_eq_of_lt hf]

theorem insert_well_formed (buf : fec_ptp_circular) (h : well_formed buf)
    (data : fec_ptp_ts_data) :
    ∃ b, fec_ptp_insert buf data = .ok (0, b) ∧ well_formed b ∧ b.size = buf.size
      ∧ b.data_buf.length = buf.data_buf.length := by
  have hwf := h
  obtain ⟨h0, hlen, hf, he⟩ := h
  cases hfull : fec_ptp_is_full buf with
  | false =>
    refine ⟨_, insert_not_full buf hwf hfull data, ?_, rfl, by simp⟩
    exact ⟨h0, by simpa using hlen, hf, Nat.mod_lt _ h0⟩
  | true =>
    refine ⟨_, insert_full buf hwf hfull data, ?_, rfl, by simp⟩
    exact ⟨h0, by simpa using hlen, hf, Nat.mod_lt _ h0⟩

theorem after_miss_well_formed (buf : fec_ptp_circular) (h : well_formed buf) :
    well_formed (after_miss buf) ∧ (after_miss buf).size = buf.size
      ∧ (after_miss buf).data_buf = buf.data_buf ∧ (after_miss buf).end_ = buf.end_ := by
  obtain ⟨h0, hlen, hf, he⟩ := h
  unfold after_miss
  split_ifs
  · exact ⟨⟨h0, hlen, Nat.mod_lt _ h0, he⟩, rfl, rfl, rfl⟩
  · exact ⟨⟨h0, hlen, hf, he⟩, rfl, rfl, rfl⟩

theorem find_and_remove_well_formed (buf : fec_ptp_circular) (h : well_formed buf)
    (ident : fec_ptp_ident) (ts : ptp_time) :
    ∃ r b t, fec_ptp_find_and_remove buf ident ts = .ok (r, b, t) ∧ well_formed b
      ∧ b.size = buf.size ∧ b.data_buf = buf.data_buf := by
  rw [find_and_remove_eq buf h]
  cases (live_records buf).find? (fun r => ident_match r.ident ident) with
  | some r => exact ⟨0, buf, r.ts, rfl, h, rfl, rfl⟩
  | none =>
    have := after_miss_well_formed buf h
    exact ⟨1, after_miss buf, ts, rfl, this.1, this.2.1, this.2.2.1⟩


/-- The live count is determined by the distance from `front` to `end`. -/
theorem count_unique (buf : fec_ptp_circular) (h : well_formed buf) (m : Nat)
    (hm : m < buf.size) (he : (buf.front + m) % buf.size = buf.end_) : count buf = m := by
  have h1 := front_add_count buf h
  exact add_mod_inj buf.size buf.front (count buf) m (count_lt_size buf h) hm (h1.trans he.symm)

theorem live_records_eq (buf : fec_ptp_circular) (h : well_formed buf) :
    live_records buf
      = (slots buf.size buf.front (count buf)).filterMap (fun i => buf.data_buf[i]?) := by
  unfold live_records
  rw [live_slots_eq buf h]

theorem live_records_length (buf : fec_ptp_circular) (h : well_formed buf) :
    (live_records buf).length = count buf := by
  rw [live_records_eq buf h]
  have hall : ∀ (l : List Nat), (∀ s ∈ l, s < buf.data_buf.length) →
      (l.filterMap (fun i => buf.data_buf[i]?)).length = l.length := by
    intro l
    induction l with
    | nil => intro _; rfl
    | cons s l ih =>
      intro hl
      have hs : s < buf.data_buf.length := hl s (List.mem_cons_self _ _)
      rw [List.filterMap_cons]
      simp only [List.getElem?_eq_getElem hs, List.length_cons]
      rw [ih (fun t ht => hl t (List.mem_cons_of_mem _ ht))]
  rw [hall _ (fun s hs => by
    have := slots_lt _ _ _ _ h.1 hs
    have := h.2.1
    omega)]
  simp [slots]

/-- Appending: an insertion into a buffer that is not full adds the record after
the live ones. -/
theorem live_records_insert_not_full (buf : fec_ptp_circular) (h : well_formed buf)
    (hnf : fec_ptp_is_full buf = false) (data : fec_ptp_ts_data) :
    live_records { buf with data_buf := buf.data_buf.set buf.end_ data,
                            end_ := (buf.end_ + 1) % buf.size }
      = live_records buf ++ [data] := by
  have hwf := h
  obtain ⟨h0, hlen, hf, he⟩ := h
  have hc : count buf + 1 < buf.size := by
    have h1 := count_lt_size buf hwf
    have h2 : ¬ (count buf + 1 = buf.size) := by
      intro hh
      have := (is_full_iff buf hwf).2 hh
      rw [hnf] at this
      exact Bool.false_ne_true this
    omega
  have hwf' : well_formed { buf with data_buf := buf.data_buf.set buf.end_ data,
                                     end_ := (buf.end_ + 1) % buf.size } :=
    ⟨h0, by simpa using hlen, hf, Nat.mod_lt _ h0⟩
  have hcount : count { buf with data_buf := buf.data_buf.set buf.end_ data,
                                 end_ := (buf.end_ + 1) % buf.size } = count buf + 1 := by
    apply count_unique _ hwf' _ hc
    show (buf.front + (count buf + 1)) % buf.size = (buf.end_ + 1) % buf.size
    rw [← front_add_count buf hwf, Nat.mod_add_mod]; rfl
  rw [live_records_eq _ hwf', live_records_eq buf hwf, hcount]
  show (slots buf.size buf.front (count buf + 1)).filterMap
      (fun i => (buf.data_buf.set buf.end_ data)[i]?) = _
  rw [slots_concat, List.filterMap_append, front_add_count buf hwf]
  have hel : buf.end_ < buf.data_buf.length := by omega
  congr 1
  · apply List.filterMap_congr
    intro s hs
    have hne : buf.end_ ≠ s := by
      intro hes
      have := end_not_mem_slots buf.size buf.front (count buf) (count_lt_size buf hwf)
      rw [front_add_count buf hwf] at this
      exact this (hes ▸ hs)
    rw [List.getElem?_set_ne hne]
  · simp [List.getElem?_set_self hel]

/-- Dropping: a miss on a full buffer removes the oldest live record, a miss on
another buffer removes none. -/
theorem live_records_after_miss (buf : fec_ptp_circular) (h : well_formed buf) :
    live_records (after_miss buf)
      = if fec_ptp_is_full buf then (live_records buf).tail else live_records buf := by
  have hwf := h
  obtain ⟨h0, hlen, hf, he⟩ := h
  unfold after_miss
  split_ifs with hfull
  · have hc := (is_full_iff buf hwf).1 hfull
    have hwf' : well_formed { buf with front := (buf.front + 1) % buf.size } :=
      ⟨h0, hlen, Nat.mod_lt _ h0, he⟩
    by_cases hs1 : buf.size = 1
    · have hf0 : buf.front = 0 := by omega
      have hsame : ({ buf with front := (buf.front + 1) % buf.size } : fec_ptp_circular) = buf := by
        have : (buf.front + 1) % buf.size = buf.front := by rw [hs1, hf0]
        rw [this]
      rw [hsame]
      have hl := live_records_length buf hwf
      have : live_records buf = [] := by
        apply List.eq_nil_of_length_eq_zero
        omega
      rw [this]; rfl
    · obtain ⟨m, hm⟩ : ∃ m, count buf = m + 1 := ⟨count buf - 1, by omega⟩
      have hcount : count { buf with front := (buf.front + 1) % buf.size } = m := by
        apply count_unique _ hwf' _ (by show m < buf.size; omega)
        show ((buf.front + 1) % buf.size + m) % buf.size = buf.end_
        rw [Nat.mod_add_mod, ← front_add_count buf hwf, hm]; congr 1; omega
      rw [live_records_eq _ hwf', live_records_eq buf hwf, hcount, hm]
      show (slots buf.size ((buf.front + 1) % buf.size) m).filterMap
        (fun i => buf.data_buf[i]?) = _
      rw [slots_succ _ _ _ hf, List.filterMap_cons]
      have hfl : buf.front < buf.data_buf.length := by omega
      simp [List.getElem?_eq_getElem hfl]
  · rfl

theorem mem_live_records_after_miss (buf : fec_ptp_circular) (h : well_formed buf)
    (r : fec_ptp_ts_data) (hr : r ∈ live_records (after_miss buf)) : r ∈ live_records buf := by
  rw [live_records_after_miss buf h] at hr
  split_ifs at hr
  · exact List.mem_of_mem_tail hr
  · exact hr

/-- After a miss the buffer is not full unless it has a single slot. -/
theorem after_miss_not_full (buf : fec_ptp_circular) (h : well_formed buf)
    (h2 : 2 ≤ buf.size) : fec_ptp_is_full (after_miss buf) = false := by
  have hm := after_miss_well_formed buf h
  have hl := live_records_length _ hm.1
  have hl0 := live_records_length buf h
  rw [live_records_after_miss buf h] at hl
  cases hfull : fec_ptp_is_full (after_miss buf) with
  | false => rfl
  | true =>
    exfalso
    have hc' := (is_full_iff _ hm.1).1 hfull
    rw [hm.2.1] at hc'
    split_ifs at hl with hf
    · have hc := (is_full_iff buf h).1 hf
      rw [List.length_tail] at hl
      omega
    · have : fec_ptp_is_full buf = true := (is_full_iff buf h).2 (by omega)
      exact hf this


/-! ## Identity comparison -/

theorem memcmp_self : ∀ (n : Nat) (a : List Nat), memcmp a a n = 0 := by
  intro n
  induction n with
  | zero => intro a; rfl
  | succ n ih => intro a; unfold memcmp; simp [ih]

theorem memcmp_eq_zero : ∀ (n : Nat) (a b : List Nat), a.length = n → b.length = n →
    memcmp a b n = 0 → a = b := by
  intro n
  induction n with
  | zero =>
    intro a b ha hb _
    rw [List.length_eq_zero.1 ha, List.length_eq_zero.1 hb]
  | succ n ih =>
    intro a b ha hb h
    match a, b, ha, hb with
    | x :: a, y :: b, ha, hb =>
      unfold memcmp at h
      simp only [List.headD_cons, List.tail_cons] at h
      by_cases hxy : x = y
      · simp only [hxy, if_true] at h
        rw [hxy, ih a b (by simpa using ha) (by simpa using hb) h]
      · simp only [hxy, if_false] at h
        omega

theorem ident_match_of_identity (a b : fec_ptp_ident) (h : identity a = identity b) :
    ident_match a b = true := by
  unfold identity at h
  have h1 : a.seq_id = b.seq_id := congrArg Prod.fst h
  have h2 : a.spid = b.spid := congrArg Prod.snd h
  simp [ident_match, h1, h2, memcmp_self]

theorem identity_of_ident_match (a b : fec_ptp_ident) (ha : a.spid.length = 10)
    (hb : b.spid.length = 10) (h : ident_match a b = true) : identity a = identity b := by
  simp only [ident_match, Bool.and_eq_true, beq_iff_eq] at h
  unfold identity
  rw [h.1, memcmp_eq_zero 10 a.spid b.spid ha hb h.2]

/-! ## Consumer lookup: auxiliary facts -/

theorem store_setStore (priv : fec_ptp_private) (d : Direction) (c : MsgClass)
    (b : fec_ptp_circular) : (priv.setStore d c b).store d c = b := by
  cases d <;> cases c <;> rfl

theorem setStore_store (priv : fec_ptp_private) (d : Direction) (c : MsgClass) :
    priv.setStore d c (priv.store d c) = priv := by
  cases d <;> cases c <;> rfl

theorem setStore_setStore (priv : fec_ptp_private) (d : Direction) (c : MsgClass)
    (b b2 : fec_ptp_circular) : (priv.setStore d c b).setStore d c b2 = priv.setStore d c b2 := by
  cases d <;> cases c <;> rfl

theorem tx_switch_eq (K : MsgCodes) (hK : K.distinct) (c : MsgClass) (priv : fec_ptp_private)
    (mode : Nat) (ident : fec_ptp_ident) (t : ptp_time) (dflt : Int) (hmode : mode = K.code c) :
    tx_switch K priv mode ident t dflt =
      match fec_ptp_find_and_remove (priv.store .tx c) ident t with
      | .error e => .error e
      | .ok (flag, b, t1) => .ok (flag, priv.setStore .tx c b, t1) := by
  subst hmode
  unfold MsgCodes.distinct at hK
  simp only [List.nodup_cons, List.mem_cons, List.mem_singleton, not_or, List.not_mem_nil,
    not_false_eq_true, List.nodup_nil, and_true] at hK
  obtain ⟨⟨h12, h13, h14⟩, ⟨h23, h24⟩, h34⟩ := hK
  cases c
  · simp only [tx_switch, MsgCodes.code, fec_ptp_private.store, fec_ptp_private.setStore,
      if_true]
  · simp only [tx_switch, MsgCodes.code, fec_ptp_private.store, fec_ptp_private.setStore,
      Ne.symm h12, if_true, if_false]
  · simp only [tx_switch, MsgCodes.code, fec_ptp_private.store, fec_ptp_private.setStore,
      Ne.symm h13, Ne.symm h23, if_true, if_false]
  · simp only [tx_switch, MsgCodes.code, fec_ptp_private.store, fec_ptp_private.setStore,
      Ne.symm h14, Ne.symm h24, Ne.symm h34, if_true, if_false]

theorem rx_switch_eq (K : MsgCodes) (hK : K.distinct) (c : MsgClass) (priv : fec_ptp_private)
    (mode : Nat) (ident : fec_ptp_ident) (t : ptp_time) (dflt : Int) (hmode : mode = K.code c) :
    rx_switch K priv mode ident t dflt =
      match fec_ptp_find_and_remove (priv.store .rx c) ident t with
      | .error e => .error e
      | .ok (flag, b, t1) => .ok (flag, priv.setStore .rx c b, t1) := by
  subst hmode
  unfold MsgCodes.distinct at hK
  simp only [List.nodup_cons, List.mem_cons, List.mem_singleton, not_or, List.not_mem_nil,
    not_false_eq_true, List.nodup_nil, and_true] at hK
  obtain ⟨⟨h12, h13, h14⟩, ⟨h23, h24⟩, h34⟩ := hK
  cases c
  · simp only [rx_switch, MsgCodes.code, fec_ptp_private.store, fec_ptp_private.setStore,
      if_true]
  · simp only [rx_switch, MsgCodes.code, fec_ptp_private.store, fec_ptp_private.setStore,
      Ne.symm h12, if_true, if_false]
  · simp only [rx_switch, MsgCodes.code, fec_ptp_private.store, fec_ptp_private.setStore,
      Ne.symm h13, Ne.symm h23, if_true, if_false]
  · simp only [rx_switch, MsgCodes.code, fec_ptp_private.store, fec_ptp_private.setStore,
      Ne.symm h14, Ne.symm h24, Ne.symm h34, if_true, if_false]

/-- The lookup of a direction, for a message type that has a store: one call of
`fec_ptp_find_and_remove` on that store and, after a miss, one more. -/
theorem lookup_eq (K : MsgCodes) (hK : K.distinct) (d : Direction) (c : MsgClass)
    (priv : fec_ptp_private) (pts : fec_ptp_ts_data) (t0 : ptp_time)
    (hmode : pts.ident.message_type = K.code c) :
    lookup K d priv pts t0 =
      match fec_ptp_find_and_remove (priv.store d c) pts.ident t0 with
      | .error e => .error e
      | .ok (flag, b, t) =>
        if flag ≠ 0 then
          match fec_ptp_find_and_remove b pts.ident t with
          | .error e => .error e
          | .ok (flag2, b2, t2) =>
            .ok (if flag2 ≠ 0 then lookup_failure d else 0, priv.setStore d c b2, t2)
        else .ok (0, priv.setStore d c b, t) := by
  cases d
  · unfold lookup fec_get_tx_timestamp
    simp only []
    rw [tx_switch_eq K hK c priv _ _ _ _ hmode]
    cases h1 : fec_ptp_find_and_remove (priv.store .tx c) pts.ident t0 with
    | error e => rfl
    | ok res =>
      obtain ⟨flag, b, t⟩ := res
      simp only []
      by_cases hflag : flag = 0
      · simp [hflag]
      · simp only [ne_eq, hflag, not_false_eq_true, if_true]
        rw [tx_switch_eq K hK c _ _ _ _ _ hmode, store_setStore]
        cases h2 : fec_ptp_find_and_remove b pts.ident t with
        | error e => rfl
        | ok res2 =>
          obtain ⟨flag2, b2, t2⟩ := res2
          simp only [setStore_setStore, lookup_failure]
  · unfold lookup fec_get_rx_timestamp
    simp only []
    rw [rx_switch_eq K hK c priv _ _ _ _ hmode]
    cases h1 : fec_ptp_find_and_remove (priv.store .rx c) pts.ident t0 with
    | error e => rfl
    | ok res =>
      obtain ⟨flag, b, t⟩ := res
      simp only []
      by_cases hflag : flag = 0
      · simp [hflag]
      · simp only [ne_eq, hflag, not_false_eq_true, if_true]
        rw [rx_switch_eq K hK c _ _ _ _ _ hmode, store_setStore]
        cases h2 : fec_ptp_find_and_remove b pts.ident t with
        | error e => rfl
        | ok res2 =>
          obtain ⟨flag2, b2, t2⟩ := res2
          simp only [setStore_setStore, lookup_failure]

/-- The lookup on a well-formed store: the oldest matching live record decides. -/
theorem lookup_well_formed (K : MsgCodes) (hK : K.distinct) (d : Direction) (c : MsgClass)
    (priv : fec_ptp_private) (pts : fec_ptp_ts_data) (t0 : ptp_time)
    (hmode : pts.ident.message_type = K.code c) (hwf : well_formed (priv.store d c)) :
    lookup K d priv pts t0 =
      match (live_records (priv.store d c)).find? (fun r => ident_match r.ident pts.ident) with
      | some r => .ok (0, priv, r.ts)
      | none =>
        .ok (lookup_failure d, priv.setStore d c (after_miss (after_miss (priv.store d c))), t0) := by
  rw [lookup_eq K hK d c priv pts t0 hmode, find_and_remove_eq _ hwf]
  cases hfind : (live_records (priv.store d c)).find? (fun r => ident_match r.ident pts.ident) with
  | some r => simp [setStore_store]
  | none =>
    simp only [ne_eq, one_ne_zero, not_false_eq_true, if_true]
    have hwf1 := (after_miss_well_formed _ hwf).1
    rw [find_and_remove_eq _ hwf1]
    have hnone : (live_records (after_miss (priv.store d c))).find?
        (fun r => ident_match r.ident pts.ident) = none := by
      rw [List.find?_eq_none] at hfind ⊢
      intro r hr
      exact hfind r (mem_live_records_after_miss _ hwf r hr)
    rw [hnone]
    simp


/-! ## 64-bit arithmetic: auxiliary facts -/

theorem shl32_or (h l : Nat) (hl : l < 2 ^ 32) : (h <<< 32) ||| l = h * 2 ^ 32 + l := by
  rw [Nat.shiftLeft_eq, Nat.mul_comm h, ← Nat.mul_add_lt_is_or hl]

/-- Function `add64_oper` is addition modulo `2^64`. -/
theorem add64_oper_eq (x y : Nat) (hx : x < 2 ^ 64) (hy : y < 2 ^ 64) :
    add64_oper x y = (x + y) % 2 ^ 64 := by
  unfold add64_oper
  simp only []
  rw [shl32_or _ _ (Nat.mod_lt _ (by norm_num))]
  simp only [Nat.shiftRight_eq_div_pow]
  norm_num at hx hy ⊢
  omega

/-- The division loop with `n` iterations left: it divides the value
`(time_h : time_l) * 2^n / 2^32` by the divisor, adding the quotient to
`*quotient` modulo `2^32`. -/
theorem div64_loop_eq (d : Nat) (hd : 0 < d) (hd2 : d ≤ 2 ^ 31) :
    ∀ (n i h l q : Nat), i + n = 33 → h < d → l < 2 ^ 32 → q < 2 ^ 32 →
      div64_loop d n i h l q
        = (((h * 2 ^ 32 + l) * 2 ^ n / 2 ^ 32) % d,
           (q + ((h * 2 ^ 32 + l) * 2 ^ n / 2 ^ 32) / d) % 2 ^ 32) := by
  intro n
  induction n with
  | zero =>
    intro i h l q _ hh hl hq
    have hX : (h * 2 ^ 32 + l) * 2 ^ 0 / 2 ^ 32 = h := by
      norm_num at hl ⊢
      omega
    rw [hX, Nat.mod_eq_of_lt hh, Nat.div_eq_of_lt hh, Nat.add_zero, Nat.mod_eq_of_lt hq]
    rfl
  | succ n ih =>
    intro i h l q hi hh hl hq
    have hi' : 32 - i = n := by omega
    unfold div64_loop
    simp only []
    rw [shl32_or h l hl, hi']
    simp only [Nat.shiftLeft_eq, Nat.shiftRight_eq_div_pow, pow_one]
    have h63 : (h * 2 ^ 32 + l) * 2 < 2 ^ 64 := by
      norm_num at hl hd2 ⊢
      omega
    rw [Nat.mod_eq_of_lt h63]
    -- the shifted halves
    generalize hH : (h * 2 ^ 32 + l) * 2 / 2 ^ 32 % 2 ^ 32 = H
    generalize hL : (h * 2 ^ 32 + l) * 2 % 2 ^ 32 = L
    have hsplit : (h * 2 ^ 32 + l) * 2 = H * 2 ^ 32 + L := by
      norm_num at hl hd2 hH hL h63 ⊢
      omega
    have hLlt : L < 2 ^ 32 := by rw [← hL]; exact Nat.mod_lt _ (by norm_num)
    have hrem : H % d < d := Nat.mod_lt _ hd
    rw [ih (i + 1) (H % d) L _ (by omega) hrem hLlt (Nat.mod_lt _ (by norm_num))]
    -- relate the two dividends
    have hX : (h * 2 ^ 32 + l) * 2 ^ (n + 1) / 2 ^ 32
        = d * (H / d * 2 ^ n) + (H % d * 2 ^ 32 + L) * 2 ^ n / 2 ^ 32 := by
      have e1 : (h * 2 ^ 32 + l) * 2 ^ (n + 1) = (H * 2 ^ 32 + L) * 2 ^ n := by
        rw [← hsplit, pow_succ]; ring
      have e2 : (H * 2 ^ 32 + L) * 2 ^ n
          = (H % d * 2 ^ 32 + L) * 2 ^ n + 2 ^ 32 * (d * (H / d * 2 ^ n)) := by
        have := Nat.div_add_mod H d
        calc (H * 2 ^ 32 + L) * 2 ^ n
            = ((d * (H / d) + H % d) * 2 ^ 32 + L) * 2 ^ n := by rw [this]
          _ = _ := by ring
      rw [e1, e2, Nat.add_mul_div_left _ _ (by norm_num : 0 < 2 ^ 32), Nat.add_comm]
    rw [hX]
    generalize (H % d * 2 ^ 32 + L) * 2 ^ n / 2 ^ 32 = Y
    rw [Nat.mul_add_mod, Nat.mul_add_div hd]
    generalize H / d * 2 ^ n = z
    generalize Y / d = w
    congr 1
    norm_num
    omega

/-- Function `div64_oper` on a 64-bit dividend and a divisor of at most `2^31`: the
remainder is exact, the quotient is added to `*quotient` modulo `2^32`. -/
theorem div64_oper_eq (t d q : Nat) (ht : t < 2 ^ 64) (hd : 0 < d) (hd2 : d ≤ 2 ^ 31)
    (hq : q < 2 ^ 32) :
    div64_oper t d q = .ok (t % d, (q + t / d) % 2 ^ 32) := by
  unfold div64_oper
  simp only [Nat.pos_iff_ne_zero.1 hd, if_false, Nat.shiftRight_eq_div_pow]
  have hH : t / 2 ^ 32 % 2 ^ 32 = t / 2 ^ 32 := by
    norm_num at ht ⊢
    omega
  rw [hH, div64_loop_eq d hd hd2 32 1 _ _ q rfl (Nat.mod_lt _ hd) (Nat.mod_lt _ (by norm_num)) hq,
    Nat.mul_div_cancel _ (by norm_num : 0 < 2 ^ 32)]
  have ht' : t = d * (t / 2 ^ 32 / d * 2 ^ 32) + (t / 2 ^ 32 % d * 2 ^ 32 + t % 2 ^ 32) := by
    have h1 := Nat.div_add_mod t (2 ^ 32)
    have h2 := Nat.div_add_mod (t / 2 ^ 32) d
    calc t = 2 ^ 32 * (t / 2 ^ 32) + t % 2 ^ 32 := h1.symm
      _ = 2 ^ 32 * (d * (t / 2 ^ 32 / d) + t / 2 ^ 32 % d) + t % 2 ^ 32 := by rw [h2]
      _ = _ := by ring
  generalize hX : t / 2 ^ 32 % d * 2 ^ 32 + t % 2 ^ 32 = X at ht'
  have hmod : t % d = X % d := by
    conv_lhs => rw [ht']
    rw [Nat.mul_add_mod]
  have hdiv : t / d = t / 2 ^ 32 / d * 2 ^ 32 + X / d := by
    conv_lhs => rw [ht']
    rw [Nat.mul_add_div hd]
  rw [hmod, hdiv]
  congr 2
  generalize t / 2 ^ 32 / d = a
  generalize X / d = w
  norm_num
  omega

/-- The multiplication loop with `n` iterations left adds
`multiplier * 2^i * (tmp_multi mod 2^n)` to `result`, modulo `2^64`. -/
theorem multi64_loop_eq (a : Nat) :
    ∀ (n i m r : Nat), r < 2 ^ 64 →
      multi64_loop a n i m r = (r + a * 2 ^ i * (m % 2 ^ n)) % 2 ^ 64 := by
  intro n
  induction n with
  | zero =>
    intro i m r hr
    unfold multi64_loop
    rw [pow_zero, Nat.mod_one, Nat.mul_zero, Nat.add_zero, Nat.mod_eq_of_lt hr]
  | succ n ih =>
    intro i m r hr
    unfold multi64_loop
    simp only [Nat.and_one_is_mod, Nat.shiftLeft_eq, Nat.shiftRight_eq_div_pow, pow_one]
    have hm : m % 2 ^ (n + 1) = m % 2 + 2 * (m / 2 % 2 ^ n) := by
      rw [pow_succ, Nat.mul_comm, Nat.mod_mul]
    have hexp : a * 2 ^ i * (m % 2 ^ (n + 1))
        = a * 2 ^ i * (m % 2) + a * 2 ^ (i + 1) * (m / 2 % 2 ^ n) := by
      rw [hm, pow_succ]; ring
    rw [hexp]
    by_cases hodd : m % 2 = 0
    · simp only [hodd, ne_eq, not_true_eq_false, if_false, Nat.mul_zero, Nat.zero_add]
      rw [ih (i + 1) (m / 2) r hr]
    · have h1 : m % 2 = 1 := by omega
      simp only [h1, ne_eq, one_ne_zero, not_false_eq_true, if_true, Nat.mul_one]
      rw [add64_oper_eq r _ hr (Nat.mod_lt _ (by norm_num)),
        ih (i + 1) (m / 2) _ (Nat.mod_lt _ (by norm_num))]
      generalize a * 2 ^ (i + 1) * (m / 2 % 2 ^ n) = W
      generalize a * 2 ^ i = z
      norm_num
      omega

theorem multi64_oper_eq (a b : Nat) (ha : a < 2 ^ 32) (hb : b < 2 ^ 32) :
    multi64_oper a b = a * b := by
  unfold multi64_oper
  rw [multi64_loop_eq a 32 0 b 0 (by norm_num), Nat.mod_eq_of_lt hb]
  simp only [pow_zero, Nat.mul_one, Nat.zero_add]
  apply Nat.mod_eq_of_lt
  calc a * b < 2 ^ 32 * 2 ^ 32 := Nat.mul_lt_mul'' ha hb
    _ = 2 ^ 64 := by norm_num

theorem convert_unsigned_time_eq (s n : Nat) (hs : s < 2 ^ 32) (hn : n < 2 ^ 32) :
    convert_unsigned_time { sec := s, nsec := n } = s * 1000000000 + n := by
  unfold convert_unsigned_time
  simp only []
  rw [multi64_oper_eq s NANOSEC_IN_SEC hs (by unfold NANOSEC_IN_SEC; norm_num)]
  unfold NANOSEC_IN_SEC
  have h1 : s * 1000000000 < 2 ^ 64 := by norm_num at hs ⊢; omega
  rw [add64_oper_eq _ _ h1 (by norm_num at hn ⊢; omega)]
  norm_num at hs hn ⊢
  omega

theorem convert_rtc_time_eq (t : Nat) (ht : t < 2 ^ 64) :
    convert_rtc_time t
      = .ok { sec := t / 1000000000 % 2 ^ 32, nsec := t % 1000000000 } := by
  unfold convert_rtc_time
  rw [div64_oper_eq t NANOSEC_IN_SEC 0 ht (by unfold NANOSEC_IN_SEC; norm_num)
    (by unfold NANOSEC_IN_SEC; norm_num) (by norm_num)]
  simp [NANOSEC_IN_SEC]


/-! ## Ring buffer: sequences of operations -/

theorem find_and_remove_empty (buf : fec_ptp_circular) (h : buf.front = buf.end_)
    (ident : fec_ptp_ident) (ts : ptp_time) :
    fec_ptp_find_and_remove buf ident ts = .ok (1, buf, ts) := by
  simp [fec_ptp_find_and_remove, fec_ptp_is_empty, h]

theorem run_ops_well_formed (ops : List RingOp) :
    ∀ (buf : fec_ptp_circular), well_formed buf →
      ∃ b, run_ops ops buf = .ok b ∧ well_formed b ∧ b.size = buf.size
        ∧ b.data_buf.length = buf.data_buf.length := by
  induction ops with
  | nil => intro buf h; exact ⟨buf, rfl, h, rfl, rfl⟩
  | cons op ops ih =>
    intro buf h
    cases op with
    | insert data =>
      obtain ⟨b, hb, hwf, hs, hl⟩ := insert_well_formed buf h data
      obtain ⟨b2, hb2, hwf2, hs2, hl2⟩ := ih b hwf
      refine ⟨b2, ?_, hwf2, hs2.trans hs, hl2.trans hl⟩
      simp only [run_ops, hb, hb2]
    | find_and_remove ident =>
      obtain ⟨r, b, t, hb, hwf, hs, hl⟩ :=
        find_and_remove_well_formed buf h ident { sec := 0, nsec := 0 }
      obtain ⟨b2, hb2, hwf2, hs2, hl2⟩ := ih b hwf
      refine ⟨b2, ?_, hwf2, hs2.trans hs, hl2.trans (by rw [hl])⟩
      simp only [run_ops, hb, hb2]

/-! ## Theorems on the timestamp stores -/

/-- C1 (the code departs from the claim): `sample_store` has capacity 3 and is full
with the records 1 and 2.  Inserting record 3 moves `end` on to `front`, writes
there and leaves record 3 as the only live record; record 2, which the claim
retains, is lost together with the oldest record 1. -/
theorem insert_full_keeps_only_new_record :
    fec_ptp_is_full sample_store = true
    ∧ live_records sample_store = [sample_record 1, sample_record 2]
    ∧ fec_ptp_insert sample_store (sample_record 3)
        = .ok (0, { front := 0, end_ := 1, size := 3,
                    data_buf := [sample_record 3, sample_record 2, sample_record 0] })
    ∧ live_records { front := 0, end_ := 1, size := 3,
                     data_buf := [sample_record 3, sample_record 2, sample_record 0] }
        = [sample_record 3]
    ∧ [sample_record 3] ≠ [sample_record 2, sample_record 3] := by
  decide

/-- C2: on a well-formed store whose live records carry pairwise distinct
identities (sequence id and 10-byte source port id), the lookup of the store's
direction and class returns success (0) with the time of the live record whose
identity is asked for and leaves the stores as they are; asked for an identity
that no live record carries it returns the failure value. -/
theorem lookup_match_correct (K : MsgCodes) (hK : K.distinct) (d : Direction) (c : MsgClass)
    (priv : fec_ptp_private) (pts : fec_ptp_ts_data) (t0 : ptp_time)
    (hwf : well_formed (priv.store d c))
    (hlen : ∀ r ∈ live_records (priv.store d c), r.ident.spid.length = 10)
    (hdist : (live_records (priv.store d c)).Pairwise
      (fun a b => identity a.ident ≠ identity b.ident))
    (hmode : pts.ident.message_type = K.code c) (hq : pts.ident.spid.length = 10) :
    (∀ r ∈ live_records (priv.store d c), identity pts.ident = identity r.ident →
        lookup K d priv pts t0 = .ok (0, priv, r.ts))
    ∧ ((∀ r ∈ live_records (priv.store d c), identity pts.ident ≠ identity r.ident) →
        ∃ priv1, lookup K d priv pts t0 = .ok (lookup_failure d, priv1, t0)) := by
  rw [lookup_well_formed K hK d c priv pts t0 hmode hwf]
  constructor
  · intro r hr hid
    have hfound : (live_records (priv.store d c)).find? (fun r => ident_match r.ident pts.ident)
        = some r := by
      generalize live_records (priv.store d c) = l at hr hlen hdist
      induction l with
      | nil => cases hr
      | cons x l ih =>
        rw [List.find?_cons]
        rcases List.mem_cons.1 hr with hrx | hrl
        · subst hrx
          rw [ident_match_of_identity _ _ hid.symm]
        · have hx : ident_match x.ident pts.ident = false := by
            cases hm : ident_match x.ident pts.ident with
            | false => rfl
            | true =>
              exfalso
              have h1 := identity_of_ident_match _ _ (hlen x (List.mem_cons_self _ _)) hq hm
              exact (List.pairwise_cons.1 hdist).1 r hrl (h1.trans hid)
          rw [hx]
          exact ih hrl (fun y hy => hlen y (List.mem_cons_of_mem _ hy))
            (List.pairwise_cons.1 hdist).2
    rw [hfound]
  · intro hnone
    have hfind : (live_records (priv.store d c)).find? (fun r => ident_match r.ident pts.ident)
        = none := by
      rw [List.find?_eq_none]
      intro r hr hm
      exact hnone r hr (identity_of_ident_match _ _ (hlen r hr) hq hm).symm
    rw [hfind]
    exact ⟨_, rfl⟩

/-- Witness of C2: the transmit lookup for record 2 of `sample_store`. -/
theorem lookup_match_correct_witness :
    lookup sample_codes .tx sample_priv (sample_record 2) { sec := 0, nsec := 0 }
      = .ok (0, sample_priv, { sec := 2, nsec := 10 }) :=
  (lookup_match_correct sample_codes (by decide) .tx .sync sample_priv (sample_record 2)
    { sec := 0, nsec := 0 } (by decide) (by decide) (by decide) rfl rfl).1
    (sample_record 2) (by decide) rfl

/-- C3: starting from a store initialised with `N >= 1` slots, every finite
sequence of insertions and find-and-remove calls runs without fault and leaves
`size = N`, `front < N`, `end < N`, between 0 and `N - 1` live records, zero
live records exactly when `front = end` (which is what `fec_ptp_is_empty`
tests), and `fec_ptp_is_full` exactly when there are `N - 1` live records. -/
theorem ring_invariant (N : Nat) (hN : 1 ≤ N) (buf0 : fec_ptp_circular)
    (block : List fec_ptp_ts_data) (hblock : block.length = N) (ops : List RingOp) :
    ∃ buf, run_ops ops (fec_ptp_init_circ buf0 N (some block)).2 = .ok buf
      ∧ buf.size = N ∧ buf.front < N ∧ buf.end_ < N
      ∧ 0 ≤ fec_ptp_nelems buf ∧ fec_ptp_nelems buf ≤ (N : Int) - 1
      ∧ ((live_records buf).length : Int) = fec_ptp_nelems buf
      ∧ (fec_ptp_nelems buf = 0 ↔ buf.front = buf.end_)
      ∧ (fec_ptp_is_empty buf = true ↔ buf.front = buf.end_)
      ∧ (fec_ptp_is_full buf = true ↔ fec_ptp_nelems buf = (N : Int) - 1) := by
  have hinit : well_formed (fec_ptp_init_circ buf0 N (some block)).2 := by
    refine ⟨?_, ?_, ?_, ?_⟩ <;> simp [fec_ptp_init_circ, hblock] <;> omega
  obtain ⟨buf, hrun, hwf, hsize, _⟩ := run_ops_well_formed ops _ hinit
  have hsize' : buf.size = N := hsize
  have hc := count_lt_size buf hwf
  refine ⟨buf, hrun, hsize', ?_, ?_, ?_, ?_, ?_, ?_, ?_, ?_⟩
  · rw [← hsize']; exact hwf.2.2.1
  · rw [← hsize']; exact hwf.2.2.2
  · rw [nelems_eq_count buf hwf]; omega
  · rw [nelems_eq_count buf hwf]; omega
  · rw [nelems_eq_count buf hwf, live_records_length buf hwf]
  · rw [nelems_eq_count buf hwf]
    have := count_eq_zero_iff buf hwf
    omega
  · simp [fec_ptp_is_empty]
  · simp [fec_ptp_is_full, hsize']

/-- Witness of C3: three slots, two insertions and a missing lookup. -/
theorem ring_invariant_witness :
    ∃ buf, run_ops [.insert (sample_record 1), .insert (sample_record 2),
          .find_and_remove (sample_record 7).ident]
        (fec_ptp_init_circ sample_store 3
          (some [sample_record 0, sample_record 0, sample_record 0])).2 = .ok buf
      ∧ buf.size = 3 ∧ buf.front < 3 ∧ buf.end_ < 3
      ∧ 0 ≤ fec_ptp_nelems buf ∧ fec_ptp_nelems buf ≤ ((3 : Nat) : Int) - 1
      ∧ ((live_records buf).length : Int) = fec_ptp_nelems buf
      ∧ (fec_ptp_nelems buf = 0 ↔ buf.front = buf.end_)
      ∧ (fec_ptp_is_empty buf = true ↔ buf.front = buf.end_)
      ∧ (fec_ptp_is_full buf = true ↔ fec_ptp_nelems buf = ((3 : Nat) : Int) - 1) :=
  ring_invariant 3 (by decide) sample_store
    [sample_record 0, sample_record 0, sample_record 0] rfl _

/-- C4: on a well-formed store, find-and-remove for an identity that matches no
live record returns 1 (not found) and leaves `*ts`, `end`, `size` and every slot
as they were; if the store was full, `front` has moved on by one slot (mod
`size`) and the live records are the former ones without the oldest; if it was
not full, the store is unchanged. -/
theorem find_and_remove_miss (buf : fec_ptp_circular) (hwf : well_formed buf)
    (ident : fec_ptp_ident) (ts : ptp_time)
    (hno : ∀ r ∈ live_records buf, ident_match r.ident ident = false) :
    ∃ b, fec_ptp_find_and_remove buf ident ts = .ok (1, b, ts)
      ∧ b.end_ = buf.end_ ∧ b.size = buf.size ∧ b.data_buf = buf.data_buf
      ∧ (fec_ptp_is_full buf = true →
          b.front = (buf.front + 1) % buf.size ∧ live_records b = (live_records buf).tail)
      ∧ (fec_ptp_is_full buf = false → b = buf) := by
  have hfind : (live_records buf).find? (fun r => ident_match r.ident ident) = none := by
    rw [List.find?_eq_none]
    intro r hr
    rw [hno r hr]
    exact Bool.false_ne_true
  have ham := after_miss_well_formed buf hwf
  refine ⟨after_miss buf, ?_, ham.2.2.2, ham.2.1, ham.2.2.1, ?_, ?_⟩
  · rw [find_and_remove_eq buf hwf, hfind]
  · intro hfull
    refine ⟨?_, ?_⟩
    · simp [after_miss, hfull]
    · rw [live_records_after_miss buf hwf, if_pos hfull]
  · intro hnf
    simp [after_miss, hnf]

/-- Witness of C4: record 7 is not in the full `sample_store`. -/
theorem find_and_remove_miss_witness :
    ∃ b, fec_ptp_find_and_remove sample_store (sample_record 7).ident { sec := 0, nsec := 0 }
        = .ok (1, b, { sec := 0, nsec := 0 })
      ∧ b.end_ = sample_store.end_ ∧ b.size = sample_store.size
      ∧ b.data_buf = sample_store.data_buf
      ∧ (fec_ptp_is_full sample_store = true →
          b.front = (sample_store.front + 1) % sample_store.size
            ∧ live_records b = (live_records sample_store).tail)
      ∧ (fec_ptp_is_full sample_store = false → b = sample_store) :=
  find_and_remove_miss sample_store (by decide) (sample_record 7).ident { sec := 0, nsec := 0 }
    (by decide)

/-- C5: on a well-formed store, find-and-remove for an identity that matches a
live record returns 0 with the time of a matching live record and returns the
store unchanged (`front`, `end`, `size` and all slots), so the same call made
again, whatever `*ts` holds, returns the same time. -/
theorem find_and_remove_hit (buf : fec_ptp_circular) (hwf : well_formed buf)
    (ident : fec_ptp_ident) (ts : ptp_time)
    (hm : ∃ r ∈ live_records buf, ident_match r.ident ident = true) :
    ∃ r ∈ live_records buf, ident_match r.ident ident = true
      ∧ fec_ptp_find_and_remove buf ident ts = .ok (0, buf, r.ts)
      ∧ ∀ ts1, fec_ptp_find_and_remove buf ident ts1 = .ok (0, buf, r.ts) := by
  obtain ⟨r0, hr0, hm0⟩ := hm
  cases hfind : (live_records buf).find? (fun r => ident_match r.ident ident) with
  | none =>
    rw [List.find?_eq_none] at hfind
    exact absurd hm0 (hfind r0 hr0)
  | some r =>
    have hp := List.find?_some hfind
    refine ⟨r, List.mem_of_find?_eq_some hfind, hp, ?_, ?_⟩
    · rw [find_and_remove_eq buf hwf, hfind]
    · intro ts1
      rw [find_and_remove_eq buf hwf, hfind]

/-- Witness of C5: record 2 is live in `sample_store`. -/
theorem find_and_remove_hit_witness :
    ∃ r ∈ live_records sample_store, ident_match r.ident (sample_record 2).ident = true
      ∧ fec_ptp_find_and_remove sample_store (sample_record 2).ident { sec := 0, nsec := 0 }
          = .ok (0, sample_store, r.ts)
      ∧ ∀ ts1, fec_ptp_find_and_remove sample_store (sample_record 2).ident ts1
          = .ok (0, sample_store, r.ts) :=
  find_and_remove_hit sample_store (by decide) (sample_record 2).ident { sec := 0, nsec := 0 }
    ⟨sample_record 2, by decide, by decide⟩

/-- C6: on a well-formed store of capacity at least 2, if find-and-remove for an
identity misses, a record `r` matching that identity is then inserted, and
find-and-remove is called once more, the insertion succeeds and the second call
returns 0 with the time of `r`. -/
theorem retry_absorbs_late_insert (buf : fec_ptp_circular) (hwf : well_formed buf)
    (h2 : 2 ≤ buf.size) (ident : fec_ptp_ident) (ts : ptp_time) (r : fec_ptp_ts_data)
    (hr : ident_match r.ident ident = true) (b1 : fec_ptp_circular) (t1 : ptp_time)
    (hmiss : fec_ptp_find_and_remove buf ident ts = .ok (1, b1, t1)) :
    ∃ b2, fec_ptp_insert b1 r = .ok (0, b2)
      ∧ fec_ptp_find_and_remove b2 ident t1 = .ok (0, b2, r.ts) := by
  rw [find_and_remove_eq buf hwf] at hmiss
  cases hfind : (live_records buf).find? (fun r => ident_match r.ident ident) with
  | some r0 =>
    rw [hfind] at hmiss
    simp at hmiss
  | none =>
    rw [hfind] at hmiss
    simp only [Except.ok.injEq, Prod.mk.injEq, true_and] at hmiss
    obtain ⟨hb1, _⟩ := hmiss
    subst hb1
    have hwf1 := (after_miss_well_formed buf hwf).1
    have hnf := after_miss_not_full buf hwf h2
    refine ⟨_, insert_not_full _ hwf1 hnf r, ?_⟩
    have hwf2 : well_formed
        { after_miss buf with
          data_buf := (after_miss buf).data_buf.set (after_miss buf).end_ r,
          end_ := ((after_miss buf).end_ + 1) % (after_miss buf).size } := by
      obtain ⟨b, hb, hwfb, _, _⟩ := insert_well_formed _ hwf1 r
      rw [insert_not_full _ hwf1 hnf r] at hb
      simp only [Except.ok.injEq, Prod.mk.injEq, true_and] at hb
      rw [hb]; exact hwfb
    rw [find_and_remove_eq _ hwf2, live_records_insert_not_full _ hwf1 hnf r, List.find?_append]
    have hnone1 : (live_records (after_miss buf)).find? (fun r => ident_match r.ident ident)
        = none := by
      rw [List.find?_eq_none] at hfind ⊢
      intro x hx
      exact hfind x (mem_live_records_after_miss buf hwf x hx)
    rw [hnone1]
    simp [List.find?_cons, hr]

/-- Witness of C6: record 7 is missed in the full `sample_store`, inserted, and
found by the second call. -/
theorem retry_absorbs_late_insert_witness :
    ∃ b2, fec_ptp_insert { sample_store with front := 1 } (sample_record 7) = .ok (0, b2)
      ∧ fec_ptp_find_and_remove b2 (sample_record 7).ident { sec := 0, nsec := 0 }
          = .ok (0, b2, (sample_record 7).ts) :=
  retry_absorbs_late_insert sample_store (by decide) (by decide) (sample_record 7).ident
    { sec := 0, nsec := 0 } (sample_record 7) (by decide) { sample_store with front := 1 }
    { sec := 0, nsec := 0 } (by decide)


/-! ## Theorems on flush and initialisation -/

theorem tx_switch_all_empty (K : MsgCodes) (priv : fec_ptp_private) (mode : Nat)
    (ident : fec_ptp_ident) (t : ptp_time)
    (hempty : ∀ c, (priv.store .tx c).front = (priv.store .tx c).end_) :
    tx_switch K priv mode ident t 1 = .ok (1, priv, t) := by
  unfold tx_switch
  rw [find_and_remove_empty priv.tx_time_sync (hempty .sync),
    find_and_remove_empty priv.tx_time_del_req (hempty .del_req),
    find_and_remove_empty priv.tx_time_pdel_req (hempty .pdel_req),
    find_and_remove_empty priv.tx_time_pdel_resp (hempty .pdel_resp)]
  split_ifs <;> rfl

theorem rx_switch_all_empty (K : MsgCodes) (priv : fec_ptp_private) (mode : Nat)
    (ident : fec_ptp_ident) (t : ptp_time)
    (hempty : ∀ c, (priv.store .rx c).front = (priv.store .rx c).end_) :
    rx_switch K priv mode ident t 1 = .ok (1, priv, t) := by
  unfold rx_switch
  rw [find_and_remove_empty priv.rx_time_sync (hempty .sync),
    find_and_remove_empty priv.rx_time_del_req (hempty .del_req),
    find_and_remove_empty priv.rx_time_pdel_req (hempty .pdel_req),
    find_and_remove_empty priv.rx_time_pdel_resp (hempty .pdel_resp)]
  split_ifs <;> rfl

theorem flush_front_end (Z : BufSizes) (priv : fec_ptp_private) (d : Direction) (c : MsgClass) :
    ((fec_ptp_ioctl_PTP_FLUSH_TIMESTAMP Z priv).2.store d c).front = 0
      ∧ ((fec_ptp_ioctl_PTP_FLUSH_TIMESTAMP Z priv).2.store d c).end_ = 0 := by
  cases d <;> cases c <;> exact ⟨rfl, rfl⟩

/-- C7: after the flush request each of the eight stores is empty (`front = end`,
`fec_ptp_is_empty`, zero live records), whatever it held before, and the lookup
of either direction returns its failure value for every identity and message
type, leaving the stores and `*ts` as they are. -/
theorem flush_empties_all (K : MsgCodes) (Z : BufSizes) (priv : fec_ptp_private) :
    (∀ d c, ((fec_ptp_ioctl_PTP_FLUSH_TIMESTAMP Z priv).2.store d c).front
          = ((fec_ptp_ioctl_PTP_FLUSH_TIMESTAMP Z priv).2.store d c).end_
        ∧ fec_ptp_is_empty ((fec_ptp_ioctl_PTP_FLUSH_TIMESTAMP Z priv).2.store d c) = true
        ∧ fec_ptp_nelems ((fec_ptp_ioctl_PTP_FLUSH_TIMESTAMP Z priv).2.store d c) = 0
        ∧ live_records ((fec_ptp_ioctl_PTP_FLUSH_TIMESTAMP Z priv).2.store d c) = [])
    ∧ (∀ d pts t0, lookup K d (fec_ptp_ioctl_PTP_FLUSH_TIMESTAMP Z priv).2 pts t0
        = .ok (lookup_failure d, (fec_ptp_ioctl_PTP_FLUSH_TIMESTAMP Z priv).2, t0)) := by
  have hfe := flush_front_end Z priv
  constructor
  · intro d c
    obtain ⟨hf, he⟩ := hfe d c
    refine ⟨hf.trans he.symm, ?_, ?_, ?_⟩
    · simp [fec_ptp_is_empty, hf, he]
    · simp [fec_ptp_nelems, hf, he]
    · simp [live_records, live_slots, fec_ptp_nelems, hf, he]
  · intro d pts t0
    cases d
    · have hempty : ∀ c, ((fec_ptp_ioctl_PTP_FLUSH_TIMESTAMP Z priv).2.store .tx c).front
          = ((fec_ptp_ioctl_PTP_FLUSH_TIMESTAMP Z priv).2.store .tx c).end_ :=
        fun c => (hfe .tx c).1.trans (hfe .tx c).2.symm
      simp [lookup, fec_get_tx_timestamp, tx_switch_all_empty K _ _ _ _ hempty, lookup_failure]
    · have hempty : ∀ c, ((fec_ptp_ioctl_PTP_FLUSH_TIMESTAMP Z priv).2.store .rx c).front
          = ((fec_ptp_ioctl_PTP_FLUSH_TIMESTAMP Z priv).2.store .rx c).end_ :=
        fun c => (hfe .rx c).1.trans (hfe .rx c).2.symm
      simp [lookup, fec_get_rx_timestamp, rx_switch_all_empty K _ _ _ _ hempty, lookup_failure]

/-- C8 (the code departs from the claim): `fec_ptp_init` gives each store the
size it allocates, while the flush request sets each size to one more than
that; only the slots are the same after the flush as after the initialisation. -/
theorem flush_sets_size_beyond_init (Z : BufSizes) (priv0 : fec_ptp_private)
    (blocks : Nat → List fec_ptp_ts_data) (d : Direction) (c : MsgClass) :
    ((fec_ptp_ioctl_PTP_FLUSH_TIMESTAMP Z
        (fec_ptp_init Z priv0 (fun k => some (blocks k))).2).2.store d c).size
      = ((fec_ptp_init Z priv0 (fun k => some (blocks k))).2.store d c).size + 1
    ∧ ((fec_ptp_ioctl_PTP_FLUSH_TIMESTAMP Z
        (fec_ptp_init Z priv0 (fun k => some (blocks k))).2).2.store d c).data_buf
      = ((fec_ptp_init Z priv0 (fun k => some (blocks k))).2.store d c).data_buf := by
  cases d <;> cases c <;> exact ⟨rfl, rfl⟩

/-! ## Theorems on the time conversion -/

/-- C9: for 32-bit seconds `s` and nanoseconds `n < 1,000,000,000`, converting
`(s, n)` to the 64-bit nanosecond value and back returns `(s, n)`. -/
theorem time_round_trip (s n : Nat) (hs : s < 2 ^ 32) (hn : n < 1000000000) :
    convert_rtc_time (convert_unsigned_time { sec := s, nsec := n })
      = .ok { sec := s, nsec := n } := by
  have hn32 : n < 2 ^ 32 := by norm_num; omega
  rw [convert_unsigned_time_eq s n hs hn32]
  have ht : s * 1000000000 + n < 2 ^ 64 := by norm_num at hs ⊢; omega
  rw [convert_rtc_time_eq _ ht]
  have h1 : (s * 1000000000 + n) / 1000000000 = s := by omega
  have h2 : (s * 1000000000 + n) % 1000000000 = n := by omega
  rw [h1, h2, Nat.mod_eq_of_lt hs]

/-- Witness of C9: `(5, 250000000) -> 5250000000 -> (5, 250000000)`. -/
theorem time_round_trip_witness :
    convert_unsigned_time { sec := 5, nsec := 250000000 } = 5250000000
    ∧ convert_rtc_time (convert_unsigned_time { sec := 5, nsec := 250000000 })
      = .ok { sec := 5, nsec := 250000000 } :=
  ⟨by decide, time_round_trip 5 250000000 (by decide) (by decide)⟩

/-- C10 as stated fails: for the 64-bit value `2^32 * 1,000,000,000` the seconds
returned are 0, not the quotient `2^32`. -/
theorem convert_rtc_time_seconds_wrap :
    2 ^ 32 * 1000000000 < 2 ^ 64
    ∧ convert_rtc_time (2 ^ 32 * 1000000000) = .ok { sec := 0, nsec := 0 }
    ∧ ¬ (convert_rtc_time (2 ^ 32 * 1000000000)
          = .ok { sec := 2 ^ 32 * 1000000000 / 1000000000,
                  nsec := 2 ^ 32 * 1000000000 % 1000000000 }) := by
  decide

/-- C10, amended: for every 64-bit nanosecond value `t`, `convert_rtc_time`
yields nanoseconds `t mod 1,000,000,000` and seconds
`floor(t / 1,000,000,000) mod 2^32`, the low 32 bits of the quotient; the
seconds are the quotient itself whenever `t < 2^32 * 1,000,000,000`. -/
theorem convert_rtc_time_floor (t : Nat) (ht : t < 2 ^ 64) :
    convert_rtc_time t = .ok { sec := t / 1000000000 % 2 ^ 32, nsec := t % 1000000000 }
    ∧ (t < 2 ^ 32 * 1000000000 →
        convert_rtc_time t = .ok { sec := t / 1000000000, nsec := t % 1000000000 }) := by
  refine ⟨convert_rtc_time_eq t ht, ?_⟩
  intro hlt
  rw [convert_rtc_time_eq t ht]
  have : t / 1000000000 % 2 ^ 32 = t / 1000000000 := by
    apply Nat.mod_eq_of_lt
    norm_num at hlt ⊢
    omega
  rw [this]

/-- Witness of C10, amended: `t = 5250000000`. -/
theorem convert_rtc_time_floor_witness :
    convert_rtc_time 5250000000
        = .ok { sec := 5250000000 / 1000000000 % 2 ^ 32, nsec := 5250000000 % 1000000000 }
    ∧ (5250000000 < 2 ^ 32 * 1000000000 →
        convert_rtc_time 5250000000
          = .ok { sec := 5250000000 / 1000000000, nsec := 5250000000 % 1000000000 }) :=
  convert_rtc_time_floor 5250000000 (by decide)

/-! ## Hardware clock: auxiliary facts -/

theorem sub32_eq (a b : Nat) (ha : a < 2 ^ 32) (hb : b ≤ a) : sub32 a b = a - b := by
  unfold sub32
  have hb' : b < 2 ^ 32 := by omega
  rw [Nat.mod_eq_of_lt ha, Nat.mod_eq_of_lt hb']
  norm_num at ha hb' ⊢
  omega

/-- The rounding step of `rtc_set_periodic_pulse` in alarm-gated mode. -/
theorem rtc_set_periodic_pulse_gated (R : RtcConsts) (rtc : ptp_rtc) (pulse_ID P : Nat)
    (hg : rtc.start_pulse_on_alarm = true)
    (ht : 1 ≤ rtc.clock_period_nansec) (hD : 1 ≤ rtc.output_clock_divisor)
    (hM : rtc.clock_period_nansec * rtc.output_clock_divisor < 2 ^ 32)
    (hP : P + rtc.clock_period_nansec < 2 ^ 32) :
    rtc_set_periodic_pulse R rtc pulse_ID P
      = .ok (0, { rtc with mem_map := rtc.mem_map ++
          [(R.PTP_TMR_FIPER1 + pulse_ID * 4,
            sub32 (sub32 ((P + rtc.clock_period_nansec)
                / (rtc.clock_period_nansec * rtc.output_clock_divisor)
                * (rtc.clock_period_nansec * rtc.output_clock_divisor))
              rtc.clock_period_nansec) rtc.clock_period_nansec)] }) := by
  generalize ht0 : rtc.clock_period_nansec = t at *
  generalize hD0 : rtc.output_clock_divisor = D at *
  have hMpos : 0 < t * D := Nat.mul_pos ht hD
  have hfle : (P + t) / (t * D) * (t * D) ≤ P + t := Nat.div_mul_le_self _ _
  have hft : (P + t) / (t * D) * t ≤ (P + t) / (t * D) * (t * D) := by
    rw [← Nat.mul_assoc]
    exact Nat.le_mul_of_pos_right _ hD
  have hprod : (((P + t) / (t * D) * t) % 2 ^ 32 * D) % 2 ^ 32 = (P + t) / (t * D) * (t * D) := by
    have h1 : (P + t) / (t * D) * t < 2 ^ 32 := lt_of_le_of_lt hft (lt_of_le_of_lt hfle hP)
    rw [Nat.mod_eq_of_lt h1, Nat.mul_assoc]
    exact Nat.mod_eq_of_lt (lt_of_le_of_lt hfle hP)
  unfold rtc_set_periodic_pulse
  simp only [hg, if_true, ht0, hD0, div32, Nat.mod_eq_of_lt hM, Nat.mod_eq_of_lt hP,
    Nat.pos_iff_ne_zero.1 hMpos, if_false, hprod, writel]
  by_cases hlt : (P + t) / (t * D) * (t * D) < P + t
  · simp only [hlt, if_true]
  · have heq : (P + t) / (t * D) * (t * D) = P + t := by omega
    simp only [hlt, if_false, heq]
    rw [sub32_eq (P + t) t hP (by omega)]
    simp

/-- The value of `rtc_set_periodic_pulse` when pulses are not gated on alarms. -/
theorem rtc_set_periodic_pulse_free (R : RtcConsts) (rtc : ptp_rtc) (pulse_ID P : Nat)
    (hg : rtc.start_pulse_on_alarm = false) :
    rtc_set_periodic_pulse R rtc pulse_ID P
      = .ok (0, { rtc with mem_map := rtc.mem_map ++
          [(R.PTP_TMR_FIPER1 + pulse_ID * 4, sub32 P rtc.clock_period_nansec)] }) := by
  simp [rtc_set_periodic_pulse, hg, writel]

/-- The call `rtc_set_periodic_pulse` returns 0 after one write to the reload
register of the channel, unless the divisor of the rounding step is zero. -/
theorem rtc_set_periodic_pulse_writes (R : RtcConsts) (rtc : ptp_rtc) (pulse_ID P : Nat)
    (hdiv : rtc.start_pulse_on_alarm = true →
      (rtc.clock_period_nansec * rtc.output_clock_divisor) % 2 ^ 32 ≠ 0) :
    ∃ v, rtc_set_periodic_pulse R rtc pulse_ID P
      = .ok (0, { rtc with mem_map := rtc.mem_map ++ [(R.PTP_TMR_FIPER1 + pulse_ID * 4, v)] }) := by
  by_cases hg : rtc.start_pulse_on_alarm = true
  · have hne := hdiv hg
    unfold rtc_set_periodic_pulse
    simp only [hg, if_true, div32, hne, if_false, writel]
    split_ifs
    · exact ⟨_, rfl⟩
    · exact ⟨_, rfl⟩
  · have hg0 : rtc.start_pulse_on_alarm = false := by simpa using hg
    exact ⟨_, rtc_set_periodic_pulse_free R rtc pulse_ID P hg0⟩

/-- The frequency compensation computed by `ptp_rtc_init`. -/
theorem ptp_rtc_init_eq (R : RtcConsts) (p : ptp)
    (hnom : p.rtc.driver_param.rtc_freq_hz < 2 ^ 32)
    (hnz : 0 < p.rtc.driver_param.rtc_freq_hz ∨ p.rtc.bypass_compensation = true)
    (hsrc : 0 < p.rtc.driver_param.src_clock_freq_hz)
    (hsrc2 : p.rtc.driver_param.src_clock_freq_hz ≤ 2 ^ 31) :
    ∃ q pre, ptp_rtc_init R p = .ok (0, q)
      ∧ q.orig_freq_comp
          = 2 ^ 32 * p.rtc.driver_param.rtc_freq_hz / p.rtc.driver_param.src_clock_freq_hz
              % 2 ^ 32
      ∧ q.rtc.mem_map = writel 0 R.PTP_TMR_OFF_H (writel 0 R.PTP_TMR_OFF_L
          (writel p.rtc.output_clock_divisor R.PTP_TMR_PRSC
            (writel q.orig_freq_comp R.PTP_TMR_ADD pre))) := by
  have hdiv : div64_oper ((p.rtc.driver_param.rtc_freq_hz <<< 32) % 2 ^ 64)
      p.rtc.driver_param.src_clock_freq_hz 0
      = .ok ((p.rtc.driver_param.rtc_freq_hz <<< 32) % 2 ^ 64
                % p.rtc.driver_param.src_clock_freq_hz,
             (0 + (p.rtc.driver_param.rtc_freq_hz <<< 32) % 2 ^ 64
                / p.rtc.driver_param.src_clock_freq_hz) % 2 ^ 32) :=
    div64_oper_eq _ _ 0 (Nat.mod_lt _ (by norm_num)) hsrc hsrc2 (by norm_num)
  have hshift : (p.rtc.driver_param.rtc_freq_hz <<< 32) % 2 ^ 64
      = 2 ^ 32 * p.rtc.driver_param.rtc_freq_hz := by
    rw [Nat.shiftLeft_eq, Nat.mul_comm]
    apply Nat.mod_eq_of_lt
    norm_num at hnom ⊢
    omega
  rw [hshift, Nat.zero_add] at hdiv
  unfold ptp_rtc_init
  simp only [hshift, hdiv]
  rcases hnz with hpos | hbyp
  · cases hb : p.rtc.bypass_compensation with
    | false =>
      simp only [Bool.not_false, if_true, div32, Nat.pos_iff_ne_zero.1 hpos, if_false]
      exact ⟨_, _, rfl, rfl, rfl⟩
    | true =>
      simp only [Bool.not_true, Bool.false_eq_true, if_false, div32,
        Nat.pos_iff_ne_zero.1 hsrc]
      exact ⟨_, _, rfl, rfl, rfl⟩
  · simp only [hbyp, Bool.not_true, Bool.false_eq_true, if_false, div32,
      Nat.pos_iff_ne_zero.1 hsrc]
    exact ⟨_, _, rfl, rfl, rfl⟩

/-! ## Theorems on the 64-bit helpers and the frequency compensation -/

/-- C11: for 32-bit seconds `s` and 32-bit nanoseconds `n`, `convert_unsigned_time`
equals the native value `s * 1,000,000,000 + n`, which is below `2^64` (no
wrap-around); `multi64_oper a b = a * b` for all 32-bit `a`, `b`, and
`add64_oper` is the 64-bit addition. -/
theorem convert_unsigned_time_native (s n : Nat) (hs : s < 2 ^ 32) (hn : n < 2 ^ 32) :
    convert_unsigned_time { sec := s, nsec := n } = s * 1000000000 + n
    ∧ s * 1000000000 + n < 2 ^ 64
    ∧ (∀ a b, a < 2 ^ 32 → b < 2 ^ 32 → multi64_oper a b = a * b)
    ∧ (∀ x y, x < 2 ^ 64 → y < 2 ^ 64 → add64_oper x y = (x + y) % 2 ^ 64) := by
  refine ⟨convert_unsigned_time_eq s n hs hn, ?_, multi64_oper_eq, add64_oper_eq⟩
  norm_num at hs hn ⊢
  omega

/-- Witness of C11: the largest 32-bit seconds and nanoseconds. -/
theorem convert_unsigned_time_native_witness :
    convert_unsigned_time { sec := 4294967295, nsec := 4294967295 }
      = 4294967295 * 1000000000 + 4294967295
    ∧ 4294967295 * 1000000000 + 4294967295 < 2 ^ 64
    ∧ (∀ a b, a < 2 ^ 32 → b < 2 ^ 32 → multi64_oper a b = a * b)
    ∧ (∀ x y, x < 2 ^ 64 → y < 2 ^ 64 → add64_oper x y = (x + y) % 2 ^ 64) :=
  convert_unsigned_time_native 4294967295 4294967295 (by decide) (by decide)

/-- C12 as stated fails: with nominal frequency 1000 and source frequency 999,
`ptp_rtc_init` stores and writes 4299266, not `floor(2^32 * 1000 / 999)`, which
is 4299266562 and does not fit the 32-bit register. -/
theorem freq_compensation_example_wraps :
    (ptp_rtc_init sample_rtc_consts (sample_ptp 1000 999 true)).map
        (fun r => (r.2.orig_freq_comp, r.2.rtc.mem_map.contains (0x38, 4299266)))
      = .ok (4299266, true)
    ∧ 2 ^ 32 * 1000 / 999 = 4299266562
    ∧ (4299266 : Nat) ≠ 2 ^ 32 * 1000 / 999 := by
  decide

/-- C12, amended: for a 32-bit nominal frequency that is not zero (or in bypass
mode) and a source frequency between 1 and `2^31`, `ptp_rtc_init` returns 0,
stores `floor(2^32 * nominal / source) mod 2^32` as the original compensation
and writes it to `PTP_TMR_ADD` (followed only by the writes to `PTP_TMR_PRSC`,
`PTP_TMR_OFF_L` and `PTP_TMR_OFF_H`); the value is `floor(2^32 * nominal /
source)` itself whenever `nominal < source`. -/
theorem freq_compensation_formula (R : RtcConsts) (p : ptp)
    (hnom : p.rtc.driver_param.rtc_freq_hz < 2 ^ 32)
    (hnz : 0 < p.rtc.driver_param.rtc_freq_hz ∨ p.rtc.bypass_compensation = true)
    (hsrc : 0 < p.rtc.driver_param.src_clock_freq_hz)
    (hsrc2 : p.rtc.driver_param.src_clock_freq_hz ≤ 2 ^ 31) :
    ∃ q pre, ptp_rtc_init R p = .ok (0, q)
      ∧ q.orig_freq_comp
          = 2 ^ 32 * p.rtc.driver_param.rtc_freq_hz / p.rtc.driver_param.src_clock_freq_hz
              % 2 ^ 32
      ∧ q.rtc.mem_map = writel 0 R.PTP_TMR_OFF_H (writel 0 R.PTP_TMR_OFF_L
          (writel p.rtc.output_clock_divisor R.PTP_TMR_PRSC
            (writel q.orig_freq_comp R.PTP_TMR_ADD pre)))
      ∧ (p.rtc.driver_param.rtc_freq_hz < p.rtc.driver_param.src_clock_freq_hz →
          q.orig_freq_comp
            = 2 ^ 32 * p.rtc.driver_param.rtc_freq_hz / p.rtc.driver_param.src_clock_freq_hz) := by
  obtain ⟨q, pre, h1, h2, h3⟩ := ptp_rtc_init_eq R p hnom hnz hsrc hsrc2
  refine ⟨q, pre, h1, h2, h3, ?_⟩
  intro hlt
  rw [h2]
  apply Nat.mod_eq_of_lt
  rw [Nat.div_lt_iff_lt_mul hsrc]
  exact Nat.mul_lt_mul_of_pos_left hlt (by norm_num)

/-- Witness of C12, amended: nominal 999, source 1000. -/
theorem freq_compensation_formula_witness :
    ∃ q pre, ptp_rtc_init sample_rtc_consts (sample_ptp 999 1000 true) = .ok (0, q)
      ∧ q.orig_freq_comp = 2 ^ 32 * 999 / 1000 % 2 ^ 32
      ∧ q.rtc.mem_map = writel 0 0x48 (writel 0 0x44 (writel 1 0x40
            (writel q.orig_freq_comp 0x38 pre)))
      ∧ ((999 : Nat) < 1000 → q.orig_freq_comp = 2 ^ 32 * 999 / 1000) :=
  freq_compensation_formula sample_rtc_consts (sample_ptp 999 1000 true) (by decide)
    (Or.inl (by decide)) (by decide) (by decide)

/-! ## Theorems on periodic pulses and alarms -/

/-- C17: with a tick period of 8 ns, output divisor 1 and pulses gated on
alarms, arming pulse channel `pulse_ID < 3` with a period of 1000 ns returns 0
and writes 1000 - 8 = 992 to the reload register of that channel, at
`PTP_TMR_FIPER1 + 4 * pulse_ID`, and nothing else. -/
theorem pulse_example_992 (R : RtcConsts) (p : ptp) (pulse_ID : Nat) (hid : pulse_ID < 3)
    (ht : p.rtc.clock_period_nansec = 8) (hD : p.rtc.output_clock_divisor = 1)
    (hg : p.rtc.start_pulse_on_alarm = true) :
    ptp_rtc_set_periodic_pulse R p pulse_ID { sec := 0, nsec := 1000 }
      = .ok (0, { p with rtc := { p.rtc with
          mem_map := p.rtc.mem_map ++ [(R.PTP_TMR_FIPER1 + pulse_ID * 4, 1000 - 8)] } }) := by
  have hconv : convert_unsigned_time { sec := 0, nsec := 1000 } = 1000 := by
    rw [convert_unsigned_time_eq 0 1000 (by norm_num) (by norm_num)]
  have hpulse := rtc_set_periodic_pulse_gated R p.rtc pulse_ID 1000 hg (by omega) (by omega)
    (by rw [ht, hD]; norm_num) (by rw [ht]; norm_num)
  have hval : sub32 (sub32 ((1000 + p.rtc.clock_period_nansec)
        / (p.rtc.clock_period_nansec * p.rtc.output_clock_divisor)
        * (p.rtc.clock_period_nansec * p.rtc.output_clock_divisor))
      p.rtc.clock_period_nansec) p.rtc.clock_period_nansec = 1000 - 8 := by
    rw [ht, hD]; decide
  rw [hval] at hpulse
  unfold ptp_rtc_set_periodic_pulse
  have hnot : ¬ pulse_ID ≥ PTP_RTC_NUM_OF_PULSES := by unfold PTP_RTC_NUM_OF_PULSES; omega
  simp only [hnot, if_false, hconv]
  norm_num
  rw [hpulse]

/-- Witness of C17: channel 1 of the sample device. -/
theorem pulse_example_992_witness :
    ptp_rtc_set_periodic_pulse sample_rtc_consts (sample_ptp 1 1 true) 1 { sec := 0, nsec := 1000 }
      = .ok (0, { sample_ptp 1 1 true with rtc := { (sample_ptp 1 1 true).rtc with
          mem_map := (sample_ptp 1 1 true).rtc.mem_map ++ [(0x5c + 1 * 4, 1000 - 8)] } }) :=
  pulse_example_992 sample_rtc_consts (sample_ptp 1 1 true) 1 (by decide) rfl rfl rfl

/-- C18 as stated fails: with a tick period of 8 ns, divisor 1, alarm-gated, a
requested period of 1007 ns makes the code write 992, while the multiple of 8
nearest to 1007 is 1008 and the claimed value 1008 - 8 = 1000. -/
theorem pulse_rounding_not_nearest :
    rtc_set_periodic_pulse sample_rtc_consts (sample_ptp 1 1 true).rtc 0 1007
      = .ok (0, { (sample_ptp 1 1 true).rtc with mem_map := [(0x5c, 992)] })
    ∧ is_nearest_multiple (8 * 1) 1007 1008
    ∧ ¬ ∃ m, is_nearest_multiple (8 * 1) 1007 m ∧ 992 = m - 8 := by
  refine ⟨by decide, ⟨by decide, ?_⟩, ?_⟩
  · intro k hk
    obtain ⟨c, rfl⟩ := hk
    omega
  · rintro ⟨m, ⟨_, hmin⟩, hm⟩
    have h := hmin 1008 (by decide)
    omega

/-- C18, amended: in alarm-gated mode with output divisor 1, for a tick period
`t >= 1` and a period `P` of at least one tick with `P + t < 2^32`, the period
is rounded down to a multiple of `t * 1` and one tick period is subtracted: the
value written to the reload register is `floor(P / t) * t - t`, where
`floor(P / t) * t` is the largest multiple of the tick period that is not above
`P`; no subtraction wraps, the value is not above `P`, and the value plus one
tick is a multiple of `tick * divisor`.  Output divisors of 2 or more and
periods below one tick are left out. -/
theorem pulse_rounding_floor (R : RtcConsts) (rtc : ptp_rtc) (pulse_ID P : Nat)
    (hg : rtc.start_pulse_on_alarm = true)
    (ht : 1 ≤ rtc.clock_period_nansec) (hD : rtc.output_clock_divisor = 1)
    (htP : rtc.clock_period_nansec ≤ P)
    (hP : P + rtc.clock_period_nansec < 2 ^ 32) :
    rtc_set_periodic_pulse R rtc pulse_ID P
      = .ok (0, { rtc with mem_map := rtc.mem_map ++
          [(R.PTP_TMR_FIPER1 + pulse_ID * 4,
            P / rtc.clock_period_nansec * rtc.clock_period_nansec
              - rtc.clock_period_nansec)] })
    ∧ rtc.clock_period_nansec * rtc.output_clock_divisor
        ∣ P / rtc.clock_period_nansec * rtc.clock_period_nansec
    ∧ P / rtc.clock_period_nansec * rtc.clock_period_nansec ≤ P
    ∧ P < P / rtc.clock_period_nansec * rtc.clock_period_nansec
        + rtc.clock_period_nansec * rtc.output_clock_divisor
    ∧ rtc.clock_period_nansec ≤ P / rtc.clock_period_nansec * rtc.clock_period_nansec
    ∧ P / rtc.clock_period_nansec * rtc.clock_period_nansec - rtc.clock_period_nansec ≤ P
    ∧ rtc.clock_period_nansec * rtc.output_clock_divisor
        ∣ (P / rtc.clock_period_nansec * rtc.clock_period_nansec - rtc.clock_period_nansec)
          + rtc.clock_period_nansec := by
  have hgated := rtc_set_periodic_pulse_gated R rtc pulse_ID P hg ht (by omega)
    (by rw [hD, Nat.mul_one]; omega) hP
  rw [hD, Nat.mul_one] at hgated ⊢
  generalize rtc.clock_period_nansec = t at *
  have htpos : 0 < t := ht
  have hdiv : (P + t) / t = P / t + 1 := Nat.add_div_right P htpos
  have hle : P / t * t ≤ P := Nat.div_mul_le_self P t
  have hlt : P < P / t * t + t := by
    have := Nat.lt_div_mul_add htpos (a := P)
    omega
  have hq : 1 ≤ P / t := (Nat.one_le_div_iff htpos).2 htP
  have hge : t ≤ P / t * t := by
    calc t = 1 * t := (Nat.one_mul t).symm
      _ ≤ P / t * t := Nat.mul_le_mul_right t hq
  have hval : sub32 (sub32 ((P + t) / t * t) t) t = P / t * t - t := by
    rw [hdiv, Nat.add_mul, Nat.one_mul]
    generalize P / t * t = X at hle hlt hge ⊢
    rw [sub32_eq (X + t) t (by omega) (by omega), Nat.add_sub_cancel,
      sub32_eq X t (by omega) hge]
  rw [hval] at hgated
  refine ⟨hgated, Dvd.intro_left _ rfl, hle, hlt, hge, by omega, ?_⟩
  rw [Nat.sub_add_cancel hge]
  exact Dvd.intro_left _ rfl

/-- Witness of C18, amended: tick 8 ns, divisor 1, period 1007 ns; 992 is
written. -/
theorem pulse_rounding_floor_witness :
    rtc_set_periodic_pulse sample_rtc_consts (sample_ptp 1 1 true).rtc 0 1007
      = .ok (0, { (sample_ptp 1 1 true).rtc with mem_map := [] ++
          [(0x5c + 0 * 4, 1007 / 8 * 8 - 8)] }) :=
  (pulse_rounding_floor sample_rtc_consts (sample_ptp 1 1 true).rtc 0 1007 rfl (by decide)
    rfl (by decide) (by decide)).1

/-- C19: for 32-bit seconds `s` and (non-negative) nanoseconds `n`, with a
non-zero rounding divisor when pulses are gated on alarms,
`ptp_rtc_set_periodic_pulse` returns an error (a non-zero value, `0xFFFFFFFF`)
exactly when the channel index is at least 3 or `s * 1,000,000,000 + n` exceeds
`0xFFFFFFFF`; in that case the device, registers included, is unchanged;
otherwise it returns 0 and the only change is one write, to the reload register
`PTP_TMR_FIPER1 + 4 * pulse_ID` of the channel. -/
theorem arm_pulse_errors (R : RtcConsts) (p : ptp) (pulse_ID s n : Nat)
    (hs : s < 2 ^ 32) (hn : n < 2 ^ 32)
    (hdiv : p.rtc.start_pulse_on_alarm = true →
      (p.rtc.clock_period_nansec * p.rtc.output_clock_divisor) % 2 ^ 32 ≠ 0) :
    ∃ ret q, ptp_rtc_set_periodic_pulse R p pulse_ID { sec := s, nsec := n } = .ok (ret, q)
      ∧ (ret ≠ 0 ↔ (3 ≤ pulse_ID ∨ 0xFFFFFFFF < s * 1000000000 + n))
      ∧ (ret ≠ 0 → ret = 0xFFFFFFFF ∧ q = p)
      ∧ (ret = 0 → ∃ v, q = { p with rtc := { p.rtc with
            mem_map := p.rtc.mem_map ++ [(R.PTP_TMR_FIPER1 + pulse_ID * 4, v)] } }) := by
  have hneg : ¬ ((n : Int) < 0) := by omega
  have hconv := convert_unsigned_time_eq s n hs hn
  by_cases hid : pulse_ID ≥ PTP_RTC_NUM_OF_PULSES
  · have hval : ptp_rtc_set_periodic_pulse R p pulse_ID { sec := s, nsec := n }
        = .ok (0xFFFFFFFF, p) := by
      unfold ptp_rtc_set_periodic_pulse
      rw [if_pos hid]
    refine ⟨_, _, hval, ⟨fun _ => Or.inl hid, fun _ => by norm_num⟩,
      fun _ => ⟨rfl, rfl⟩, fun h => by norm_num at h⟩
  · by_cases hbig : convert_unsigned_time { sec := s, nsec := n } > 0xFFFFFFFF
    · have hval : ptp_rtc_set_periodic_pulse R p pulse_ID { sec := s, nsec := n }
          = .ok (0xFFFFFFFF, p) := by
        unfold ptp_rtc_set_periodic_pulse
        rw [if_neg hid, if_neg hneg]
        simp only []
        rw [if_pos hbig]
      refine ⟨_, _, hval, ⟨fun _ => Or.inr (by rw [hconv] at hbig; exact hbig),
        fun _ => by norm_num⟩, fun _ => ⟨rfl, rfl⟩, fun h => by norm_num at h⟩
    · obtain ⟨v, hv⟩ := rtc_set_periodic_pulse_writes R p.rtc pulse_ID
        (convert_unsigned_time { sec := s, nsec := n } % 2 ^ 32) hdiv
      have hval : ptp_rtc_set_periodic_pulse R p pulse_ID { sec := s, nsec := n }
          = .ok (0, { p with rtc := { p.rtc with
              mem_map := p.rtc.mem_map ++ [(R.PTP_TMR_FIPER1 + pulse_ID * 4, v)] } }) := by
        unfold ptp_rtc_set_periodic_pulse
        rw [if_neg hid, if_neg hneg]
        simp only []
        rw [if_neg hbig, hv]
      refine ⟨_, _, hval, ⟨fun h => absurd rfl h, ?_⟩, fun h => absurd rfl h,
        fun _ => ⟨v, rfl⟩⟩
      rintro (h | h)
      · exact absurd h hid
      · rw [hconv] at hbig
        exact absurd h hbig

/-- Witness of C19: channel 2, period 1 s 5 ns, which is below `2^32` ns. -/
theorem arm_pulse_errors_witness :
    ∃ ret q, ptp_rtc_set_periodic_pulse sample_rtc_consts (sample_ptp 1 1 true) 2
        { sec := 1, nsec := 5 } = .ok (ret, q)
      ∧ (ret ≠ 0 ↔ (3 ≤ 2 ∨ 0xFFFFFFFF < 1 * 1000000000 + 5))
      ∧ (ret ≠ 0 → ret = 0xFFFFFFFF ∧ q = sample_ptp 1 1 true)
      ∧ (ret = 0 → ∃ v, q = { sample_ptp 1 1 true with rtc := { (sample_ptp 1 1 true).rtc with
            mem_map := (sample_ptp 1 1 true).rtc.mem_map ++ [(0x5c + 2 * 4, v)] } }) :=
  arm_pulse_errors sample_rtc_consts (sample_ptp 1 1 true) 2 1 5 (by decide) (by decide)
    (by decide)

theorem load_u8_some (skb : sk_buff) (i b : Nat) (h : skb.data[i]? = some b) :
    load_u8 skb i = .ok b := by
  simp [load_u8, h]

theorem load_u16_some (skb : sk_buff) (i a b : Nat) (ha : skb.data[i]? = some a)
    (hb : skb.data[i + 1]? = some b) : load_u16 skb i = .ok (a, b) := by
  simp [load_u16, load_u8_some skb i a ha, load_u8_some skb (i + 1) b hb]

theorem getElem?_byte_at (skb : sk_buff) (i : Nat) (h : i < skb.data.length) :
    skb.data[i]? = some (byte_at skb i) := by
  simp [byte_at, List.getD, List.getElem?_eq_getElem h]

theorem byte_at_of_getElem? (skb : sk_buff) (i b : Nat) (h : skb.data[i]? = some b) :
    byte_at skb i = b := by
  simp [byte_at, List.getD, h]

theorem load_u8_byte_at (skb : sk_buff) (i : Nat) (h : i < skb.data.length) :
    load_u8 skb i = .ok (byte_at skb i) :=
  load_u8_some skb i _ (getElem?_byte_at skb i h)

theorem load_u16_byte_at (skb : sk_buff) (i : Nat) (h : i + 1 < skb.data.length) :
    load_u16 skb i = .ok (byte_at skb i, byte_at skb (i + 1)) :=
  load_u16_some skb i _ _ (getElem?_byte_at skb i (by omega)) (getElem?_byte_at skb (i + 1) h)

theorem and_0xf_le (v : Nat) : v &&& 0xf ≤ 15 := Nat.and_le_right

/-- With 82 readable bytes the classifier returns the closed form. -/
theorem parse_eq_classify (P : Nat) (skb : sk_buff) (hbuf : 82 ≤ skb.data.length) :
    ∃ t, fec_ptp_parse_packet P skb = .ok (classify P skb, t) := by
  have L8 : ∀ i, i < 82 → load_u8 skb i = .ok (byte_at skb i) :=
    fun i hi => load_u8_byte_at skb i (by omega)
  have L16 : ∀ i, i + 1 < 82 → load_u16 skb i = .ok (byte_at skb i, byte_at skb (i + 1)) :=
    fun i hi => load_u16_byte_at skb i (by omega)
  have hnib := and_0xf_le (byte_at skb 14)
  have hnib2 := and_0xf_le (byte_at skb 18)
  unfold fec_ptp_parse_packet classify header_offset ethertype after_ethertype be16
  simp only [ETH_ALEN, FEC_VLAN_TAG_LEN, FEC_ETHTYPE_LEN, ETH_P_8021Q, ETH_P_1588, ETH_P_IP,
    ETH_P_IPV6, FEC_PACKET_TYPE_UDP, PTP_EVENT_PORT, ntohs, Nat.reduceAdd]
  rw [L16 12 (by norm_num)]
  simp only []
  by_cases hv : byte_at skb 12 * 256 + byte_at skb (12 + 1) = 0x8100
  · simp only [hv, if_true, Nat.reduceAdd, Nat.reduceSub, L16 16 (by norm_num)]
    have hmod : (byte_at skb 18 &&& 15) * 4 % 256 = (byte_at skb 18 &&& 15) * 4 := by
      apply Nat.mod_eq_of_lt
      have := and_0xf_le (byte_at skb 18)
      omega
    have hport := L16 (18 + (byte_at skb 18 &&& 15) * 4 + 2)
      (by have := and_0xf_le (byte_at skb 18); omega)
    by_cases h1 : byte_at skb 16 * 256 + byte_at skb 17 = 0x88F7
    · simp only [h1, if_true, L8 18 (by norm_num)]
      refine ⟨(byte_at skb 16, byte_at skb 17), ?_⟩
      split_ifs <;> first | rfl | (exfalso; omega)
    · have h1' : ¬ (35063 = byte_at skb 16 * 256 + byte_at skb 17) := fun h => h1 h.symm
      by_cases h2 : byte_at skb 16 * 256 + byte_at skb 17 = 0x0800
      · simp only [h2, if_true, L8 18 (by norm_num), L8 (18 + 9) (by norm_num), hmod, hport,
          Nat.reduceAdd, Nat.reduceEqDiff, if_false, Nat.add_sub_cancel]
        refine ⟨(byte_at skb 16, byte_at skb 17), ?_⟩
        split_ifs <;> first | rfl | (exfalso; omega)
      · have h2' : ¬ (2048 = byte_at skb 16 * 256 + byte_at skb 17) := fun h => h2 h.symm
        by_cases h3 : byte_at skb 16 * 256 + byte_at skb 17 = 0x86DD
        · simp only [h3, if_true, L8 18 (by norm_num), L8 (18 + 6) (by norm_num),
            L16 (18 + 40 + 2) (by norm_num), Nat.reduceAdd, Nat.reduceEqDiff, if_false,
            Nat.add_sub_cancel, Nat.reduceSub]
          refine ⟨(byte_at skb 16, byte_at skb 17), ?_⟩
          split_ifs <;> first | rfl | (exfalso; omega)
        · have h3' : ¬ (34525 = byte_at skb 16 * 256 + byte_at skb 17) := fun h => h3 h.symm
          simp only [h1, h2, h3, h1', h2', h3', if_false]
          exact ⟨_, rfl⟩
  · simp only [hv, if_false, Nat.reduceAdd, Nat.reduceSub]
    have hmod : (byte_at skb 14 &&& 15) * 4 % 256 = (byte_at skb 14 &&& 15) * 4 := by
      apply Nat.mod_eq_of_lt
      have := and_0xf_le (byte_at skb 14)
      omega
    have hport := L16 (14 + (byte_at skb 14 &&& 15) * 4 + 2)
      (by have := and_0xf_le (byte_at skb 14); omega)
    by_cases h1 : byte_at skb 12 * 256 + byte_at skb 13 = 0x88F7
    · simp only [h1, if_true, L8 14 (by norm_num)]
      refine ⟨(byte_at skb 12, byte_at skb 13), ?_⟩
      split_ifs <;> first | rfl | (exfalso; omega)
    · have h1' : ¬ (35063 = byte_at skb 12 * 256 + byte_at skb 13) := fun h => h1 h.symm
      by_cases h2 : byte_at skb 12 * 256 + byte_at skb 13 = 0x0800
      · simp only [h2, if_true, L8 14 (by norm_num), L8 (14 + 9) (by norm_num), hmod, hport,
          Nat.reduceAdd, Nat.reduceEqDiff, if_false, Nat.add_sub_cancel]
        refine ⟨(byte_at skb 12, byte_at skb 13), ?_⟩
        split_ifs <;> first | rfl | (exfalso; omega)
      · have h2' : ¬ (2048 = byte_at skb 12 * 256 + byte_at skb 13) := fun h => h2 h.symm
        by_cases h3 : byte_at skb 12 * 256 + byte_at skb 13 = 0x86DD
        · simp only [h3, if_true, L8 14 (by norm_num), L8 (14 + 6) (by norm_num),
            L16 (14 + 40 + 2) (by norm_num), Nat.reduceAdd, Nat.reduceEqDiff, if_false,
            Nat.add_sub_cancel, Nat.reduceSub]
          refine ⟨(byte_at skb 12, byte_at skb 13), ?_⟩
          split_ifs <;> first | rfl | (exfalso; omega)
        · have h3' : ¬ (34525 = byte_at skb 12 * 256 + byte_at skb 13) := fun h => h3 h.symm
          simp only [h1, h2, h3, h1', h2', h3', if_false]
          exact ⟨_, rfl⟩

theorem ite_some_eq_none (C : Prop) [Decidable C] (x : Nat) :
    (if C then some x else none) = none ↔ ¬ C := by
  split_ifs with h <;> simp [h]

/-- The closed form rejects exactly the listed frames and the PTP-over-Ethernet
frames that are not event messages. -/
theorem classify_eq_none_iff (P : Nat) (skb : sk_buff) :
    classify P skb = none ↔ (listed_not_ptp P skb ∨ ptp_not_event skb) := by
  unfold classify listed_not_ptp ptp_not_event
  by_cases h1 : ethertype skb = 0x88F7
  · rw [if_pos h1, ite_some_eq_none]
    simp only [h1]
    norm_num
    omega
  · rw [if_neg h1]
    by_cases h2 : ethertype skb = 0x0800
    · rw [if_pos h2, ite_some_eq_none]
      simp only [h2]
      norm_num
      generalize byte_at skb (after_ethertype skb) >>> 4 = ver
      generalize be16 skb (header_offset skb - 8 + 2) = port
      constructor
      · intro h
        by_cases c1 : ver = 4
        · by_cases c2 : byte_at skb (after_ethertype skb + 9) = 17
          · by_cases c3 : port = 319
            · exact Or.inr (Or.inr (Or.inr (h c1 c2 c3)))
            · exact Or.inr (Or.inl c3)
          · exact Or.inl c2
        · exact Or.inr (Or.inr (Or.inl c1))
      · rintro (h | h | h | h) c1 c2 c3
        · exact absurd c2 h
        · exact absurd c3 h
        · exact absurd c1 h
        · exact h
    · rw [if_neg h2]
      by_cases h3 : ethertype skb = 0x86DD
      · rw [if_pos h3, ite_some_eq_none]
        simp only [h3]
        norm_num
        generalize byte_at skb (after_ethertype skb) >>> 4 = ver
        generalize be16 skb (header_offset skb - 8 + 2) = port
        constructor
        · intro h
          by_cases c1 : ver = 6
          · by_cases c2 : byte_at skb (after_ethertype skb + 6) = 17
            · by_cases c3 : port = 319
              · exact Or.inr (Or.inr (Or.inr (h c1 c2 c3)))
              · exact Or.inr (Or.inl c3)
            · exact Or.inl c2
          · exact Or.inr (Or.inr (Or.inl c1))
        · rintro (h | h | h | h) c1 c2 c3
          · exact absurd c2 h
          · exact absurd c3 h
          · exact absurd c1 h
          · exact h
      · rw [if_neg h3]
        simp only [h1, h2, h3, true_iff]
        exact Or.inl (Or.inr (Or.inr (Or.inr (Or.inr (Or.inr (Or.inl ⟨h1, h2, h3⟩))))))

/-- A location that the classifier returns leaves room for the PTP header. -/
theorem parse_location_in_frame (P : Nat) (skb : sk_buff) (h : Nat) (t : Nat × Nat)
    (hp : fec_ptp_parse_packet P skb = .ok (some h, t)) : h + P ≤ skb.len := by
  unfold fec_ptp_parse_packet at hp
  simp only [] at hp
  repeat' split at hp
  all_goals first
    | (cases hp; done)
    | (cases hp; assumption)



/-! ## Theorems on the packet classifier -/

/-- C13 as stated fails: on an empty frame, and on a 60-byte IPv4/UDP frame whose
IP header length nibble is 15, each in a buffer that ends with the frame, the
classifier reads a byte at an index that is not below the frame length (the
EtherType at offset 12, the UDP port at offset 76). -/
theorem classifier_reads_past_frame :
    fec_ptp_parse_packet 34 (frame_of [] 0) = .error .out_of_bounds
    ∧ sample_long_ip_header.data.length = sample_long_ip_header.len
    ∧ sample_long_ip_header.len = 60
    ∧ fec_ptp_parse_packet 34 sample_long_ip_header = .error .out_of_bounds := by
  decide

/-- C13, amended: when 82 bytes are readable at `skb->data` (14 bytes of
addresses and EtherType, a 4-byte tag, 60 bytes of IP header and the 4 bytes up
to the UDP destination port), in particular for every frame of at least 82 bytes,
no read of the classifier is out of range; the one length check guards the
result: a location `h` that is returned satisfies
`h + PTP_HEADER_SZE <= skb->len`. -/
theorem classifier_reads_guarded (P : Nat) (skb : sk_buff) :
    (82 ≤ skb.data.length → ∃ r, fec_ptp_parse_packet P skb = .ok r)
    ∧ (∀ h t, fec_ptp_parse_packet P skb = .ok (some h, t) → h + P ≤ skb.len) := by
  refine ⟨fun hbuf => ?_, fun h t hp => parse_location_in_frame P skb h t hp⟩
  obtain ⟨t, ht⟩ := parse_eq_classify P skb hbuf
  exact ⟨_, ht⟩

/-- Witness of C13, amended: a frame of 100 bytes. -/
theorem classifier_reads_guarded_witness :
    ∃ r, fec_ptp_parse_packet 34 (frame_of [] 100) = .ok r :=
  (classifier_reads_guarded 34 (frame_of [] 100)).1 (by decide)

/-- C14: a frame whose EtherType at bytes 12-13 is `0x88F7` and whose byte 14 has
low 4 bits at most 3 is classified as PTP at offset 14 when its length is at
least `14 + PTP_HEADER_SZE`, and as not PTP when the low 4 bits exceed 3; behind
one 802.1Q tag (`0x8100` at bytes 12-13, EtherType `0x88F7` at bytes 16-17) the
same holds with byte 18 and offset 18. -/
theorem classify_ptp_over_ethernet (P : Nat) (skb : sk_buff) (a b c : Nat)
    (hty : a * 256 + b = 0x88F7) :
    (skb.data[12]? = some a → skb.data[13]? = some b → skb.data[14]? = some c →
      (c &&& 0xF ≤ 3 → 14 + P ≤ skb.len →
        fec_ptp_parse_packet P skb = .ok (some 14, (a, b)))
      ∧ (3 < c &&& 0xF → fec_ptp_parse_packet P skb = .ok (none, (a, b))))
    ∧ (∀ t0 t1, t0 * 256 + t1 = 0x8100 →
      skb.data[12]? = some t0 → skb.data[13]? = some t1 →
      skb.data[16]? = some a → skb.data[17]? = some b → skb.data[18]? = some c →
      (c &&& 0xF ≤ 3 → 18 + P ≤ skb.len →
        fec_ptp_parse_packet P skb = .ok (some 18, (a, b)))
      ∧ (3 < c &&& 0xF → fec_ptp_parse_packet P skb = .ok (none, (a, b)))) := by
  constructor
  · intro h12 h13 h14
    have hbase : fec_ptp_parse_packet P skb
        = (if c &&& 0xF ≤ 3 then
            if skb.len ≥ 14 + P then .ok (some 14, (a, b)) else .ok (none, (a, b))
          else .ok (none, (a, b))) := by
      unfold fec_ptp_parse_packet
      simp [ETH_ALEN, FEC_VLAN_TAG_LEN, FEC_ETHTYPE_LEN, ETH_P_8021Q, ETH_P_1588, ntohs,
        load_u16_some skb 12 a b h12 h13, hty, load_u8_some skb 14 c h14]
    constructor
    · intro hc hlen
      rw [hbase, if_pos hc, if_pos hlen]
    · intro hc
      rw [hbase, if_neg (by omega)]
  · intro t0 t1 htag h12 h13 h16 h17 h18
    have hbase : fec_ptp_parse_packet P skb
        = (if c &&& 0xF ≤ 3 then
            if skb.len ≥ 18 + P then .ok (some 18, (a, b)) else .ok (none, (a, b))
          else .ok (none, (a, b))) := by
      unfold fec_ptp_parse_packet
      simp [ETH_ALEN, FEC_VLAN_TAG_LEN, FEC_ETHTYPE_LEN, ETH_P_8021Q, ETH_P_1588, ntohs,
        load_u16_some skb 12 t0 t1 h12 h13, htag, load_u16_some skb 16 a b h16 h17, hty,
        load_u8_some skb 18 c h18]
    constructor
    · intro hc hlen
      rw [hbase, if_pos hc, if_pos hlen]
    · intro hc
      rw [hbase, if_neg (by omega)]

/-- Witness of C14: a Sync message (message type 0) carried directly over Ethernet,
64 bytes. -/
theorem classify_ptp_over_ethernet_witness :
    fec_ptp_parse_packet 34
        (frame_of [0, 0, 0, 0, 0, 0, 0, 0, 0, 0, 0, 0, 0x88, 0xF7, 0x00] 64)
      = .ok (some 14, (0x88, 0xF7)) :=
  ((classify_ptp_over_ethernet 34
      (frame_of [0, 0, 0, 0, 0, 0, 0, 0, 0, 0, 0, 0, 0x88, 0xF7, 0x00] 64) 0x88 0xF7 0x00
      (by decide)).1 (by decide) (by decide) (by decide)).1 (by decide) (by decide)

/-- C15: an IPv4 frame (EtherType `0x0800` at bytes 12-13, version nibble 4,
protocol byte 17 at offset 23, header length nibble `IHL`) whose UDP
destination port, big-endian at UDP header + 2, is 319 is classified as PTP at
offset `14 + 4 * IHL + 8` when its length is at least that offset plus
`PTP_HEADER_SZE`; an IPv6 frame (EtherType `0x86DD`, version nibble 6,
next-header byte 17 at offset 20, port 319 at offsets 56-57) is classified as
PTP at offset 62 when its length is at least `62 + PTP_HEADER_SZE`. -/
theorem classify_udp_event_port (P : Nat) (skb : sk_buff) (a b v p0 p1 : Nat)
    (h12 : skb.data[12]? = some a) (h13 : skb.data[13]? = some b)
    (h14 : skb.data[14]? = some v) (hport : p0 * 256 + p1 = 319) :
    (a * 256 + b = 0x0800 → v >>> 4 = 4 → skb.data[14 + 9]? = some 17 →
      skb.data[14 + 4 * (v &&& 0xf) + 2]? = some p0 →
      skb.data[14 + 4 * (v &&& 0xf) + 3]? = some p1 →
      14 + 4 * (v &&& 0xf) + 8 + P ≤ skb.len →
      fec_ptp_parse_packet P skb = .ok (some (14 + 4 * (v &&& 0xf) + 8), (a, b)))
    ∧ (a * 256 + b = 0x86DD → v >>> 4 = 6 → skb.data[14 + 6]? = some 17 →
      skb.data[14 + 40 + 2]? = some p0 → skb.data[14 + 40 + 3]? = some p1 →
      14 + 40 + 8 + P ≤ skb.len →
      fec_ptp_parse_packet P skb = .ok (some (14 + 40 + 8), (a, b))) := by
  constructor
  · intro hty hver hprot hp0 hp1 hlen
    have hmod : (v &&& 15) * 4 % 256 = 4 * (v &&& 15) := by
      have := and_0xf_le v
      omega
    have hp0' : skb.data[14 + 4 * (v &&& 15) + 2]? = some p0 := hp0
    have hp1' : skb.data[14 + 4 * (v &&& 15) + 2 + 1]? = some p1 := hp1
    have hlen' : skb.len ≥ 14 + 4 * (v &&& 15) + 8 + P := hlen
    unfold fec_ptp_parse_packet
    simp [ETH_ALEN, FEC_VLAN_TAG_LEN, FEC_ETHTYPE_LEN, ETH_P_8021Q, ETH_P_1588, ETH_P_IP,
      FEC_PACKET_TYPE_UDP, PTP_EVENT_PORT, ntohs, load_u16_some skb 12 a b h12 h13, hty,
      load_u8_some skb 14 v h14, hver, load_u8_some skb 23 17 hprot, hmod,
      load_u16_some skb (14 + 4 * (v &&& 15) + 2) p0 p1 hp0' hp1', hport]
    exact hlen'
  · intro hty hver hprot hp0 hp1 hlen
    unfold fec_ptp_parse_packet
    simp [ETH_ALEN, FEC_VLAN_TAG_LEN, FEC_ETHTYPE_LEN, ETH_P_8021Q, ETH_P_1588, ETH_P_IP,
      ETH_P_IPV6, FEC_PACKET_TYPE_UDP, PTP_EVENT_PORT, ntohs, load_u16_some skb 12 a b h12 h13,
      hty, load_u8_some skb 14 v h14, hver, load_u8_some skb 20 17 hprot,
      load_u16_some skb 56 p0 p1 hp0 hp1, hport]
    omega

/-- Witness of C15: an IPv4/UDP frame with a 20-byte IP header is classified at
offset 14 + 20 + 8 = 42. -/
theorem classify_udp_event_port_witness :
    fec_ptp_parse_packet 34 sample_ipv4_event = .ok (some (14 + 4 * (0x45 &&& 0xf) + 8), (0x08, 0x00)) :=
  (classify_udp_event_port 34 sample_ipv4_event 0x08 0x00 0x45 0x01 0x3F (by decide) (by decide)
    (by decide) (by decide)).1 (by decide) (by decide) (by decide) (by decide) (by decide)
    (by decide)

/-- C16 as stated fails: `fec_ptp_do_txstamp` returns 0 for a 64-byte Follow_Up
frame (EtherType `0x88F7`, first header byte 8), which is none of the frames
that the claim lists. -/
theorem txstamp_rejects_unlisted_frame :
    fec_ptp_do_txstamp 34 sample_follow_up = .ok 0
    ∧ ¬ listed_not_ptp 34 sample_follow_up := by
  decide

/-- C16, amended: when 82 bytes are readable at `skb->data`, the classifier
returns not-PTP for every frame that the claim lists (protocol or next-header
byte not UDP, port not 319, version nibble not matching the EtherType,
EtherType none of PTP, IPv4, IPv6, length below header offset plus
`PTP_HEADER_SZE`) and for every PTP-over-Ethernet frame whose first header byte
has low 4 bits above 3; `fec_ptp_do_txstamp` returns 0 for exactly these frames
and 1 otherwise. -/
theorem txstamp_rejects_exactly (P : Nat) (skb : sk_buff) (hbuf : 82 ≤ skb.data.length) :
    ((listed_not_ptp P skb ∨ ptp_not_event skb) →
        ∃ t, fec_ptp_parse_packet P skb = .ok (none, t))
    ∧ fec_ptp_do_txstamp P skb
        = .ok (if listed_not_ptp P skb ∨ ptp_not_event skb then 0 else 1) := by
  obtain ⟨t, ht⟩ := parse_eq_classify P skb hbuf
  have hiff := classify_eq_none_iff P skb
  constructor
  · intro h
    rw [← hiff] at h
    rw [h] at ht
    exact ⟨t, ht⟩
  · unfold fec_ptp_do_txstamp
    rw [ht]
    by_cases hc : listed_not_ptp P skb ∨ ptp_not_event skb
    · have hn := hiff.2 hc
      simp [hn, hc]
    · have hn : classify P skb ≠ none := fun h => hc (hiff.1 h)
      simp [hn, hc]

/-- Witness of C16, amended: the IPv4/UDP frame to port 319 in a 100-byte
buffer is stamped. -/
theorem txstamp_rejects_exactly_witness :
    ((listed_not_ptp 34 sample_ipv4_event ∨ ptp_not_event sample_ipv4_event) →
        ∃ t, fec_ptp_parse_packet 34 sample_ipv4_event = .ok (none, t))
    ∧ fec_ptp_do_txstamp 34 sample_ipv4_event
        = .ok (if listed_not_ptp 34 sample_ipv4_event ∨ ptp_not_event sample_ipv4_event
               then 0 else 1) :=
  txstamp_rejects_exactly 34 sample_ipv4_event (by decide)

/-! ## Capture, alarms and the division loop: auxiliary facts -/

theorem store_setStore_ne (priv : fec_ptp_private) (d d2 : Direction) (c c2 : MsgClass)
    (b : fec_ptp_circular) (h : (d2, c2) ≠ (d, c)) :
    (priv.setStore d c b).store d2 c2 = priv.store d2 c2 := by
  cases d <;> cases c <;> cases d2 <;> cases c2 <;>
    first
    | rfl
    | exact absurd rfl h

theorem after_miss_idem (buf : fec_ptp_circular) (h : well_formed buf) :
    after_miss (after_miss buf) = after_miss buf := by
  by_cases h2 : 2 ≤ buf.size
  · have hnf := after_miss_not_full buf h h2
    generalize after_miss buf = b at hnf
    simp [after_miss, hnf]
  · have h1 : buf.size = 1 := by have := h.1; omega
    have hf : buf.front = 0 := by have := h.2.2.1; omega
    have hid : after_miss buf = buf := by
      unfold after_miss
      split
      · cases buf
        simp only at h1 hf
        subst h1 hf
        simp
      · rfl
    rw [hid, hid]

theorem tx_switch_other (K : MsgCodes) (priv : fec_ptp_private) (mode : Nat)
    (ident : fec_ptp_ident) (t : ptp_time) (dflt : Int) (h : ∀ c, mode ≠ K.code c) :
    tx_switch K priv mode ident t dflt = .ok (dflt, priv, t) := by
  have h1 : mode ≠ K.PTP_MSG_SYNC := h .sync
  have h2 : mode ≠ K.PTP_MSG_DEL_REQ := h .del_req
  have h3 : mode ≠ K.PTP_MSG_P_DEL_REQ := h .pdel_req
  have h4 : mode ≠ K.PTP_MSG_P_DEL_RESP := h .pdel_resp
  unfold tx_switch
  rw [if_neg h1, if_neg h2, if_neg h3, if_neg h4]

theorem rx_switch_other (K : MsgCodes) (priv : fec_ptp_private) (mode : Nat)
    (ident : fec_ptp_ident) (t : ptp_time) (dflt : Int) (h : ∀ c, mode ≠ K.code c) :
    rx_switch K priv mode ident t dflt = .ok (dflt, priv, t) := by
  have h1 : mode ≠ K.PTP_MSG_SYNC := h .sync
  have h2 : mode ≠ K.PTP_MSG_DEL_REQ := h .del_req
  have h3 : mode ≠ K.PTP_MSG_P_DEL_REQ := h .pdel_req
  have h4 : mode ≠ K.PTP_MSG_P_DEL_RESP := h .pdel_resp
  unfold rx_switch
  rw [if_neg h1, if_neg h2, if_neg h3, if_neg h4]

theorem lookup_failure_ne_zero (d : Direction) : lookup_failure d ≠ 0 := by
  cases d <;> simp [lookup_failure]

theorem div64_steps_length (d : Nat) :
    ∀ (n i h l : Nat), (div64_steps d n i h l).length = n := by
  intro n
  induction n with
  | zero => intro i h l; rfl
  | succ n ih =>
    intro i h l
    unfold div64_steps
    simp only [List.length_cons, ih]

/-- The quotient that the loop leaves is the sum of the contributions
`result << (32 - i)` of its iterations, modulo `2^32`. -/
theorem div64_loop_quotient (d : Nat) :
    ∀ (n i h l q : Nat), q < 2 ^ 32 →
      (div64_loop d n i h l q).2
        = (q + ((div64_steps d n i h l).map (fun s => (s.2.2 <<< (32 - s.1)) % 2 ^ 32)).sum)
            % 2 ^ 32 := by
  intro n
  induction n with
  | zero =>
    intro i h l q hq
    unfold div64_loop div64_steps
    simp
    norm_num at hq
    omega
  | succ n ih =>
    intro i h l q _
    unfold div64_loop div64_steps
    simp only [List.map_cons, List.sum_cons]
    rw [ih _ _ _ _ (Nat.mod_lt _ (by norm_num))]
    generalize List.sum (List.map (fun s : Nat × Nat × Nat => (s.2.2 <<< (32 - s.1)) % 2 ^ 32)
      (div64_steps d n (i + 1) _ _)) = S
    generalize ((((h <<< 32 ||| l) <<< 1) % 2 ^ 64) >>> 32 % 2 ^ 32 / d) <<< (32 - i) = x
    omega

theorem div64_steps_bits (d : Nat) (hd : 0 < d) (hd2 : d ≤ 2 ^ 31) :
    ∀ (n i h l : Nat), 1 ≤ i → i + n = 33 → h < d → l < 2 ^ 32 →
      ∀ s ∈ div64_steps d n i h l,
        1 ≤ s.1 ∧ s.1 ≤ 32 ∧ s.2.1 < 2 ^ 63 ∧ s.2.2 ≤ 1 := by
  intro n
  induction n with
  | zero =>
    intro i h l _ _ _ _ s hs
    simp [div64_steps] at hs
  | succ n ih =>
    intro i h l hi1 hi hh hl s hs
    unfold div64_steps at hs
    simp only [List.mem_cons] at hs
    have h63 : h * 2 ^ 32 + l < 2 ^ 63 := by
      norm_num at hl hd2 ⊢
      omega
    have h64 : (h * 2 ^ 32 + l) * 2 < 2 ^ 64 := by
      norm_num at h63 ⊢
      omega
    rw [shl32_or h l hl] at hs
    simp only [Nat.shiftLeft_eq, Nat.shiftRight_eq_div_pow, pow_one] at hs
    rw [Nat.mod_eq_of_lt h64] at hs
    rcases hs with hs | hs
    · subst hs
      refine ⟨hi1, by omega, h63, ?_⟩
      show (h * 2 ^ 32 + l) * 2 / 2 ^ 32 % 2 ^ 32 / d ≤ 1
      have hH : (h * 2 ^ 32 + l) * 2 / 2 ^ 32 % 2 ^ 32 < 2 * d := by
        norm_num at hl hd2 ⊢
        omega
      exact Nat.lt_succ_iff.1 ((Nat.div_lt_iff_lt_mul hd).2 hH)
    · exact ih (i + 1) _ _ (by omega) (by omega) (Nat.mod_lt _ hd)
        (Nat.mod_lt _ (by norm_num)) s hs

theorem div64_steps_counters (d : Nat) :
    ∀ (n i h l : Nat),
      (div64_steps d n i h l).map (fun s => s.1) = (List.range n).map (fun k => k + i) := by
  intro n
  induction n with
  | zero => intro i h l; rfl
  | succ n ih =>
    intro i h l
    unfold div64_steps
    simp only [List.map_cons, ih, List.range_succ_eq_map, List.map_map]
    rw [Nat.zero_add]
    congr 1
    apply List.map_congr_left
    intro k _
    simp only [Function.comp]
    omega

/-- Arming the alarm channel with index 1 where the two halves of channel 1 are
adjacent 32-bit registers: the low half of the compare value goes to the high
register of channel 1. -/
theorem rtc_set_alarm_second_channel (R : RtcConsts) (rtc : ptp_rtc) (T : Nat)
    (hadj : R.PTP_TMR_ALARM1_H = R.PTP_TMR_ALARM1_L + 4) (h1 : R.e_PTP_RTC_ALARM_1 ≠ 1) :
    rtc_set_alarm R rtc 1 T
      = (0, { rtc with mem_map := rtc.mem_map ++
          [(R.PTP_TMR_ALARM1_H, T % 2 ^ 32), (R.PTP_TMR_ALARM1_H + 4, (T >>> 32) % 2 ^ 32)] }) := by
  have hne : ¬ (1 = R.e_PTP_RTC_ALARM_1 ∧ rtc.start_pulse_on_alarm = true) :=
    fun h => h1 h.1.symm
  unfold rtc_set_alarm
  simp only [if_neg hne, writel, hadj, Nat.one_mul, List.append_assoc, List.singleton_append]

theorem captured_time_lt (C : CaptureConsts) (d : Direction) (mem_map : io_mem) :
    captured_time C d mem_map < 2 ^ 64 := by
  cases d <;> simp only [captured_time] <;> norm_num <;> omega

theorem capture_eq (C : CaptureConsts) (K : MsgCodes) (d : Direction) (mem_map : io_mem)
    (priv : fec_ptp_private) (skb : sk_buff) (bdp : bufdesc) (tmp : fec_ptp_ts_data)
    (hflag : flagged C d bdp) (hread : capture_readable C skb) :
    capture C K d mem_map priv skb bdp tmp =
      match capture_class C K skb with
      | none => .ok priv
      | some c => capture_insert d c priv (captured_record C d mem_map skb tmp) := by
  obtain ⟨h1, h2, h3, h4⟩ := hread
  have hseq : load_u16 skb C.FEC_PTP_SEQ_ID_OFFS
      = .ok (byte_at skb C.FEC_PTP_SEQ_ID_OFFS, byte_at skb (C.FEC_PTP_SEQ_ID_OFFS + 1)) :=
    load_u16_byte_at skb _ (by omega)
  have hctrl : load_u8 skb C.FEC_PTP_CTRL_OFFS = .ok (byte_at skb C.FEC_PTP_CTRL_OFFS) :=
    load_u8_byte_at skb _ h2
  have hmsg : load_u8 skb C.FEC_PTP_MSG_TYPE_OFFS = .ok (byte_at skb C.FEC_PTP_MSG_TYPE_OFFS) :=
    load_u8_byte_at skb _ h4
  have hsp : load_bytes skb C.FEC_PTP_SPORT_ID_OFFS 10
      = .ok ((skb.data.drop C.FEC_PTP_SPORT_ID_OFFS).take 10) := by
    unfold load_bytes
    rw [if_pos h3]
  cases d
  · have hf : ¬ (bdp.cbd_sc &&& C.BD_ENET_TX_PTP = 0) := hflag
    have htime : convert_rtc_time (((readl mem_map C.PTP_TMR_TXTS_H % 2 ^ 32) <<< 32)
          ||| (readl mem_map C.PTP_TMR_TXTS_L % 2 ^ 32))
        = .ok { sec := captured_time C .tx mem_map / 1000000000 % 2 ^ 32,
                nsec := captured_time C .tx mem_map % 1000000000 } := by
      rw [shl32_or _ _ (Nat.mod_lt _ (by norm_num))]
      exact convert_rtc_time_eq _ (captured_time_lt C .tx mem_map)
    simp only [capture, fec_ptp_store_txstamp, if_neg hf, htime, hseq, hctrl, hmsg, hsp]
    unfold capture_class capture_insert captured_record
    simp only [ntohs, be16]
    split_ifs <;> first | rfl | (exfalso; simp_all)
  · have hf : ¬ (bdp.cbd_sc &&& C.BD_ENET_RX_PTP = 0) := hflag
    have htime : convert_rtc_time (((readl mem_map C.PTP_TMR_RXTS_H % 2 ^ 32) <<< 32)
          ||| (readl mem_map C.PTP_TMR_RXTS_L % 2 ^ 32))
        = .ok { sec := captured_time C .rx mem_map / 1000000000 % 2 ^ 32,
                nsec := captured_time C .rx mem_map % 1000000000 } := by
      rw [shl32_or _ _ (Nat.mod_lt _ (by norm_num))]
      exact convert_rtc_time_eq _ (captured_time_lt C .rx mem_map)
    simp only [capture, fec_ptp_store_rxstamp, if_neg hf, htime, hseq, hctrl, hmsg, hsp]
    unfold capture_class capture_insert captured_record
    simp only [ntohs, be16]
    split_ifs <;> first | rfl | (exfalso; simp_all)

theorem capture_unflagged (C : CaptureConsts) (K : MsgCodes) (d : Direction) (mem_map : io_mem)
    (priv : fec_ptp_private) (skb : sk_buff) (bdp : bufdesc) (tmp : fec_ptp_ts_data)
    (hflag : ¬ flagged C d bdp) : capture C K d mem_map priv skb bdp tmp = .ok priv := by
  cases d
  · have hf : bdp.cbd_sc &&& C.BD_ENET_TX_PTP = 0 := not_not.1 hflag
    simp only [capture, fec_ptp_store_txstamp, if_pos hf]
  · have hf : bdp.cbd_sc &&& C.BD_ENET_RX_PTP = 0 := not_not.1 hflag
    simp only [capture, fec_ptp_store_rxstamp, if_pos hf]

/-! ## Theorems on the capture, the alarm channels and further ring operations -/

/-- C21 (the code departs from the claim): with the four alarm compare registers
at consecutive offsets, in the order in which `ptp_rtc_init` clears them, arming
the second channel (index 1) at 5 s, 1007 ns returns 0 and leaves the low
register of channel 1 as it was, the low half of the compare value in the high
register of channel 1, the high half in the low register of channel 2, and the
high register of channel 2 as it was. -/
theorem arm_second_alarm_crosses_channels :
    (ptp_rtc_init sample_rtc_consts (sample_ptp 1 1 true)).map
        (fun r =>
          (alarm_registers sample_rtc_consts r.2.rtc.mem_map,
           (ptp_rtc_set_alarm sample_rtc_consts r.2 1 { sec := 5, nsec := 1007 }).1,
           alarm_registers sample_rtc_consts
             (ptp_rtc_set_alarm sample_rtc_consts r.2 1 { sec := 5, nsec := 1007 }).2.rtc.mem_map))
      = .ok (((0xFFFFFFFF, 0xFFFFFFFF), (0xFFFFFFFF, 0xFFFFFFFF)), 0,
             ((0xFFFFFFFF, 705033711), (1, 0xFFFFFFFF)))
    ∧ 5 * 1000000000 + 1007 = 1 * 2 ^ 32 + 705033711 := by
  decide

/-- C22: the capture of a direction `d` leaves the stores as they are when the
descriptor does not carry the timestamp flag of `d`.  For a flagged frame whose
identity fields are readable: when the control byte (and, for the control value
`PTP_MSG_ALL_OTHER`, the low 4 bits of the message-type byte) gives the class
`c` and the store of `d` and `c` is well formed, the capture performs one
`fec_ptp_insert` of the captured record into that store, which returns 0, and
the seven other stores are unchanged; when they give no class, the stores are
unchanged. -/
theorem capture_routes_to_one_store (C : CaptureConsts) (K : MsgCodes) (d : Direction)
    (mem_map : io_mem) (priv : fec_ptp_private) (skb : sk_buff) (bdp : bufdesc)
    (tmp : fec_ptp_ts_data) :
    (¬ flagged C d bdp → capture C K d mem_map priv skb bdp tmp = .ok priv)
    ∧ (flagged C d bdp → capture_readable C skb →
        ∀ c, capture_class C K skb = some c → well_formed (priv.store d c) →
          ∃ b priv1, fec_ptp_insert (priv.store d c) (captured_record C d mem_map skb tmp)
              = .ok (0, b)
            ∧ capture C K d mem_map priv skb bdp tmp = .ok priv1
            ∧ priv1.store d c = b
            ∧ ∀ d2 c2, (d2, c2) ≠ (d, c) → priv1.store d2 c2 = priv.store d2 c2)
    ∧ (flagged C d bdp → capture_readable C skb → capture_class C K skb = none →
        capture C K d mem_map priv skb bdp tmp = .ok priv) := by
  refine ⟨capture_unflagged C K d mem_map priv skb bdp tmp, ?_, ?_⟩
  · intro hflag hread c hc hwf
    obtain ⟨b, hb, _, _, _⟩ := insert_well_formed (priv.store d c) hwf
      (captured_record C d mem_map skb tmp)
    refine ⟨b, priv.setStore d c b, hb, ?_, store_setStore priv d c b, ?_⟩
    · rw [capture_eq C K d mem_map priv skb bdp tmp hflag hread, hc]
      simp only [capture_insert, hb]
    · intro d2 c2 hne
      exact store_setStore_ne priv d d2 c c2 b hne
  · intro hflag hread hc
    rw [capture_eq C K d mem_map priv skb bdp tmp hflag hread, hc]

/-- Witness of C22: the transmit capture of `sample_udp_del_req` into empty
stores. -/
theorem capture_routes_to_one_store_witness :
    ∃ b priv1, fec_ptp_insert (sample_empty_priv.store .tx .del_req)
          (captured_record sample_capture_consts .tx sample_tsu sample_udp_del_req
            (sample_record 0)) = .ok (0, b)
      ∧ capture sample_capture_consts sample_codes .tx sample_tsu sample_empty_priv
          sample_udp_del_req { cbd_sc := 0x0400 } (sample_record 0) = .ok priv1
      ∧ priv1.store .tx .del_req = b
      ∧ ∀ d2 c2, (d2, c2) ≠ (Direction.tx, MsgClass.del_req) →
          priv1.store d2 c2 = sample_empty_priv.store d2 c2 :=
  (capture_routes_to_one_store sample_capture_consts sample_codes .tx sample_tsu
    sample_empty_priv sample_udp_del_req { cbd_sc := 0x0400 } (sample_record 0)).2.1
    (by decide) (by decide) .del_req (by decide) (by decide)

/-- C23 (the code departs from the claim): `sample_ether_del_req` and
`sample_udp_del_req` carry the same 34 PTP header bytes, a Delay_Req with
sequence id `0x1234` and source port id `0xA0 .. 0xA9`, and the classifier
accepts both, at header offsets 14 and 42.  The capture reads the identity at
offsets from the start of the frame, whatever the header offset is: for the
IPv4/UDP frame it records the identity of the header in the DelayRequest store,
for the Ethernet frame it records sequence id 0 and a source port id of zeros,
read from the padding behind the header, in the Sync store. -/
theorem capture_ignores_header_offset :
    (sample_ether_del_req.data.drop 14).take 34 = sample_ptp_header
    ∧ (sample_udp_del_req.data.drop 42).take 34 = sample_ptp_header
    ∧ (fec_ptp_parse_packet 34 sample_ether_del_req).map (fun r => r.1) = .ok (some 14)
    ∧ (fec_ptp_parse_packet 34 sample_udp_del_req).map (fun r => r.1) = .ok (some 42)
    ∧ (capture sample_capture_consts sample_codes .tx sample_tsu sample_empty_priv
          sample_udp_del_req { cbd_sc := 0x0400 } (sample_record 0)).map
        (fun p => ((live_records p.tx_time_sync).map (fun r => identity r.ident),
                   (live_records p.tx_time_del_req).map (fun r => identity r.ident)))
        = .ok ([], [(0x1234, [0xA0, 0xA1, 0xA2, 0xA3, 0xA4, 0xA5, 0xA6, 0xA7, 0xA8, 0xA9])])
    ∧ (capture sample_capture_consts sample_codes .tx sample_tsu sample_empty_priv
          sample_ether_del_req { cbd_sc := 0x0400 } (sample_record 0)).map
        (fun p => ((live_records p.tx_time_sync).map (fun r => identity r.ident),
                   (live_records p.tx_time_del_req).map (fun r => identity r.ident)))
        = .ok ([(0, [0, 0, 0, 0, 0, 0, 0, 0, 0, 0])], []) := by
  decide

/-- C24: on a well-formed store of capacity `N` that is not full, inserting a
record `r` returns 0, leaves `front` and `size` as they are, writes `r` into slot
`end`, sets `end` to `(end + 1) mod N` and changes no other slot; the live
records are the previous ones, in the same order, followed by `r`. -/
theorem insert_not_full_appends (buf : fec_ptp_circular) (hwf : well_formed buf)
    (hnf : fec_ptp_is_full buf = false) (r : fec_ptp_ts_data) :
    ∃ b, fec_ptp_insert buf r = .ok (0, b)
      ∧ b.front = buf.front ∧ b.size = buf.size
      ∧ b.data_buf[buf.end_]? = some r
      ∧ b.end_ = (buf.end_ + 1) % buf.size
      ∧ b.data_buf.length = buf.data_buf.length
      ∧ (∀ i, i ≠ buf.end_ → b.data_buf[i]? = buf.data_buf[i]?)
      ∧ live_records b = live_records buf ++ [r] := by
  refine ⟨_, insert_not_full buf hwf hnf r, rfl, rfl, ?_, rfl, ?_, ?_,
    live_records_insert_not_full buf hwf hnf r⟩
  · have hlt : buf.end_ < buf.data_buf.length := lt_of_lt_of_le hwf.2.2.2 hwf.2.1
    simp [List.getElem?_set, hlt]
  · simp
  · intro i hi
    simp [List.getElem?_set, Ne.symm hi]

/-- Witness of C24: record 2 is inserted into the store that holds record 1. -/
theorem insert_not_full_appends_witness :
    ∃ b, fec_ptp_insert sample_store_one (sample_record 2) = .ok (0, b)
      ∧ b.front = sample_store_one.front ∧ b.size = sample_store_one.size
      ∧ b.data_buf[sample_store_one.end_]? = some (sample_record 2)
      ∧ b.end_ = (sample_store_one.end_ + 1) % sample_store_one.size
      ∧ b.data_buf.length = sample_store_one.data_buf.length
      ∧ (∀ i, i ≠ sample_store_one.end_ → b.data_buf[i]? = sample_store_one.data_buf[i]?)
      ∧ live_records b = live_records sample_store_one ++ [sample_record 2] :=
  insert_not_full_appends sample_store_one (by decide) (by decide) (sample_record 2)

/-- C25 (the code departs from the claim): pulses gated on alarms, tick period 8,
output divisor 2, requested period 1000.  The value written to the reload
register of channel 0 is 992, and `992 + 8` is not a multiple of `2 * 8`. -/
theorem gated_pulse_not_of_fiper_form :
    rtc_set_periodic_pulse sample_rtc_consts sample_rtc_divisor_2 0 1000
      = .ok (0, { sample_rtc_divisor_2 with
          mem_map := [(sample_rtc_consts.PTP_TMR_FIPER1, 992)] })
    ∧ sample_rtc_divisor_2.start_pulse_on_alarm = true
    ∧ ¬ (sample_rtc_divisor_2.output_clock_divisor * sample_rtc_divisor_2.clock_period_nansec
          ∣ (992 + sample_rtc_divisor_2.clock_period_nansec) % 2 ^ 32) := by
  decide

/-- C26 (the code departs from the claim): `fec_ptp_init` allocates 2 slots for
the store, the flush request sets its size to 3.  Two insertions, a miss and a
third insertion then write slot 2, which is outside the allocated block. -/
theorem insert_after_flush_out_of_bounds :
    sample_flushed_store.data_buf.length = 2
    ∧ sample_flushed_store.size = 3
    ∧ run_ops [.insert (sample_record 1), .insert (sample_record 2),
          .find_and_remove (sample_record 7).ident] sample_flushed_store
        = .ok { front := 1, end_ := 2, size := 3,
                data_buf := [sample_record 1, sample_record 2] }
    ∧ run_ops [.insert (sample_record 1), .insert (sample_record 2),
          .find_and_remove (sample_record 7).ident, .insert (sample_record 3)]
          sample_flushed_store
        = .error .out_of_bounds := by
  decide

/-- C27: on a well-formed full store of capacity `N >= 2`, inserting a record `r`
returns 0, leaves `front` as it is, writes `r` into slot `front` and sets `end`
to `(front + 1) mod N`, so that `r` is the only live record; find-and-remove on
the resulting store finds `r` when `r` matches the identity asked for and misses
for every other identity, whatever the store held before. -/
theorem insert_full_leaves_only_new (buf : fec_ptp_circular) (hwf : well_formed buf)
    (h2 : 2 ≤ buf.size) (hfull : fec_ptp_is_full buf = true) (r : fec_ptp_ts_data) :
    ∃ b, fec_ptp_insert buf r = .ok (0, b)
      ∧ b.front = buf.front ∧ b.size = buf.size
      ∧ b.data_buf[buf.front]? = some r
      ∧ b.end_ = (buf.front + 1) % buf.size
      ∧ (live_records buf).length = buf.size - 1
      ∧ live_records b = [r]
      ∧ (∀ ident ts, ident_match r.ident ident = true →
          fec_ptp_find_and_remove b ident ts = .ok (0, b, r.ts))
      ∧ (∀ ident ts, ident_match r.ident ident = false →
          ∃ b1, fec_ptp_find_and_remove b ident ts = .ok (1, b1, ts)) := by
  have hes := full_end_succ buf hwf hfull
  have hins := insert_full buf hwf hfull r
  rw [hes] at hins
  have hflt : buf.front < buf.data_buf.length := lt_of_lt_of_le hwf.2.2.1 hwf.2.1
  have hwfb : well_formed
      { buf with data_buf := buf.data_buf.set buf.front r,
                 end_ := (buf.front + 1) % buf.size } := by
    refine ⟨hwf.1, ?_, hwf.2.2.1, Nat.mod_lt _ hwf.1⟩
    simpa using hwf.2.1
  have hcount : count { buf with data_buf := buf.data_buf.set buf.front r,
                                 end_ := (buf.front + 1) % buf.size } = 1 :=
    count_unique _ hwfb 1 (by simpa using h2) rfl
  have hlive : live_records { buf with data_buf := buf.data_buf.set buf.front r,
                                       end_ := (buf.front + 1) % buf.size } = [r] := by
    rw [live_records_eq _ hwfb, hcount]
    have hs : slots buf.size buf.front 1 = [buf.front] := by
      simp [slots, List.range_succ, Nat.mod_eq_of_lt hwf.2.2.1]
    simp only [hs]
    simp [List.getElem?_set, hflt]
  refine ⟨_, hins, rfl, rfl, ?_, rfl, ?_, hlive, ?_, ?_⟩
  · simp [List.getElem?_set, hflt]
  · rw [live_records_length buf hwf]
    have := (is_full_iff buf hwf).1 hfull
    omega
  · intro ident ts hm
    rw [find_and_remove_eq _ hwfb, hlive]
    simp [List.find?_cons, hm]
  · intro ident ts hm
    rw [find_and_remove_eq _ hwfb, hlive]
    simp [List.find?_cons, hm]

/-- Witness of C27: record 3 is inserted into the full `sample_store`. -/
theorem insert_full_leaves_only_new_witness :
    ∃ b, fec_ptp_insert sample_store (sample_record 3) = .ok (0, b)
      ∧ b.front = sample_store.front ∧ b.size = sample_store.size
      ∧ b.data_buf[sample_store.front]? = some (sample_record 3)
      ∧ b.end_ = (sample_store.front + 1) % sample_store.size
      ∧ (live_records sample_store).length = sample_store.size - 1
      ∧ live_records b = [sample_record 3]
      ∧ (∀ ident ts, ident_match (sample_record 3).ident ident = true →
          fec_ptp_find_and_remove b ident ts = .ok (0, b, (sample_record 3).ts))
      ∧ (∀ ident ts, ident_match (sample_record 3).ident ident = false →
          ∃ b1, fec_ptp_find_and_remove b ident ts = .ok (1, b1, ts)) :=
  insert_full_leaves_only_new sample_store (by decide) (by decide) (by decide) (sample_record 3)

/-- C28: for a 64-bit dividend `t`, a divisor `d` with `1 <= d <= 2^31` and
`*quotient` initially 0, `div64_oper` returns `t mod d` and leaves the low 32
bits of `floor(t / d)` in `*quotient`, which is `floor(t / d)` itself when that
is below `2^32`.  The loop makes 32 iterations, numbered 1 to 32; in each of
them the value `(time_h << 32) | time_l` is below `2^63`, so that the shift left
by one keeps every bit, `result` is 0 or 1, the contribution
`result << (32 - i)` fits 32 bits, and the quotient is the sum of the
contributions modulo `2^32`. -/
theorem div64_oper_exact (t d : Nat) (ht : t < 2 ^ 64) (hd : 1 ≤ d) (hd2 : d ≤ 2 ^ 31) :
    div64_oper t d 0 = .ok (t % d, (t / d) % 2 ^ 32)
    ∧ (t / d < 2 ^ 32 → div64_oper t d 0 = .ok (t % d, t / d))
    ∧ (div64_oper_steps t d).length = 32
    ∧ (div64_oper_steps t d).map (fun s => s.1) = (List.range 32).map (fun k => k + 1)
    ∧ (∀ s ∈ div64_oper_steps t d,
        s.2.1 < 2 ^ 63 ∧ (s.2.1 <<< 1) % 2 ^ 64 = s.2.1 * 2
          ∧ (s.2.2 = 0 ∨ s.2.2 = 1)
          ∧ s.2.2 <<< (32 - s.1) < 2 ^ 32)
    ∧ (t / d) % 2 ^ 32
        = ((div64_oper_steps t d).map (fun s => s.2.2 <<< (32 - s.1))).sum % 2 ^ 32 := by
  have hd0 : 0 < d := hd
  have hmain := div64_oper_eq t d 0 ht hd0 hd2 (by norm_num)
  rw [Nat.zero_add] at hmain
  have hbits := div64_steps_bits d hd0 hd2 32 1 (((t >>> 32) % 2 ^ 32) % d) (t % 2 ^ 32)
    (le_refl 1) rfl (Nat.mod_lt _ hd0) (Nat.mod_lt _ (by norm_num))
  have hstep : ∀ s ∈ div64_oper_steps t d,
      s.2.1 < 2 ^ 63 ∧ (s.2.1 <<< 1) % 2 ^ 64 = s.2.1 * 2
        ∧ (s.2.2 = 0 ∨ s.2.2 = 1)
        ∧ s.2.2 <<< (32 - s.1) < 2 ^ 32 := by
    intro s hs
    obtain ⟨h1, h32, h63, hr⟩ := hbits s hs
    refine ⟨h63, ?_, by omega, ?_⟩
    · rw [Nat.shiftLeft_eq, pow_one]
      apply Nat.mod_eq_of_lt
      norm_num at h63 ⊢
      omega
    · rw [Nat.shiftLeft_eq]
      have hp : 2 ^ (32 - s.1) ≤ 2 ^ 31 := Nat.pow_le_pow_right (by norm_num) (by omega)
      calc s.2.2 * 2 ^ (32 - s.1) ≤ 1 * 2 ^ 31 := Nat.mul_le_mul hr hp
        _ < 2 ^ 32 := by norm_num
  refine ⟨hmain, ?_, div64_steps_length d 32 1 _ _, ?_, hstep, ?_⟩
  · intro hlt
    rw [hmain, Nat.mod_eq_of_lt hlt]
  · exact div64_steps_counters d 32 1 _ _
  · have hmap : List.map (fun s : Nat × Nat × Nat => (s.2.2 <<< (32 - s.1)) % 2 ^ 32)
          (div64_oper_steps t d)
        = List.map (fun s : Nat × Nat × Nat => s.2.2 <<< (32 - s.1)) (div64_oper_steps t d) := by
      apply List.map_congr_left
      intro s hs
      exact Nat.mod_eq_of_lt (hstep s hs).2.2.2
    have hq : (div64_loop d 32 1 (((t >>> 32) % 2 ^ 32) % d) (t % 2 ^ 32) 0).2
        = (0 + (List.map (fun s : Nat × Nat × Nat => (s.2.2 <<< (32 - s.1)) % 2 ^ 32)
            (div64_oper_steps t d)).sum) % 2 ^ 32 :=
      div64_loop_quotient d 32 1 (((t >>> 32) % 2 ^ 32) % d) (t % 2 ^ 32) 0 (by norm_num)
    have hloop : div64_oper t d 0
        = .ok (div64_loop d 32 1 (((t >>> 32) % 2 ^ 32) % d) (t % 2 ^ 32) 0) := by
      unfold div64_oper
      rw [if_neg (Nat.pos_iff_ne_zero.1 hd0)]
    rw [hmain] at hloop
    simp only [Except.ok.injEq] at hloop
    rw [← hloop, Nat.zero_add, hmap] at hq
    exact hq

/-- Witness of C28: 10 000 000 005 divided by 1 000 000 000. -/
theorem div64_oper_exact_witness :
    div64_oper 10000000005 1000000000 0
      = .ok (10000000005 % 1000000000, 10000000005 / 1000000000) :=
  (div64_oper_exact 10000000005 1000000000 (by decide) (by decide) (by decide)).2.1
    (by decide)

/-- C29: for a message type with a store (class `c`, well formed) the lookup of
direction `d` returns the failure value when no live record of that store
matches; whenever it returns the failure value, that store is left with the
former live records without the oldest one if it was full before the lookup,
with the former live records otherwise, the seven other stores and `*ts` are
as they were.  A lookup for a message type that is none of the four codes
returns the failure value and leaves all stores and `*ts` as they were. -/
theorem failed_lookup_drops_at_most_oldest (K : MsgCodes) (d : Direction)
    (priv : fec_ptp_private) (pts : fec_ptp_ts_data) (t0 : ptp_time) :
    (∀ c, K.distinct → pts.ident.message_type = K.code c → well_formed (priv.store d c) →
        ((∀ r ∈ live_records (priv.store d c), ident_match r.ident pts.ident = false) →
          ∃ priv1, lookup K d priv pts t0 = .ok (lookup_failure d, priv1, t0))
        ∧ ∀ priv1 t1, lookup K d priv pts t0 = .ok (lookup_failure d, priv1, t1) →
            live_records (priv1.store d c)
                = (if fec_ptp_is_full (priv.store d c)
                   then (live_records (priv.store d c)).tail
                   else live_records (priv.store d c))
            ∧ (live_records (priv.store d c)).length
                ≤ (live_records (priv1.store d c)).length + 1
            ∧ (∀ d2 c2, (d2, c2) ≠ (d, c) → priv1.store d2 c2 = priv.store d2 c2)
            ∧ t1 = t0)
    ∧ ((∀ c, pts.ident.message_type ≠ K.code c) →
        lookup K d priv pts t0 = .ok (lookup_failure d, priv, t0)) := by
  constructor
  · intro c hK hmode hwf
    have hlook := lookup_well_formed K hK d c priv pts t0 hmode hwf
    rw [after_miss_idem _ hwf] at hlook
    constructor
    · intro hno
      have hfind : (live_records (priv.store d c)).find?
          (fun r => ident_match r.ident pts.ident) = none := by
        rw [List.find?_eq_none]
        intro r hr
        rw [hno r hr]
        exact Bool.false_ne_true
      rw [hlook, hfind]
      exact ⟨_, rfl⟩
    · intro priv1 t1 hfail
      rw [hlook] at hfail
      cases hfind : (live_records (priv.store d c)).find?
          (fun r => ident_match r.ident pts.ident) with
      | some r =>
        rw [hfind] at hfail
        simp only [Except.ok.injEq, Prod.mk.injEq] at hfail
        exact absurd hfail.1.symm (lookup_failure_ne_zero d)
      | none =>
        rw [hfind] at hfail
        simp only [Except.ok.injEq, Prod.mk.injEq, true_and] at hfail
        obtain ⟨hp, ht⟩ := hfail
        subst hp
        have hlr := live_records_after_miss (priv.store d c) hwf
        refine ⟨?_, ?_, ?_, ht.symm⟩
        · rw [store_setStore, hlr]
        · rw [store_setStore, hlr]
          split
          · rw [List.length_tail]; omega
          · omega
        · intro d2 c2 hne
          exact store_setStore_ne priv d d2 c c2 _ hne
  · intro hother
    cases d
    · simp [lookup, fec_get_tx_timestamp, tx_switch_other K _ _ _ _ _ hother, lookup_failure]
    · simp [lookup, fec_get_rx_timestamp, rx_switch_other K _ _ _ _ _ hother, lookup_failure]

/-- Witness of C29: the transmit lookup for record 7, which the full `sample_store`
does not hold, fails and drops record 1 from the Sync store. -/
theorem failed_lookup_drops_at_most_oldest_witness :
    live_records
        ((sample_priv.setStore .tx .sync { sample_store with front := 1 }).store .tx .sync)
      = (if fec_ptp_is_full (sample_priv.store .tx .sync)
         then (live_records (sample_priv.store .tx .sync)).tail
         else live_records (sample_priv.store .tx .sync)) :=
  (((failed_lookup_drops_at_most_oldest sample_codes .tx sample_priv (sample_record 7)
      { sec := 0, nsec := 0 }).1 .sync (by decide) rfl (by decide)).2
    (sample_priv.setStore .tx .sync { sample_store with front := 1 }) { sec := 0, nsec := 0 }
    (by decide)).1

/-- C30: on a well-formed store, when the live records, oldest first, are `pre`,
then `r`, then `post`, no record of `pre` matches the identity asked for and `r`
matches it, find-and-remove returns 0 with the time of `r` and the store
unchanged, whichever records of `post` match the identity as well. -/
theorem find_and_remove_oldest_match (buf : fec_ptp_circular) (hwf : well_formed buf)
    (ident : fec_ptp_ident) (ts : ptp_time) (pre post : List fec_ptp_ts_data)
    (r : fec_ptp_ts_data) (hlive : live_records buf = pre ++ r :: post)
    (hpre : ∀ x ∈ pre, ident_match x.ident ident = false)
    (hr : ident_match r.ident ident = true) :
    fec_ptp_find_and_remove buf ident ts = .ok (0, buf, r.ts) := by
  have hfind : (live_records buf).find? (fun r => ident_match r.ident ident) = some r := by
    rw [hlive, List.find?_append]
    have hnone : pre.find? (fun r => ident_match r.ident ident) = none := by
      rw [List.find?_eq_none]
      intro x hx
      rw [hpre x hx]
      exact Bool.false_ne_true
    rw [hnone]
    simp [List.find?_cons, hr]
  rw [find_and_remove_eq buf hwf, hfind]

/-- Witness of C30: two live records of `sample_store_twins` carry the identity of
record 1; the time of the older one is returned. -/
theorem find_and_remove_oldest_match_witness :
    fec_ptp_find_and_remove sample_store_twins (sample_record 1).ident { sec := 0, nsec := 0 }
      = .ok (0, sample_store_twins, (sample_record 1).ts) :=
  find_and_remove_oldest_match sample_store_twins (by decide) (sample_record 1).ident
    { sec := 0, nsec := 0 } [] [{ sample_record 1 with ts := { sec := 9, nsec := 9 } },
      sample_record 2] (sample_record 1) (by decide) (by simp) (by decide)

/-! ## Theorems on the wrap-around of the pulse period -/

/-- Where the subtractions of `rtc_set_periodic_pulse` do not wrap: without the
alarm gate for a period of at least one tick, with the alarm gate when the
period rounded down is at least two ticks.  The value written is then not
larger than the period. -/
theorem rtc_set_periodic_pulse_no_wrap (R : RtcConsts) (rtc : ptp_rtc) (pulse_ID P : Nat)
    (ht : 1 ≤ rtc.clock_period_nansec) (hD : 1 ≤ rtc.output_clock_divisor)
    (hM : rtc.clock_period_nansec * rtc.output_clock_divisor < 2 ^ 32)
    (hP : P + rtc.clock_period_nansec < 2 ^ 32)
    (hbig : if rtc.start_pulse_on_alarm = true then
        2 * rtc.clock_period_nansec ≤ (P + rtc.clock_period_nansec)
          / (rtc.clock_period_nansec * rtc.output_clock_divisor)
          * (rtc.clock_period_nansec * rtc.output_clock_divisor)
      else rtc.clock_period_nansec ≤ P) :
    ∃ v, rtc_set_periodic_pulse R rtc pulse_ID P
        = .ok (0, { rtc with mem_map := rtc.mem_map ++ [(R.PTP_TMR_FIPER1 + pulse_ID * 4, v)] })
      ∧ v ≤ P := by
  by_cases hg : rtc.start_pulse_on_alarm = true
  · rw [if_pos hg] at hbig
    refine ⟨_, rtc_set_periodic_pulse_gated R rtc pulse_ID P hg ht hD hM hP, ?_⟩
    have hfle : (P + rtc.clock_period_nansec)
        / (rtc.clock_period_nansec * rtc.output_clock_divisor)
        * (rtc.clock_period_nansec * rtc.output_clock_divisor) ≤ P + rtc.clock_period_nansec :=
      Nat.div_mul_le_self _ _
    generalize (P + rtc.clock_period_nansec)
        / (rtc.clock_period_nansec * rtc.output_clock_divisor)
        * (rtc.clock_period_nansec * rtc.output_clock_divisor) = F at hbig hfle ⊢
    rw [sub32_eq F _ (by omega) (by omega), sub32_eq _ _ (by omega) (by omega)]
    omega
  · have hg0 : rtc.start_pulse_on_alarm = false := by simpa using hg
    rw [if_neg hg] at hbig
    refine ⟨_, rtc_set_periodic_pulse_free R rtc pulse_ID P hg0, ?_⟩
    rw [sub32_eq P _ (by omega) hbig]
    omega

/-- C31 (the code departs from the claim): tick period 8, output divisor 1,
channel 0, requested period 3 ns.  `ptp_rtc_set_periodic_pulse` accepts the
request (returns 0) and the subtraction of the tick period wraps: the value
written to the reload register is `2^32 - 8` with the alarm gate (the period is
first rounded to 0) and `2^32 - 5` without it, both larger than 3. -/
theorem small_period_wraps :
    (ptp_rtc_set_periodic_pulse sample_rtc_consts (sample_ptp 1 1 true) 0
        { sec := 0, nsec := 3 }).map (fun r => (r.1, r.2.rtc.mem_map))
      = .ok (0, [(sample_rtc_consts.PTP_TMR_FIPER1, 4294967288)])
    ∧ (ptp_rtc_set_periodic_pulse sample_rtc_consts (sample_ptp 1 1 false) 0
        { sec := 0, nsec := 3 }).map (fun r => (r.1, r.2.rtc.mem_map))
      = .ok (0, [(sample_rtc_consts.PTP_TMR_FIPER1, 4294967291)])
    ∧ convert_unsigned_time { sec := 0, nsec := 3 } = 3
    ∧ (3 : Nat) < 4294967288 ∧ (3 : Nat) < 4294967291
    ∧ (4294967288 : Nat) = 2 ^ 32 - 8 ∧ (4294967291 : Nat) = 2 ^ 32 - 5 := by
  decide

end ImxPtp
